import Mathlib

/-!
# Verification of the `openapi-schema` decoder/encoder

This file is a shallow embedding, in Lean 4, of the Rust crate `openapi-schema`
(`src/lib.rs`, `src/v2/schema.rs`, `src/v3/schema.rs`).  The crate binds JSON
documents in either the Swagger 2.0 ("v2") or OpenAPI 3 ("v3") format into a
typed object graph using `serde` derived codecs, and re-emits the graph as JSON.

The embedding models:

* JSON values (`Json`) as a nested inductive; objects are association lists of
  key/value pairs in source order, which faithfully represents JSON text
  (including duplicate keys).  JSON numbers are modelled as integers: no claim
  under consideration involves non-integral numerals, and floating point is out
  of scope for the embedding.
* `serde_json` deserialization errors (`DErr`), distinguishing syntactically
  malformed input from "data did not match any variant of untagged enum"
  failures, missing/duplicated fields and type mismatches.
* the derived `Deserialize`/`Serialize` semantics of each struct in the crate:
  a struct consumes its declared (serialized) field names from the object, a
  `#[serde(flatten)] extensions` field captures every remaining key into a
  `BTreeMap` (last occurrence wins, keys sorted), unknown keys of structs
  without a flatten field are ignored, duplicated declared keys are an error,
  and `#[serde(untagged)]` enums try their variants in declaration order,
  returning the first that succeeds.
* `BTreeMap<String, T>` as a key-sorted association list (`Smap`), with the
  byte-lexicographic string order used by Rust's `Ord for String` (modelled
  character-wise on code points, which agrees with UTF-8 byte order).
* recursion in the object graph (`Schema`, `Items`, `Header/Media/Encoding`,
  `PathItem/Operation`) with a fuel parameter, decremented on each recursive
  descent; every entry point supplies the size `jsize` of the JSON input, which
  always suffices because decoding only descends into strict subterms (compare
  `serde_json`'s own recursion limit).

The `Extensions` type itself lives in `src/extension.rs`, which is not present
under `src/`; it is modelled from the spec (see `Extensions` below).
-/

/-- A JSON value.  Objects are association lists in source order (duplicate
keys representable, as in JSON text).  Numbers are modelled as integers. -/
inductive Json where
  | null
  | bool (b : Bool)
  | num (n : Int)
  | str (s : String)
  | arr (elems : List Json)
  | obj (mems : List (String × Json))

/-- Raw JSON object members: an association list in source order. -/
abbrev Omap := List (String × Json)

/-- A key-sorted association list, the model of `BTreeMap<String, α>`. -/
abbrev Smap (α : Type) := List (String × α)

/-- Decode errors, mirroring the distinctions made by `serde_json::Error`:
`malformed` is a syntax error in the input text, `noVariantMatched` is the
"data did not match any variant of untagged enum" failure, and the remaining
constructors are data errors raised by derived struct impls.  `recursionLimit`
mirrors `serde_json`'s recursion limit; the fuel supplied by the entry points
(`jsize` of the input) makes it unreachable in practice. -/
inductive DErr where
  | malformed
  | noVariantMatched
  | missingField (k : String)
  | duplicateField (k : String)
  | typeMismatch
  | recursionLimit
deriving DecidableEq

/-- Result of a decode step. -/
abbrev DRes (α : Type) := Except DErr α

/-! ## The string order of `BTreeMap<String, _>`

Rust's `Ord for String` compares UTF-8 bytes lexicographically, which agrees
with code-point lexicographic order.  `String.lt` in Lean does not reduce in
the kernel, so we use our own character-wise comparison. -/

/-- Code-point lexicographic order on character lists. -/
def lexLt : List Char → List Char → Bool
  | [], [] => false
  | [], _ :: _ => true
  | _ :: _, [] => false
  | a :: as, b :: bs =>
    if a.toNat < b.toNat then true
    else if a.toNat = b.toNat then lexLt as bs else false

/-- The string order used for `BTreeMap` keys. -/
def strLt (a b : String) : Bool := lexLt a.toList b.toList

/-- The keys of an association list. -/
def keysOf (l : List (String × α)) : List String := l.map Prod.fst

/-- Strictly increasing keys: the invariant of a `BTreeMap` rendered as a list. -/
def keysSorted : List String → Bool
  | a :: b :: t => strLt a b && keysSorted (b :: t)
  | _ => true

/-- Insert into a sorted association list, keeping an existing binding of the
same key.  Folded right-to-left over the entries this makes the *last*
occurrence of a key win, which is `BTreeMap`'s sequential-insert semantics. -/
def insKeep (k : String) (v : α) : Smap α → Smap α
  | [] => [(k, v)]
  | (k', v') :: t =>
    if strLt k k' then (k, v) :: (k', v') :: t
    else if k = k' then (k', v') :: t
    else (k', v') :: insKeep k v t

/-- Collect entries (in source order) into a sorted map; on duplicate keys the
last occurrence wins, as when `BTreeMap::insert` is called per entry. -/
def collectMap (l : List (String × α)) : Smap α :=
  l.foldr (fun p acc => insKeep p.1 p.2 acc) []

/-- Look a key up in an association list (first match). -/
def lookupKey : List (String × α) → String → Option α
  | [], _ => none
  | (k', v) :: t, k => if k' = k then some v else lookupKey t k

/-! ## Derived-struct field access

`getF kvs k` is the view a derived `Deserialize` impl has of field `k`:
`none` if the key is absent, its value if present once, and a duplicate-field
error if the key occurs more than once (serde's derived impls error on a
duplicated declared field). -/

def getF (kvs : Omap) (k : String) : DRes (Option Json) :=
  match kvs with
  | [] => .ok none
  | (k', v) :: t =>
    if k' == k then
      match getF t k with
      | .ok none => .ok (some v)
      | .ok (some _) => .error (.duplicateField k)
      | .error e => .error e
    else getF t k

/-- A required field: missing keys are an error (serde `missing field`). -/
def reqF (kvs : Omap) (k : String) (dec : Json → DRes α) : DRes α :=
  match getF kvs k with
  | .error e => .error e
  | .ok none => .error (.missingField k)
  | .ok (some v) => dec v

/-- An `Option` field with `skip_serializing_if = "Option::is_none"`:
absent keys decode to `none`. -/
def optF (kvs : Omap) (k : String) (dec : Json → DRes α) : DRes (Option α) :=
  match getF kvs k with
  | .error e => .error e
  | .ok none => .ok none
  | .ok (some v) => (dec v).map some

/-- The remainder of an object after the declared keys, collected into a
sorted map: the decode side of `#[serde(flatten)]` into a `BTreeMap`. -/
def extras (kvs : Omap) (decl : List String) : Smap Json :=
  collectMap (kvs.filter (fun p => !(decl.contains p.1)))

/-! ## Leaf decoders -/

def asStr : Json → DRes String
  | .str s => .ok s
  | _ => .error .typeMismatch

def asBool : Json → DRes Bool
  | .bool b => .ok b
  | _ => .error .typeMismatch

/-- `serde_json::Number` (restricted to the integral numerals the claims use). -/
def asNum : Json → DRes Int
  | .num n => .ok n
  | _ => .error .typeMismatch

/-- `serde_json::Value`: any JSON value decodes as itself. -/
def asValue : Json → DRes Json := fun j => .ok j

/-! ## Containers -/

/-- Decode each member value of an object (source order). -/
def decEntries (dec : Json → DRes α) : Omap → DRes (List (String × α))
  | [] => .ok []
  | (k, v) :: t =>
    match dec v with
    | .error e => .error e
    | .ok a =>
      match decEntries dec t with
      | .error e => .error e
      | .ok rest => .ok ((k, a) :: rest)

/-- Decode a JSON object into a `BTreeMap<String, α>`. -/
def decSmap (dec : Json → DRes α) : Json → DRes (Smap α)
  | .obj kvs => (decEntries dec kvs).map collectMap
  | _ => .error .typeMismatch

/-- Encode a `BTreeMap<String, α>` (already sorted) as a JSON object. -/
def encSmap (enc : α → Json) (m : Smap α) : Json :=
  .obj (m.map (fun p => (p.1, enc p.2)))

def decElems (dec : Json → DRes α) : List Json → DRes (List α)
  | [] => .ok []
  | v :: t =>
    match dec v with
    | .error e => .error e
    | .ok a =>
      match decElems dec t with
      | .error e => .error e
      | .ok rest => .ok (a :: rest)

/-- Decode a JSON array into a `Vec<α>`. -/
def decList (dec : Json → DRes α) : Json → DRes (List α)
  | .arr xs => decElems dec xs
  | _ => .error .typeMismatch

def encList (enc : α → Json) (xs : List α) : Json := .arr (xs.map enc)

/-! ## Encode-side field helpers -/

/-- A required field serializes as a single key/value pair. -/
def eReq (k : String) (v : Json) : Omap := [(k, v)]

/-- An `Option` field with `skip_serializing_if = "Option::is_none"`:
`none` serializes to nothing. -/
def eOpt (k : String) (enc : α → Json) : Option α → Omap
  | none => []
  | some a => [(k, enc a)]

/-! ## Extensions

Modelled from the spec: the `Extensions` type is declared in `src/extension.rs`,
which is not present under `src/`.  Per the spec (§3, §4.1) it is an
order-irrelevant mapping from string keys to arbitrary JSON values, attached by
composition (`#[serde(flatten)]`) to most object types; every key the enclosing
type does not name explicitly is captured into it, regardless of the `x-`
prefix convention, and it is re-emitted at the same object level on encode.
This matches `BTreeMap<String, serde_json::Value>` (compare the inlined
`extensions: BTreeMap<String, serde_json::Value>` field of the v2 `Schema`,
which is in `src/` and is declared with the same `#[serde(flatten)]`). -/
abbrev Extensions := Smap Json

/-- Well-formedness of a captured extensions bag relative to the enclosing
type's declared keys: sorted (it is a `BTreeMap`) and disjoint from the
declared field names (a declared key is consumed by its field, never captured). -/
def goodExt (decl : List String) (ext : Extensions) : Bool :=
  keysSorted (keysOf ext) && ext.all (fun q => !(decl.contains q.1))

/-- `true` unless the bag binds the reserved pointer key `$ref` to a string —
the single shape that would make a re-decoded inline object match the
`Reference` arm of an untagged reference-or-inline enum. -/
def noStrRef (ext : Extensions) : Bool :=
  match lookupKey ext "$ref" with
  | some (.str _) => false
  | _ => true

def goodOpt (p : α → Bool) : Option α → Bool
  | none => true
  | some a => p a

def goodSmapBy (p : α → Bool) (m : Smap α) : Bool :=
  keysSorted (keysOf m) && m.all (fun q => p q.2)

/-- A map whose values carry no invariant (e.g. `BTreeMap<String, String>`). -/
def goodSmap (m : Smap α) : Bool := keysSorted (keysOf m)

/-! ## The JSON text parser (`serde_json::from_str`, syntax stage)

Fuel-based recursive descent over the character list.  Numbers are integral
(see the note on `Json`); strings support the JSON escapes.  A syntactically
invalid document is a `malformed` error — in `serde_json` this is a syntax
error such as "EOF while parsing a value", distinct from the untagged-enum
`noVariantMatched` failure. -/

def isWsChar (c : Char) : Bool :=
  c == ' ' || c == '\t' || c == '\n' || c == '\r'

def dropWs : List Char → List Char
  | c :: cs => if isWsChar c then dropWs cs else c :: cs
  | [] => []

def isDigitChar (c : Char) : Bool := '0' ≤ c && c ≤ '9'

def spanDigits : List Char → List Char × List Char
  | c :: cs =>
    if isDigitChar c then
      let (ds, r) := spanDigits cs
      (c :: ds, r)
    else ([], c :: cs)
  | [] => ([], [])

def digitsVal (ds : List Char) : Nat :=
  ds.foldl (fun acc c => acc * 10 + (c.toNat - '0'.toNat)) 0

def hexDigitVal (c : Char) : Option Nat :=
  let n := c.toNat
  if 48 ≤ n && n ≤ 57 then some (n - 48)
  else if 97 ≤ n && n ≤ 102 then some (n - 87)
  else if 65 ≤ n && n ≤ 70 then some (n - 55)
  else none

def escChar (e : Char) : Option Char :=
  if e = '"' then some e
  else if e = '\\' then some e
  else if e = '/' then some e
  else if e = 'n' then some '\n'
  else if e = 't' then some '\t'
  else if e = 'r' then some '\r'
  else if e = 'b' then some (Char.ofNat 8)
  else if e = 'f' then some (Char.ofNat 12)
  else none

/-- The body of a string literal, after the opening quote. -/
def pStrBody (acc : List Char) : List Char → DRes (String × List Char)
  | '"' :: r => .ok (String.mk acc.reverse, r)
  | '\\' :: 'u' :: a :: b :: c :: d :: r =>
    match hexDigitVal a, hexDigitVal b, hexDigitVal c, hexDigitVal d with
    | some va, some vb, some vc, some vd =>
      pStrBody (Char.ofNat (((va * 16 + vb) * 16 + vc) * 16 + vd) :: acc) r
    | _, _, _, _ => .error .malformed
  | '\\' :: e :: r =>
    match escChar e with
    | some c => pStrBody (c :: acc) r
    | none => .error .malformed
  | c :: r => pStrBody (c :: acc) r
  | [] => .error .malformed

/-- `some r` when the input begins with the given literal's characters,
`r` the rest. -/
def stripLit : List Char → List Char → Option (List Char)
  | [], r => some r
  | x :: xs, y :: r => if y = x then stripLit xs r else none
  | _ :: _, [] => none

/-- An integral JSON number (optional minus, one or more digits). -/
def pNum : List Char → DRes (Int × List Char)
  | '-' :: cs =>
    match spanDigits cs with
    | ([], _) => .error .malformed
    | (ds, r) => .ok (-(digitsVal ds : Int), r)
  | cs =>
    match spanDigits cs with
    | ([], _) => .error .malformed
    | (ds, r) => .ok ((digitsVal ds : Int), r)

mutual

def pVal : Nat → List Char → DRes (Json × List Char)
  | 0, _ => .error .malformed
  | fuel + 1, cs =>
    match dropWs cs with
    | '"' :: r =>
      match pStrBody [] r with
      | .ok (s, r') => .ok (.str s, r')
      | .error e => .error e
    | '[' :: r =>
      match dropWs r with
      | ']' :: r' => .ok (.arr [], r')
      | cs' =>
        match pArrItems fuel cs' with
        | .ok (xs, r') => .ok (.arr xs, r')
        | .error e => .error e
    | '{' :: r =>
      match dropWs r with
      | '}' :: r' => .ok (.obj [], r')
      | cs' =>
        match pObjItems fuel cs' with
        | .ok (ms, r') => .ok (.obj ms, r')
        | .error e => .error e
    | rest =>
      match stripLit ['n', 'u', 'l', 'l'] rest with
      | some r => .ok (.null, r)
      | none =>
        match stripLit ['t', 'r', 'u', 'e'] rest with
        | some r => .ok (.bool true, r)
        | none =>
          match stripLit ['f', 'a', 'l', 's', 'e'] rest with
          | some r => .ok (.bool false, r)
          | none =>
            match rest with
            | c :: r =>
              if c == '-' || isDigitChar c then
                match pNum (c :: r) with
                | .ok (n, r') => .ok (.num n, r')
                | .error e => .error e
              else .error .malformed
            | [] => .error .malformed

def pArrItems : Nat → List Char → DRes (List Json × List Char)
  | 0, _ => .error .malformed
  | fuel + 1, cs =>
    match pVal fuel cs with
    | .error e => .error e
    | .ok (v, r) =>
      match dropWs r with
      | ',' :: r' =>
        match pArrItems fuel r' with
        | .ok (xs, r'') => .ok (v :: xs, r'')
        | .error e => .error e
      | ']' :: r' => .ok ([v], r')
      | _ => .error .malformed

def pObjItems : Nat → List Char → DRes (List (String × Json) × List Char)
  | 0, _ => .error .malformed
  | fuel + 1, cs =>
    match dropWs cs with
    | '"' :: r =>
      match pStrBody [] r with
      | .error e => .error e
      | .ok (k, r1) =>
        match dropWs r1 with
        | ':' :: r2 =>
          match pVal fuel r2 with
          | .error e => .error e
          | .ok (v, r3) =>
            match dropWs r3 with
            | ',' :: r4 =>
              match pObjItems fuel r4 with
              | .ok (ms, r5) => .ok ((k, v) :: ms, r5)
              | .error e => .error e
            | '}' :: r4 => .ok ([(k, v)], r4)
            | _ => .error .malformed
        | _ => .error .malformed
    | _ => .error .malformed

end

/-- The syntax stage of `serde_json::from_str`. -/
def parseJson (s : String) : DRes Json :=
  match pVal (s.length + 1) s.toList with
  | .error e => .error e
  | .ok (j, r) => if (dropWs r).isEmpty then .ok j else .error .malformed

/-! ## A structural size for JSON values

Supplied as fuel to the recursive decoders: decoding descends only into strict
subterms of its input, so `jsize` of the input always bounds the recursion
depth.  (The auto-derived `sizeOf` has no executable code for this nested
inductive, hence a hand-rolled size.) -/

mutual

def jsize : Json → Nat
  | .null => 1
  | .bool _ => 1
  | .num _ => 1
  | .str _ => 1
  | .arr xs => 1 + jsizeElems xs
  | .obj ms => 1 + jsizeMems ms

def jsizeElems : List Json → Nat
  | [] => 0
  | x :: t => 1 + jsize x + jsizeElems t

def jsizeMems : List (String × Json) → Nat
  | [] => 0
  | (_, v) :: t => 1 + jsize v + jsizeMems t

end

/-! ## Reference and reference-or-inline

`Reference` appears (with identical shape) in both `src/v2/schema.rs` and
`src/v3/schema.rs`: a struct with the single field `reference`, serialized as
the reserved pointer key `$ref`.  Derived deserialization ignores unknown
(sibling) keys, so any object binding `$ref` to a string decodes as a
`Reference`, discarding the siblings. -/

structure Reference where
  reference : String

def decReference : Json → DRes Reference
  | .obj kvs =>
    match reqF kvs "$ref" asStr with
    | .ok s => .ok ⟨s⟩
    | .error e => .error e
  | _ => .error .typeMismatch

def encReference (r : Reference) : Json := .obj [("$ref", .str r.reference)]

/-- `RefOrObject<T>` (`src/v3/schema.rs`): an untagged enum whose variants are
tried in declaration order, `Ref(Reference)` first, then `Object(T)`.  The v2
`ParameterOrRef` enum has the same variant order and shapes and is embedded as
`RefOrObject Parameter`. -/
inductive RefOrObject (α : Type) where
  | ref (r : Reference)
  | obj (t : α)

/-- Untagged decode of `RefOrObject<T>`: first variant that succeeds wins;
if both fail the untagged enum reports that no variant matched. -/
def decRefOr (decT : Json → DRes α) (j : Json) : DRes (RefOrObject α) :=
  match decReference j with
  | .ok r => .ok (.ref r)
  | .error _ =>
    match decT j with
    | .ok t => .ok (.obj t)
    | .error _ => .error .noVariantMatched

def encRefOr (encT : α → Json) : RefOrObject α → Json
  | .ref r => encReference r
  | .obj t => encT t

def goodRefOr (p : α → Bool) : RefOrObject α → Bool
  | .ref _ => true
  | .obj t => p t

/-! ## The v2 object graph (`src/v2/schema.rs`) -/

namespace V2

/-- `TransferProtocol`, `#[serde(rename_all = "lowercase")]`. -/
inductive TransferProtocol where
  | http
  | https
  | ws
  | wss

def decTransferProtocol : Json → DRes TransferProtocol
  | .str "http" => .ok .http
  | .str "https" => .ok .https
  | .str "ws" => .ok .ws
  | .str "wss" => .ok .wss
  | _ => .error .typeMismatch

def encTransferProtocol : TransferProtocol → Json
  | .http => .str "http"
  | .https => .str "https"
  | .ws => .str "ws"
  | .wss => .str "wss"

/-- `InEnum`, `rename_all = "lowercase"`. -/
inductive InEnum where
  | query
  | header

def decInEnum : Json → DRes InEnum
  | .str "query" => .ok .query
  | .str "header" => .ok .header
  | _ => .error .typeMismatch

def encInEnum : InEnum → Json
  | .query => .str "query"
  | .header => .str "header"

/-- `Flow`, `rename_all = "lowercase"` (so `AccessCode` serializes as
`"accesscode"`, all lowercase). -/
inductive Flow where
  | implicit
  | password
  | application
  | accessCode

def decFlow : Json → DRes Flow
  | .str "implicit" => .ok .implicit
  | .str "password" => .ok .password
  | .str "application" => .ok .application
  | .str "accesscode" => .ok .accessCode
  | _ => .error .typeMismatch

def encFlow : Flow → Json
  | .implicit => .str "implicit"
  | .password => .str "password"
  | .application => .str "application"
  | .accessCode => .str "accesscode"

/-- `AuthorizationUrl`, `rename_all = "lowercase"`. -/
inductive AuthorizationUrl where
  | implicit
  | accessCode

def decAuthorizationUrl : Json → DRes AuthorizationUrl
  | .str "implicit" => .ok .implicit
  | .str "accesscode" => .ok .accessCode
  | _ => .error .typeMismatch

def encAuthorizationUrl : AuthorizationUrl → Json
  | .implicit => .str "implicit"
  | .accessCode => .str "accesscode"

/-- `TokenUrl`, `rename_all = "camelCase"`. -/
inductive TokenUrl where
  | password
  | application
  | accessCode

def decTokenUrl : Json → DRes TokenUrl
  | .str "password" => .ok .password
  | .str "application" => .ok .application
  | .str "accessCode" => .ok .accessCode
  | _ => .error .typeMismatch

def encTokenUrl : TokenUrl → Json
  | .password => .str "password"
  | .application => .str "application"
  | .accessCode => .str "accessCode"

/-- `SecuritySchemeType`, `rename_all = "camelCase"`.  (The `Scopes` enum of
the source is declared but referenced by no field, so it is omitted.) -/
inductive SecuritySchemeType where
  | basic
  | apiKey
  | oauth2

def decSecuritySchemeType : Json → DRes SecuritySchemeType
  | .str "basic" => .ok .basic
  | .str "apiKey" => .ok .apiKey
  | .str "oauth2" => .ok .oauth2
  | _ => .error .typeMismatch

def encSecuritySchemeType : SecuritySchemeType → Json
  | .basic => .str "basic"
  | .apiKey => .str "apiKey"
  | .oauth2 => .str "oauth2"

/-- `ParamInEnum`, `rename_all = "camelCase"`. -/
inductive ParamInEnum where
  | query
  | header
  | path
  | formData
  | body

def decParamInEnum : Json → DRes ParamInEnum
  | .str "query" => .ok .query
  | .str "header" => .ok .header
  | .str "path" => .ok .path
  | .str "formData" => .ok .formData
  | .str "body" => .ok .body
  | _ => .error .typeMismatch

def encParamInEnum : ParamInEnum → Json
  | .query => .str "query"
  | .header => .str "header"
  | .path => .str "path"
  | .formData => .str "formData"
  | .body => .str "body"

/-- `ParameterType`, `rename_all = "lowercase"`. -/
inductive ParameterType where
  | string
  | number
  | integer
  | boolean
  | array
  | file

def decParameterType : Json → DRes ParameterType
  | .str "string" => .ok .string
  | .str "number" => .ok .number
  | .str "integer" => .ok .integer
  | .str "boolean" => .ok .boolean
  | .str "array" => .ok .array
  | .str "file" => .ok .file
  | _ => .error .typeMismatch

def encParameterType : ParameterType → Json
  | .string => .str "string"
  | .number => .str "number"
  | .integer => .str "integer"
  | .boolean => .str "boolean"
  | .array => .str "array"
  | .file => .str "file"

/-- `ItemsType`, `rename_all = "lowercase"`. -/
inductive ItemsType where
  | string
  | number
  | integer
  | boolean
  | array

def decItemsType : Json → DRes ItemsType
  | .str "string" => .ok .string
  | .str "number" => .ok .number
  | .str "integer" => .ok .integer
  | .str "boolean" => .ok .boolean
  | .str "array" => .ok .array
  | _ => .error .typeMismatch

def encItemsType : ItemsType → Json
  | .string => .str "string"
  | .number => .str "number"
  | .integer => .str "integer"
  | .boolean => .str "boolean"
  | .array => .str "array"

/-- `ExternalDoc` (v2): no extensions bag. -/
structure ExternalDoc where
  description : Option String
  url : String

abbrev declExternalDoc : List String := ["description", "url"]

def decExternalDoc : Json → DRes ExternalDoc
  | .obj kvs => do
    let description ← optF kvs "description" asStr
    let url ← reqF kvs "url" asStr
    pure ⟨description, url⟩
  | _ => .error .typeMismatch

def encExternalDoc (x : ExternalDoc) : Json :=
  .obj (eOpt "description" Json.str x.description ++ eReq "url" (.str x.url))

/-- `Tag` (v2): `external_doc` renamed to `externalDoc`; no extensions bag. -/
structure Tag where
  name : String
  description : Option String
  external_doc : Option ExternalDoc

abbrev declTag : List String := ["name", "description", "externalDoc"]

def decTag : Json → DRes Tag
  | .obj kvs => do
    let name ← reqF kvs "name" asStr
    let description ← optF kvs "description" asStr
    let external_doc ← optF kvs "externalDoc" decExternalDoc
    pure ⟨name, description, external_doc⟩
  | _ => .error .typeMismatch

def encTag (x : Tag) : Json :=
  .obj (eReq "name" (.str x.name) ++ eOpt "description" Json.str x.description ++
    eOpt "externalDoc" encExternalDoc x.external_doc)

/-- `Contact` (v2). -/
structure Contact where
  name : Option String
  url : Option String
  email : Option String
  extensions : Extensions

abbrev declContact : List String := ["name", "url", "email"]

def decContact : Json → DRes Contact
  | .obj kvs => do
    let name ← optF kvs "name" asStr
    let url ← optF kvs "url" asStr
    let email ← optF kvs "email" asStr
    pure ⟨name, url, email, extras kvs declContact⟩
  | _ => .error .typeMismatch

def encContact (x : Contact) : Json :=
  .obj (eOpt "name" Json.str x.name ++ eOpt "url" Json.str x.url ++
    eOpt "email" Json.str x.email ++ x.extensions)

def goodContact (x : Contact) : Bool := goodExt declContact x.extensions

/-- `License` (v2). -/
structure License where
  name : String
  url : Option String
  extensions : Extensions

abbrev declLicense : List String := ["name", "url"]

def decLicense : Json → DRes License
  | .obj kvs => do
    let name ← reqF kvs "name" asStr
    let url ← optF kvs "url" asStr
    pure ⟨name, url, extras kvs declLicense⟩
  | _ => .error .typeMismatch

def encLicense (x : License) : Json :=
  .obj (eReq "name" (.str x.name) ++ eOpt "url" Json.str x.url ++ x.extensions)

def goodLicense (x : License) : Bool := goodExt declLicense x.extensions

/-- `Info` (v2): `terms_of_service` renamed to `termsOfService`. -/
structure Info where
  title : String
  description : Option String
  terms_of_service : Option String
  contact : Option Contact
  license : Option License
  version : Option String
  extensions : Extensions

abbrev declInfo : List String :=
  ["title", "description", "termsOfService", "contact", "license", "version"]

def decInfo : Json → DRes Info
  | .obj kvs => do
    let title ← reqF kvs "title" asStr
    let description ← optF kvs "description" asStr
    let terms_of_service ← optF kvs "termsOfService" asStr
    let contact ← optF kvs "contact" decContact
    let license ← optF kvs "license" decLicense
    let version ← optF kvs "version" asStr
    pure ⟨title, description, terms_of_service, contact, license, version, extras kvs declInfo⟩
  | _ => .error .typeMismatch

def encInfo (x : Info) : Json :=
  .obj (eReq "title" (.str x.title) ++ eOpt "description" Json.str x.description ++
    eOpt "termsOfService" Json.str x.terms_of_service ++
    eOpt "contact" encContact x.contact ++ eOpt "license" encLicense x.license ++
    eOpt "version" Json.str x.version ++ x.extensions)

def goodInfo (x : Info) : Bool :=
  goodExt declInfo x.extensions && goodOpt goodContact x.contact &&
    goodOpt goodLicense x.license

/-- `SecurityRequirementObject`: a newtype over `BTreeMap<String, Vec<String>>`,
serialized transparently as the inner map. -/
def SecurityRequirementObject : Type := Smap (List String)

def decSecurityRequirementObject : Json → DRes SecurityRequirementObject :=
  decSmap (decList asStr)

def encSecurityRequirementObject (m : SecurityRequirementObject) : Json :=
  encSmap (encList Json.str) m

def goodSecurityRequirementObject (m : SecurityRequirementObject) : Bool :=
  goodSmap (α := List String) m

/-- `SecurityScheme` (v2). -/
structure SecurityScheme where
  type : SecuritySchemeType
  description : Option String
  name : String
  in_ : InEnum
  flow : Flow
  authorization_url : AuthorizationUrl
  token_url : TokenUrl
  scopes : Smap String
  extensions : Extensions

abbrev declSecurityScheme : List String :=
  ["type", "description", "name", "in", "flow", "authorizationUrl", "tokenUrl", "scopes"]

def decSecurityScheme : Json → DRes SecurityScheme
  | .obj kvs => do
    let type ← reqF kvs "type" decSecuritySchemeType
    let description ← optF kvs "description" asStr
    let name ← reqF kvs "name" asStr
    let in_ ← reqF kvs "in" decInEnum
    let flow ← reqF kvs "flow" decFlow
    let authorization_url ← reqF kvs "authorizationUrl" decAuthorizationUrl
    let token_url ← reqF kvs "tokenUrl" decTokenUrl
    let scopes ← reqF kvs "scopes" (decSmap asStr)
    pure ⟨type, description, name, in_, flow, authorization_url, token_url, scopes,
      extras kvs declSecurityScheme⟩
  | _ => .error .typeMismatch

def encSecurityScheme (x : SecurityScheme) : Json :=
  .obj (eReq "type" (encSecuritySchemeType x.type) ++
    eOpt "description" Json.str x.description ++ eReq "name" (.str x.name) ++
    eReq "in" (encInEnum x.in_) ++ eReq "flow" (encFlow x.flow) ++
    eReq "authorizationUrl" (encAuthorizationUrl x.authorization_url) ++
    eReq "tokenUrl" (encTokenUrl x.token_url) ++
    eReq "scopes" (encSmap Json.str x.scopes) ++ x.extensions)

def goodSecurityScheme (x : SecurityScheme) : Bool :=
  goodExt declSecurityScheme x.extensions && goodSmap (α := String) x.scopes

end V2

namespace V2

/-- The fields of the v2 `Schema` object, parametric in the type used at its
recursive positions (`items`, `properties`, `allOf`).  The v2 `Schema` carries
its extensions inline as `BTreeMap<String, serde_json::Value>`. -/
structure SchemaCore (s : Type) where
  reference : Option String
  title : Option String
  description : Option String
  type : Option String
  format : Option String
  enum : Option (List String)
  required : Option (List String)
  default : Option Json
  maximum : Option Int
  exclusive_maximum : Option Bool
  minimum : Option Int
  exclusive_minimum : Option Bool
  max_length : Option Int
  min_length : Option Int
  pattern : Option String
  max_items : Option Int
  min_items : Option Int
  unique_items : Option Bool
  multiple_of : Option Int
  items : Option s
  properties : Option (List (String × s))
  all_of : Option (List s)
  extensions : Extensions

/-- `Schema` (v2), recursive through `items`, `properties` and `allOf`. -/
inductive Schema where
  | mk : SchemaCore Schema → Schema

def Schema.core : Schema → SchemaCore Schema
  | .mk c => c

abbrev declSchema : List String :=
  ["$ref", "title", "description", "type", "format", "enum", "required", "default",
   "maximum", "exclusiveMaximum", "minimum", "exclusiveMinimum", "maxLength",
   "minLength", "pattern", "maxItems", "minItems", "uniqueItems", "multipleOf",
   "items", "properties", "allOf"]

def decSchemaAux : Nat → Json → DRes Schema
  | 0, _ => .error .recursionLimit
  | fuel + 1, .obj kvs => do
    let reference ← optF kvs "$ref" asStr
    let title ← optF kvs "title" asStr
    let description ← optF kvs "description" asStr
    let type ← optF kvs "type" asStr
    let format ← optF kvs "format" asStr
    let enum ← optF kvs "enum" (decList asStr)
    let required ← optF kvs "required" (decList asStr)
    let default ← optF kvs "default" asValue
    let maximum ← optF kvs "maximum" asNum
    let exclusive_maximum ← optF kvs "exclusiveMaximum" asBool
    let minimum ← optF kvs "minimum" asNum
    let exclusive_minimum ← optF kvs "exclusiveMinimum" asBool
    let max_length ← optF kvs "maxLength" asNum
    let min_length ← optF kvs "minLength" asNum
    let pattern ← optF kvs "pattern" asStr
    let max_items ← optF kvs "maxItems" asNum
    let min_items ← optF kvs "minItems" asNum
    let unique_items ← optF kvs "uniqueItems" asBool
    let multiple_of ← optF kvs "multipleOf" asNum
    let items ← optF kvs "items" (decSchemaAux fuel)
    let properties ← optF kvs "properties" (decSmap (decSchemaAux fuel))
    let all_of ← optF kvs "allOf" (decList (decSchemaAux fuel))
    pure (.mk ⟨reference, title, description, type, format, enum, required, default,
      maximum, exclusive_maximum, minimum, exclusive_minimum, max_length, min_length,
      pattern, max_items, min_items, unique_items, multiple_of, items, properties,
      all_of, extras kvs declSchema⟩)
  | _ + 1, _ => .error .typeMismatch

/-- Decode a v2 `Schema`; the fuel (`sizeOf` of the input) bounds the
recursion depth, which decoding cannot exceed. -/
def decSchema (j : Json) : DRes Schema := decSchemaAux (jsize j) j

mutual

def encSchema : Schema → Json
  | .mk ⟨reference, title, description, type, format, enum, required, default,
      maximum, exclusive_maximum, minimum, exclusive_minimum, max_length, min_length,
      pattern, max_items, min_items, unique_items, multiple_of, items, properties,
      all_of, ext⟩ =>
    .obj (eOpt "$ref" Json.str reference ++ eOpt "title" Json.str title ++
      eOpt "description" Json.str description ++ eOpt "type" Json.str type ++
      eOpt "format" Json.str format ++ eOpt "enum" (encList Json.str) enum ++
      eOpt "required" (encList Json.str) required ++ eOpt "default" id default ++
      eOpt "maximum" Json.num maximum ++ eOpt "exclusiveMaximum" Json.bool exclusive_maximum ++
      eOpt "minimum" Json.num minimum ++ eOpt "exclusiveMinimum" Json.bool exclusive_minimum ++
      eOpt "maxLength" Json.num max_length ++ eOpt "minLength" Json.num min_length ++
      eOpt "pattern" Json.str pattern ++ eOpt "maxItems" Json.num max_items ++
      eOpt "minItems" Json.num min_items ++ eOpt "uniqueItems" Json.bool unique_items ++
      eOpt "multipleOf" Json.num multiple_of ++ encSchemaItems items ++
      encSchemaProps properties ++ encSchemaAllOf all_of ++ ext)

def encSchemaItems : Option Schema → Omap
  | none => []
  | some s => [("items", encSchema s)]

def encSchemaProps : Option (List (String × Schema)) → Omap
  | none => []
  | some m => [("properties", Json.obj (encSchemaEntries m))]

def encSchemaEntries : List (String × Schema) → List (String × Json)
  | [] => []
  | (k, s) :: t => (k, encSchema s) :: encSchemaEntries t

def encSchemaAllOf : Option (List Schema) → Omap
  | none => []
  | some l => [("allOf", Json.arr (encSchemaElems l))]

def encSchemaElems : List Schema → List Json
  | [] => []
  | s :: t => encSchema s :: encSchemaElems t

end

mutual

def goodSchema : Schema → Bool
  | .mk ⟨_, _, _, _, _, _, _, _, _, _, _, _, _, _, _, _, _, _, _, items, properties,
      all_of, ext⟩ =>
    goodExt declSchema ext && goodSchemaItems items && goodSchemaProps2 properties &&
      goodSchemaAllOf all_of

def goodSchemaItems : Option Schema → Bool
  | none => true
  | some s => goodSchema s

def goodSchemaProps2 : Option (List (String × Schema)) → Bool
  | none => true
  | some m => keysSorted (keysOf m) && goodSchemaEntries m

def goodSchemaEntries : List (String × Schema) → Bool
  | [] => true
  | (_, s) :: t => goodSchema s && goodSchemaEntries t

def goodSchemaAllOf : Option (List Schema) → Bool
  | none => true
  | some l => goodSchemaElems l

def goodSchemaElems : List Schema → Bool
  | [] => true
  | s :: t => goodSchema s && goodSchemaElems t

end

/-- The fields of the v2 `Items` object, parametric in the recursive position. -/
structure ItemsCore (s : Type) where
  type : ItemsType
  format : Option String
  items : Option s
  collection_format : Option String
  default : Option Json
  maximum : Option Int
  exclusive_maximum : Option Bool
  minimum : Option Int
  exclusive_minimum : Option Bool
  max_length : Option Int
  min_length : Option Int
  pattern : Option String
  max_items : Option Int
  min_items : Option Int
  unique_items : Option Bool
  enum : Option (List Json)
  multiple_of : Option Int
  extensions : Extensions

/-- `Items` (v2), recursive through `items`. -/
inductive Items where
  | mk : ItemsCore Items → Items

def Items.core : Items → ItemsCore Items
  | .mk c => c

abbrev declItems : List String :=
  ["type", "format", "items", "collectionFormat", "default", "maximum",
   "exclusiveMaximum", "minimum", "exclusiveMinimum", "maxLength", "minLength",
   "pattern", "maxItems", "minItems", "uniqueItems", "enum", "multipleOf"]

def decItemsAux : Nat → Json → DRes Items
  | 0, _ => .error .recursionLimit
  | fuel + 1, .obj kvs => do
    let type ← reqF kvs "type" decItemsType
    let format ← optF kvs "format" asStr
    let items ← optF kvs "items" (decItemsAux fuel)
    let collection_format ← optF kvs "collectionFormat" asStr
    let default ← optF kvs "default" asValue
    let maximum ← optF kvs "maximum" asNum
    let exclusive_maximum ← optF kvs "exclusiveMaximum" asBool
    let minimum ← optF kvs "minimum" asNum
    let exclusive_minimum ← optF kvs "exclusiveMinimum" asBool
    let max_length ← optF kvs "maxLength" asNum
    let min_length ← optF kvs "minLength" asNum
    let pattern ← optF kvs "pattern" asStr
    let max_items ← optF kvs "maxItems" asNum
    let min_items ← optF kvs "minItems" asNum
    let unique_items ← optF kvs "uniqueItems" asBool
    let enum ← optF kvs "enum" (decList asValue)
    let multiple_of ← optF kvs "multipleOf" asNum
    pure (.mk ⟨type, format, items, collection_format, default, maximum,
      exclusive_maximum, minimum, exclusive_minimum, max_length, min_length, pattern,
      max_items, min_items, unique_items, enum, multiple_of, extras kvs declItems⟩)
  | _ + 1, _ => .error .typeMismatch

def decItems (j : Json) : DRes Items := decItemsAux (jsize j) j

mutual

def encItems : Items → Json
  | .mk ⟨type, format, items, collection_format, default, maximum, exclusive_maximum,
      minimum, exclusive_minimum, max_length, min_length, pattern, max_items,
      min_items, unique_items, enum, multiple_of, ext⟩ =>
    .obj (eReq "type" (encItemsType type) ++ eOpt "format" Json.str format ++
      encItemsItems items ++ eOpt "collectionFormat" Json.str collection_format ++
      eOpt "default" id default ++ eOpt "maximum" Json.num maximum ++
      eOpt "exclusiveMaximum" Json.bool exclusive_maximum ++
      eOpt "minimum" Json.num minimum ++
      eOpt "exclusiveMinimum" Json.bool exclusive_minimum ++
      eOpt "maxLength" Json.num max_length ++ eOpt "minLength" Json.num min_length ++
      eOpt "pattern" Json.str pattern ++ eOpt "maxItems" Json.num max_items ++
      eOpt "minItems" Json.num min_items ++ eOpt "uniqueItems" Json.bool unique_items ++
      eOpt "enum" (encList id) enum ++ eOpt "multipleOf" Json.num multiple_of ++ ext)

def encItemsItems : Option Items → Omap
  | none => []
  | some s => [("items", encItems s)]

end

mutual

def goodItems : Items → Bool
  | .mk ⟨_, _, items, _, _, _, _, _, _, _, _, _, _, _, _, _, _, ext⟩ =>
    goodExt declItems ext && goodItemsItems items

def goodItemsItems : Option Items → Bool
  | none => true
  | some s => goodItems s

end

end V2

namespace V2

/-- `Parameter` (v2). -/
structure Parameter where
  name : String
  in_ : ParamInEnum
  description : Option String
  required : Option Bool
  schema : Option Schema
  type : Option ParameterType
  format : Option String
  allow_empty_value : Option Bool
  items : Option Items
  collection_format : Option String
  default : Option Json
  maximum : Option Int
  exclusive_maximum : Option Bool
  minimum : Option Int
  exclusive_minimum : Option Bool
  max_length : Option Int
  min_length : Option Int
  pattern : Option String
  max_items : Option Int
  min_items : Option Int
  unique_items : Option Bool
  enum : Option (List Json)
  multiple_of : Option Int
  extensions : Extensions

abbrev declParameter : List String :=
  ["name", "in", "description", "required", "schema", "type", "format",
   "allowEmptyValue", "items", "collectionFormat", "default", "maximum",
   "exclusiveMaximum", "minimum", "exclusiveMinimum", "maxLength", "minLength",
   "pattern", "maxItems", "minItems", "uniqueItems", "enum", "multipleOf"]

def decParameter : Json → DRes Parameter
  | .obj kvs => do
    let name ← reqF kvs "name" asStr
    let in_ ← reqF kvs "in" decParamInEnum
    let description ← optF kvs "description" asStr
    let required ← optF kvs "required" asBool
    let schema ← optF kvs "schema" decSchema
    let type ← optF kvs "type" decParameterType
    let format ← optF kvs "format" asStr
    let allow_empty_value ← optF kvs "allowEmptyValue" asBool
    let items ← optF kvs "items" decItems
    let collection_format ← optF kvs "collectionFormat" asStr
    let default ← optF kvs "default" asValue
    let maximum ← optF kvs "maximum" asNum
    let exclusive_maximum ← optF kvs "exclusiveMaximum" asBool
    let minimum ← optF kvs "minimum" asNum
    let exclusive_minimum ← optF kvs "exclusiveMinimum" asBool
    let max_length ← optF kvs "maxLength" asNum
    let min_length ← optF kvs "minLength" asNum
    let pattern ← optF kvs "pattern" asStr
    let max_items ← optF kvs "maxItems" asNum
    let min_items ← optF kvs "minItems" asNum
    let unique_items ← optF kvs "uniqueItems" asBool
    let enum ← optF kvs "enum" (decList asValue)
    let multiple_of ← optF kvs "multipleOf" asNum
    pure ⟨name, in_, description, required, schema, type, format, allow_empty_value,
      items, collection_format, default, maximum, exclusive_maximum, minimum,
      exclusive_minimum, max_length, min_length, pattern, max_items, min_items,
      unique_items, enum, multiple_of, extras kvs declParameter⟩
  | _ => .error .typeMismatch

def encParameter (x : Parameter) : Json :=
  .obj (eReq "name" (.str x.name) ++ eReq "in" (encParamInEnum x.in_) ++
    eOpt "description" Json.str x.description ++ eOpt "required" Json.bool x.required ++
    eOpt "schema" encSchema x.schema ++ eOpt "type" encParameterType x.type ++
    eOpt "format" Json.str x.format ++ eOpt "allowEmptyValue" Json.bool x.allow_empty_value ++
    eOpt "items" encItems x.items ++ eOpt "collectionFormat" Json.str x.collection_format ++
    eOpt "default" id x.default ++ eOpt "maximum" Json.num x.maximum ++
    eOpt "exclusiveMaximum" Json.bool x.exclusive_maximum ++
    eOpt "minimum" Json.num x.minimum ++
    eOpt "exclusiveMinimum" Json.bool x.exclusive_minimum ++
    eOpt "maxLength" Json.num x.max_length ++ eOpt "minLength" Json.num x.min_length ++
    eOpt "pattern" Json.str x.pattern ++ eOpt "maxItems" Json.num x.max_items ++
    eOpt "minItems" Json.num x.min_items ++ eOpt "uniqueItems" Json.bool x.unique_items ++
    eOpt "enum" (encList id) x.enum ++ eOpt "multipleOf" Json.num x.multiple_of ++
    x.extensions)

def goodParameter (x : Parameter) : Bool :=
  goodExt declParameter x.extensions && goodOpt goodSchema x.schema &&
    goodOpt goodItems x.items

/-- `ParameterOrRef` (v2): an untagged enum with the same variant order and
shapes as `RefOrObject<Parameter>` — `Ref(Reference)` first, then
`Parameter(Parameter)`. -/
abbrev ParameterOrRef := RefOrObject Parameter

def decParameterOrRef : Json → DRes ParameterOrRef := decRefOr decParameter

def encParameterOrRef : ParameterOrRef → Json := encRefOr encParameter

/-- Well-formedness at the v2 reference-or-inline parameter position: the
inline parameter must not re-decode as a `Reference`, i.e. its extensions must
not bind `$ref` to a string (its declared fields never emit `$ref`). -/
def goodParameterOrRef : ParameterOrRef → Bool :=
  goodRefOr (fun p => goodParameter p && noStrRef p.extensions)

/-- `Header` (v2).  Note the source declares `max_length` at
`Option<Value>` (not `Option<Number>`) in this struct. -/
structure Header where
  description : Option String
  type : ItemsType
  format : Option String
  items : Option Items
  collection_format : Option String
  default : Option Json
  maximum : Option Int
  exclusive_maximum : Option Bool
  minimum : Option Int
  exclusive_minimum : Option Bool
  max_length : Option Json
  min_length : Option Int
  pattern : Option String
  max_items : Option Int
  min_items : Option Int
  unique_items : Option Bool
  enum : Option (List Json)
  multiple_of : Option Int
  extensions : Extensions

abbrev declHeader : List String :=
  ["description", "type", "format", "items", "collectionFormat", "default",
   "maximum", "exclusiveMaximum", "minimum", "exclusiveMinimum", "maxLength",
   "minLength", "pattern", "maxItems", "minItems", "uniqueItems", "enum",
   "multipleOf"]

def decHeader : Json → DRes Header
  | .obj kvs => do
    let description ← optF kvs "description" asStr
    let type ← reqF kvs "type" decItemsType
    let format ← optF kvs "format" asStr
    let items ← optF kvs "items" decItems
    let collection_format ← optF kvs "collectionFormat" asStr
    let default ← optF kvs "default" asValue
    let maximum ← optF kvs "maximum" asNum
    let exclusive_maximum ← optF kvs "exclusiveMaximum" asBool
    let minimum ← optF kvs "minimum" asNum
    let exclusive_minimum ← optF kvs "exclusiveMinimum" asBool
    let max_length ← optF kvs "maxLength" asValue
    let min_length ← optF kvs "minLength" asNum
    let pattern ← optF kvs "pattern" asStr
    let max_items ← optF kvs "maxItems" asNum
    let min_items ← optF kvs "minItems" asNum
    let unique_items ← optF kvs "uniqueItems" asBool
    let enum ← optF kvs "enum" (decList asValue)
    let multiple_of ← optF kvs "multipleOf" asNum
    pure ⟨description, type, format, items, collection_format, default, maximum,
      exclusive_maximum, minimum, exclusive_minimum, max_length, min_length, pattern,
      max_items, min_items, unique_items, enum, multiple_of, extras kvs declHeader⟩
  | _ => .error .typeMismatch

def encHeader (x : Header) : Json :=
  .obj (eOpt "description" Json.str x.description ++ eReq "type" (encItemsType x.type) ++
    eOpt "format" Json.str x.format ++ eOpt "items" encItems x.items ++
    eOpt "collectionFormat" Json.str x.collection_format ++
    eOpt "default" id x.default ++ eOpt "maximum" Json.num x.maximum ++
    eOpt "exclusiveMaximum" Json.bool x.exclusive_maximum ++
    eOpt "minimum" Json.num x.minimum ++
    eOpt "exclusiveMinimum" Json.bool x.exclusive_minimum ++
    eOpt "maxLength" id x.max_length ++ eOpt "minLength" Json.num x.min_length ++
    eOpt "pattern" Json.str x.pattern ++ eOpt "maxItems" Json.num x.max_items ++
    eOpt "minItems" Json.num x.min_items ++ eOpt "uniqueItems" Json.bool x.unique_items ++
    eOpt "enum" (encList id) x.enum ++ eOpt "multipleOf" Json.num x.multiple_of ++
    x.extensions)

def goodHeader (x : Header) : Bool :=
  goodExt declHeader x.extensions && goodOpt goodItems x.items

/-- `Response` (v2). -/
structure Response where
  description : String
  schema : Option Schema
  headers : Option (Smap Header)
  examples : Option (Smap Json)
  extensions : Extensions

abbrev declResponse : List String := ["description", "schema", "headers", "examples"]

def decResponse : Json → DRes Response
  | .obj kvs => do
    let description ← reqF kvs "description" asStr
    let schema ← optF kvs "schema" decSchema
    let headers ← optF kvs "headers" (decSmap decHeader)
    let examples ← optF kvs "examples" (decSmap asValue)
    pure ⟨description, schema, headers, examples, extras kvs declResponse⟩
  | _ => .error .typeMismatch

def encResponse (x : Response) : Json :=
  .obj (eReq "description" (.str x.description) ++ eOpt "schema" encSchema x.schema ++
    eOpt "headers" (encSmap encHeader) x.headers ++
    eOpt "examples" (encSmap id) x.examples ++ x.extensions)

def goodResponse (x : Response) : Bool :=
  goodExt declResponse x.extensions && goodOpt goodSchema x.schema &&
    goodOpt (goodSmapBy goodHeader) x.headers && goodOpt (goodSmap (α := Json)) x.examples

/-- `ResponseOrRef` (v2): an untagged enum whose *first* variant is the inline
`Response` shape (an anonymous struct variant with exactly the fields of
`Response`, including the flattened extensions) and whose second is the
`Ref`-shaped variant carrying the `$ref` key. -/
inductive ResponseOrRef where
  | response (r : Response)
  | ref (reference : String)

def decResponseOrRef (j : Json) : DRes ResponseOrRef :=
  match decResponse j with
  | .ok r => .ok (.response r)
  | .error _ =>
    match decReference j with
    | .ok r => .ok (.ref r.reference)
    | .error _ => .error .noVariantMatched

def encResponseOrRef : ResponseOrRef → Json
  | .response r => encResponse r
  | .ref s => .obj [("$ref", .str s)]

def goodResponseOrRef : ResponseOrRef → Bool
  | .response r => goodResponse r
  | .ref _ => true

/-- `Responses` (v2): a newtype over `BTreeMap<String, ResponseOrRef>`,
serialized transparently as the inner map. -/
abbrev Responses := Smap ResponseOrRef

def decResponses : Json → DRes Responses := decSmap decResponseOrRef

def encResponses (m : Responses) : Json := encSmap encResponseOrRef m

def goodResponses (m : Responses) : Bool := goodSmapBy goodResponseOrRef m

/-- `Operation` (v2). -/
structure Operation where
  tags : Option (List String)
  summary : Option String
  description : Option String
  external_docs : Option ExternalDoc
  operation_id : Option String
  consumes : Option (List String)
  produces : Option (List String)
  parameters : Option (List ParameterOrRef)
  responses : Responses
  schemas : Option TransferProtocol
  deprecated : Option String
  security : Option (List SecurityRequirementObject)
  extensions : Extensions

abbrev declOperation : List String :=
  ["tags", "summary", "description", "externalDocs", "operationId", "consumes",
   "produces", "parameters", "responses", "schemas", "deprecated", "security"]

def decOperation : Json → DRes Operation
  | .obj kvs => do
    let tags ← optF kvs "tags" (decList asStr)
    let summary ← optF kvs "summary" asStr
    let description ← optF kvs "description" asStr
    let external_docs ← optF kvs "externalDocs" decExternalDoc
    let operation_id ← optF kvs "operationId" asStr
    let consumes ← optF kvs "consumes" (decList asStr)
    let produces ← optF kvs "produces" (decList asStr)
    let parameters ← optF kvs "parameters" (decList decParameterOrRef)
    let responses ← reqF kvs "responses" decResponses
    let schemas ← optF kvs "schemas" decTransferProtocol
    let deprecated ← optF kvs "deprecated" asStr
    let security ← optF kvs "security" (decList decSecurityRequirementObject)
    pure ⟨tags, summary, description, external_docs, operation_id, consumes, produces,
      parameters, responses, schemas, deprecated, security, extras kvs declOperation⟩
  | _ => .error .typeMismatch

def encOperation (x : Operation) : Json :=
  .obj (eOpt "tags" (encList Json.str) x.tags ++ eOpt "summary" Json.str x.summary ++
    eOpt "description" Json.str x.description ++
    eOpt "externalDocs" encExternalDoc x.external_docs ++
    eOpt "operationId" Json.str x.operation_id ++
    eOpt "consumes" (encList Json.str) x.consumes ++
    eOpt "produces" (encList Json.str) x.produces ++
    eOpt "parameters" (encList encParameterOrRef) x.parameters ++
    eReq "responses" (encResponses x.responses) ++
    eOpt "schemas" encTransferProtocol x.schemas ++
    eOpt "deprecated" Json.str x.deprecated ++
    eOpt "security" (encList encSecurityRequirementObject) x.security ++ x.extensions)

def goodOperation (x : Operation) : Bool :=
  goodExt declOperation x.extensions &&
    goodOpt (fun l => l.all goodParameterOrRef) x.parameters &&
    goodResponses x.responses &&
    goodOpt (fun l => l.all goodSecurityRequirementObject) x.security

/-- `PathItem` (v2): no extensions bag; unknown keys are ignored. -/
structure PathItem where
  reference : Option String
  get : Option Operation
  put : Option Operation
  post : Option Operation
  delete : Option Operation
  options : Option Operation
  head : Option Operation
  patch : Option Operation
  parameters : Option (List ParameterOrRef)

abbrev declPathItem : List String :=
  ["$ref", "get", "put", "post", "delete", "options", "head", "patch", "parameters"]

def decPathItem : Json → DRes PathItem
  | .obj kvs => do
    let reference ← optF kvs "$ref" asStr
    let get ← optF kvs "get" decOperation
    let put ← optF kvs "put" decOperation
    let post ← optF kvs "post" decOperation
    let delete ← optF kvs "delete" decOperation
    let options ← optF kvs "options" decOperation
    let head ← optF kvs "head" decOperation
    let patch ← optF kvs "patch" decOperation
    let parameters ← optF kvs "parameters" (decList decParameterOrRef)
    pure ⟨reference, get, put, post, delete, options, head, patch, parameters⟩
  | _ => .error .typeMismatch

def encPathItem (x : PathItem) : Json :=
  .obj (eOpt "$ref" Json.str x.reference ++ eOpt "get" encOperation x.get ++
    eOpt "put" encOperation x.put ++ eOpt "post" encOperation x.post ++
    eOpt "delete" encOperation x.delete ++ eOpt "options" encOperation x.options ++
    eOpt "head" encOperation x.head ++ eOpt "patch" encOperation x.patch ++
    eOpt "parameters" (encList encParameterOrRef) x.parameters)

def goodPathItem (x : PathItem) : Bool :=
  goodOpt goodOperation x.get && goodOpt goodOperation x.put &&
    goodOpt goodOperation x.post && goodOpt goodOperation x.delete &&
    goodOpt goodOperation x.options && goodOpt goodOperation x.head &&
    goodOpt goodOperation x.patch &&
    goodOpt (fun l => l.all goodParameterOrRef) x.parameters

/-- `Swagger` (v2), the top-level struct.  Note the source binds the
`security_definitions` field to the serialized key `"SecurityScheme"`. -/
structure Swagger where
  swagger : String
  info : Info
  host : Option String
  base_path : Option String
  schemas : Option (List TransferProtocol)
  consumes : Option String
  produces : Option String
  paths : Smap PathItem
  definitions : Option (Smap Schema)
  parameters : Option (Smap Parameter)
  responses : Option (Smap Response)
  security_definitions : Option (Smap SecurityScheme)
  security : Option (List SecurityRequirementObject)
  tags : Option (List Tag)
  external_docs : Option ExternalDoc
  extensions : Extensions

abbrev declSwagger : List String :=
  ["swagger", "info", "host", "basePath", "schemas", "consumes", "produces",
   "paths", "definitions", "parameters", "responses", "SecurityScheme",
   "security", "tags", "externalDocs"]

def decSwagger : Json → DRes Swagger
  | .obj kvs => do
    let swagger ← reqF kvs "swagger" asStr
    let info ← reqF kvs "info" decInfo
    let host ← optF kvs "host" asStr
    let base_path ← optF kvs "basePath" asStr
    let schemas ← optF kvs "schemas" (decList decTransferProtocol)
    let consumes ← optF kvs "consumes" asStr
    let produces ← optF kvs "produces" asStr
    let paths ← reqF kvs "paths" (decSmap decPathItem)
    let definitions ← optF kvs "definitions" (decSmap decSchema)
    let parameters ← optF kvs "parameters" (decSmap decParameter)
    let responses ← optF kvs "responses" (decSmap decResponse)
    let security_definitions ← optF kvs "SecurityScheme" (decSmap decSecurityScheme)
    let security ← optF kvs "security" (decList decSecurityRequirementObject)
    let tags ← optF kvs "tags" (decList decTag)
    let external_docs ← optF kvs "externalDocs" decExternalDoc
    pure ⟨swagger, info, host, base_path, schemas, consumes, produces, paths,
      definitions, parameters, responses, security_definitions, security, tags,
      external_docs, extras kvs declSwagger⟩
  | _ => .error .typeMismatch

def encSwagger (x : Swagger) : Json :=
  .obj (eReq "swagger" (.str x.swagger) ++ eReq "info" (encInfo x.info) ++
    eOpt "host" Json.str x.host ++ eOpt "basePath" Json.str x.base_path ++
    eOpt "schemas" (encList encTransferProtocol) x.schemas ++
    eOpt "consumes" Json.str x.consumes ++ eOpt "produces" Json.str x.produces ++
    eReq "paths" (encSmap encPathItem x.paths) ++
    eOpt "definitions" (encSmap encSchema) x.definitions ++
    eOpt "parameters" (encSmap encParameter) x.parameters ++
    eOpt "responses" (encSmap encResponse) x.responses ++
    eOpt "SecurityScheme" (encSmap encSecurityScheme) x.security_definitions ++
    eOpt "security" (encList encSecurityRequirementObject) x.security ++
    eOpt "tags" (encList encTag) x.tags ++
    eOpt "externalDocs" encExternalDoc x.external_docs ++ x.extensions)

def goodSwagger (x : Swagger) : Bool :=
  goodExt declSwagger x.extensions && goodInfo x.info &&
    goodSmapBy goodPathItem x.paths &&
    goodOpt (goodSmapBy goodSchema) x.definitions &&
    goodOpt (goodSmapBy goodParameter) x.parameters &&
    goodOpt (goodSmapBy goodResponse) x.responses &&
    goodOpt (goodSmapBy goodSecurityScheme) x.security_definitions &&
    goodOpt (fun l => l.all goodSecurityRequirementObject) x.security

end V2

/-! ## The v3 object graph (`src/v3/schema.rs`) -/

namespace V3

/-- `SecuritySchemeType` (v3), `rename_all = "camelCase"`. -/
inductive SecuritySchemeType where
  | apiKey
  | http
  | oauth2
  | openIdConnect

def decSecuritySchemeType : Json → DRes SecuritySchemeType
  | .str "apiKey" => .ok .apiKey
  | .str "http" => .ok .http
  | .str "oauth2" => .ok .oauth2
  | .str "openIdConnect" => .ok .openIdConnect
  | _ => .error .typeMismatch

def encSecuritySchemeType : SecuritySchemeType → Json
  | .apiKey => .str "apiKey"
  | .http => .str "http"
  | .oauth2 => .str "oauth2"
  | .openIdConnect => .str "openIdConnect"

/-- `XML` (v3): no extensions bag.  (The serialized key of the third field is
`prefix`.) -/
structure XML where
  name : Option String
  namespace_ : Option String
  prefix_ : Option String
  attribute_ : Option Bool
  wrapped : Option Bool

abbrev declXML : List String := ["name", "namespace", "prefix", "attribute", "wrapped"]

def decXML : Json → DRes XML
  | .obj kvs => do
    let name ← optF kvs "name" asStr
    let namespace_ ← optF kvs "namespace" asStr
    let prefix_ ← optF kvs "prefix" asStr
    let attribute_ ← optF kvs "attribute" asBool
    let wrapped ← optF kvs "wrapped" asBool
    pure ⟨name, namespace_, prefix_, attribute_, wrapped⟩
  | _ => .error .typeMismatch

def encXML (x : XML) : Json :=
  .obj (eOpt "name" Json.str x.name ++ eOpt "namespace" Json.str x.namespace_ ++
    eOpt "prefix" Json.str x.prefix_ ++ eOpt "attribute" Json.bool x.attribute_ ++
    eOpt "wrapped" Json.bool x.wrapped)

/-- `Discriminator` (v3): no extensions bag. -/
structure Discriminator where
  property_name : String
  mapping : Option (Smap String)

abbrev declDiscriminator : List String := ["propertyName", "mapping"]

def decDiscriminator : Json → DRes Discriminator
  | .obj kvs => do
    let property_name ← reqF kvs "propertyName" asStr
    let mapping ← optF kvs "mapping" (decSmap asStr)
    pure ⟨property_name, mapping⟩
  | _ => .error .typeMismatch

def encDiscriminator (x : Discriminator) : Json :=
  .obj (eReq "propertyName" (.str x.property_name) ++
    eOpt "mapping" (encSmap Json.str) x.mapping)

def goodDiscriminator (x : Discriminator) : Bool :=
  goodOpt (goodSmap (α := String)) x.mapping

/-- `ExternalDoc` (v3): carries an extensions bag (unlike its v2 namesake). -/
structure ExternalDoc where
  description : Option String
  url : String
  extensions : Extensions

abbrev declExternalDoc : List String := ["description", "url"]

def decExternalDoc : Json → DRes ExternalDoc
  | .obj kvs => do
    let description ← optF kvs "description" asStr
    let url ← reqF kvs "url" asStr
    pure ⟨description, url, extras kvs declExternalDoc⟩
  | _ => .error .typeMismatch

def encExternalDoc (x : ExternalDoc) : Json :=
  .obj (eOpt "description" Json.str x.description ++ eReq "url" (.str x.url) ++
    x.extensions)

def goodExternalDoc (x : ExternalDoc) : Bool := goodExt declExternalDoc x.extensions

/-- `Contact` (v3). -/
structure Contact where
  name : Option String
  url : Option String
  email : Option String
  extensions : Extensions

abbrev declContact : List String := ["name", "url", "email"]

def decContact : Json → DRes Contact
  | .obj kvs => do
    let name ← optF kvs "name" asStr
    let url ← optF kvs "url" asStr
    let email ← optF kvs "email" asStr
    pure ⟨name, url, email, extras kvs declContact⟩
  | _ => .error .typeMismatch

def encContact (x : Contact) : Json :=
  .obj (eOpt "name" Json.str x.name ++ eOpt "url" Json.str x.url ++
    eOpt "email" Json.str x.email ++ x.extensions)

def goodContact (x : Contact) : Bool := goodExt declContact x.extensions

/-- `License` (v3). -/
structure License where
  name : String
  url : Option String
  extensions : Extensions

abbrev declLicense : List String := ["name", "url"]

def decLicense : Json → DRes License
  | .obj kvs => do
    let name ← reqF kvs "name" asStr
    let url ← optF kvs "url" asStr
    pure ⟨name, url, extras kvs declLicense⟩
  | _ => .error .typeMismatch

def encLicense (x : License) : Json :=
  .obj (eReq "name" (.str x.name) ++ eOpt "url" Json.str x.url ++ x.extensions)

def goodLicense (x : License) : Bool := goodExt declLicense x.extensions

/-- `Info` (v3). -/
structure Info where
  title : String
  description : Option String
  terms_of_service : Option String
  contact : Option Contact
  license : Option License
  version : Option String
  extensions : Extensions

abbrev declInfo : List String :=
  ["title", "description", "termsOfService", "contact", "license", "version"]

def decInfo : Json → DRes Info
  | .obj kvs => do
    let title ← reqF kvs "title" asStr
    let description ← optF kvs "description" asStr
    let terms_of_service ← optF kvs "termsOfService" asStr
    let contact ← optF kvs "contact" decContact
    let license ← optF kvs "license" decLicense
    let version ← optF kvs "version" asStr
    pure ⟨title, description, terms_of_service, contact, license, version, extras kvs declInfo⟩
  | _ => .error .typeMismatch

def encInfo (x : Info) : Json :=
  .obj (eReq "title" (.str x.title) ++ eOpt "description" Json.str x.description ++
    eOpt "termsOfService" Json.str x.terms_of_service ++
    eOpt "contact" encContact x.contact ++ eOpt "license" encLicense x.license ++
    eOpt "version" Json.str x.version ++ x.extensions)

def goodInfo (x : Info) : Bool :=
  goodExt declInfo x.extensions && goodOpt goodContact x.contact &&
    goodOpt goodLicense x.license

/-- `ServerVariable` (v3). -/
structure ServerVariable where
  enum : Option (List String)
  default : String
  description : Option String
  extensions : Extensions

abbrev declServerVariable : List String := ["enum", "default", "description"]

def decServerVariable : Json → DRes ServerVariable
  | .obj kvs => do
    let enum ← optF kvs "enum" (decList asStr)
    let default ← reqF kvs "default" asStr
    let description ← optF kvs "description" asStr
    pure ⟨enum, default, description, extras kvs declServerVariable⟩
  | _ => .error .typeMismatch

def encServerVariable (x : ServerVariable) : Json :=
  .obj (eOpt "enum" (encList Json.str) x.enum ++ eReq "default" (.str x.default) ++
    eOpt "description" Json.str x.description ++ x.extensions)

def goodServerVariable (x : ServerVariable) : Bool :=
  goodExt declServerVariable x.extensions

/-- `Server` (v3). -/
structure Server where
  url : String
  description : Option String
  variables_ : Option (Smap ServerVariable)
  extensions : Extensions

abbrev declServer : List String := ["url", "description", "variables"]

def decServer : Json → DRes Server
  | .obj kvs => do
    let url ← reqF kvs "url" asStr
    let description ← optF kvs "description" asStr
    let variables_ ← optF kvs "variables" (decSmap decServerVariable)
    pure ⟨url, description, variables_, extras kvs declServer⟩
  | _ => .error .typeMismatch

def encServer (x : Server) : Json :=
  .obj (eReq "url" (.str x.url) ++ eOpt "description" Json.str x.description ++
    eOpt "variables" (encSmap encServerVariable) x.variables_ ++ x.extensions)

def goodServer (x : Server) : Bool :=
  goodExt declServer x.extensions && goodOpt (goodSmapBy goodServerVariable) x.variables_

/-- `Tag` (v3). -/
structure Tag where
  name : String
  description : Option String
  external_docs : Option ExternalDoc
  extensions : Extensions

abbrev declTag : List String := ["name", "description", "externalDocs"]

def decTag : Json → DRes Tag
  | .obj kvs => do
    let name ← reqF kvs "name" asStr
    let description ← optF kvs "description" asStr
    let external_docs ← optF kvs "externalDocs" decExternalDoc
    pure ⟨name, description, external_docs, extras kvs declTag⟩
  | _ => .error .typeMismatch

def encTag (x : Tag) : Json :=
  .obj (eReq "name" (.str x.name) ++ eOpt "description" Json.str x.description ++
    eOpt "externalDocs" encExternalDoc x.external_docs ++ x.extensions)

def goodTag (x : Tag) : Bool :=
  goodExt declTag x.extensions && goodOpt goodExternalDoc x.external_docs

/-- `Example` (v3): no extensions bag. -/
structure Example where
  summary : Option String
  description : Option String
  value : Option Json
  external_value : Option String

abbrev declExample : List String := ["summary", "description", "value", "externalValue"]

def decExample : Json → DRes Example
  | .obj kvs => do
    let summary ← optF kvs "summary" asStr
    let description ← optF kvs "description" asStr
    let value ← optF kvs "value" asValue
    let external_value ← optF kvs "externalValue" asStr
    pure ⟨summary, description, value, external_value⟩
  | _ => .error .typeMismatch

def encExample (x : Example) : Json :=
  .obj (eOpt "summary" Json.str x.summary ++ eOpt "description" Json.str x.description ++
    eOpt "value" id x.value ++ eOpt "externalValue" Json.str x.external_value)

/-- `Link` (v3): no extensions bag. -/
structure Link where
  operation_ref : Option String
  operation_id : Option String
  parameters : Option (Smap Json)
  request_body : Option Json
  description : Option String
  server : Option Server

abbrev declLink : List String :=
  ["operationRef", "operationId", "parameters", "requestBody", "description", "server"]

def decLink : Json → DRes Link
  | .obj kvs => do
    let operation_ref ← optF kvs "operationRef" asStr
    let operation_id ← optF kvs "operationId" asStr
    let parameters ← optF kvs "parameters" (decSmap asValue)
    let request_body ← optF kvs "requestBody" asValue
    let description ← optF kvs "description" asStr
    let server ← optF kvs "server" decServer
    pure ⟨operation_ref, operation_id, parameters, request_body, description, server⟩
  | _ => .error .typeMismatch

def encLink (x : Link) : Json :=
  .obj (eOpt "operationRef" Json.str x.operation_ref ++
    eOpt "operationId" Json.str x.operation_id ++
    eOpt "parameters" (encSmap id) x.parameters ++
    eOpt "requestBody" id x.request_body ++
    eOpt "description" Json.str x.description ++ eOpt "server" encServer x.server)

def goodLink (x : Link) : Bool :=
  goodOpt (goodSmap (α := Json)) x.parameters && goodOpt goodServer x.server

/-- `OAuthFlow` (v3): no extensions bag. -/
structure OAuthFlow where
  authorization_url : String
  token_url : String
  refresh_url : Option String
  scopes : Smap String

abbrev declOAuthFlow : List String :=
  ["authorizationUrl", "tokenUrl", "refreshUrl", "scopes"]

def decOAuthFlow : Json → DRes OAuthFlow
  | .obj kvs => do
    let authorization_url ← reqF kvs "authorizationUrl" asStr
    let token_url ← reqF kvs "tokenUrl" asStr
    let refresh_url ← optF kvs "refreshUrl" asStr
    let scopes ← reqF kvs "scopes" (decSmap asStr)
    pure ⟨authorization_url, token_url, refresh_url, scopes⟩
  | _ => .error .typeMismatch

def encOAuthFlow (x : OAuthFlow) : Json :=
  .obj (eReq "authorizationUrl" (.str x.authorization_url) ++
    eReq "tokenUrl" (.str x.token_url) ++ eOpt "refreshUrl" Json.str x.refresh_url ++
    eReq "scopes" (encSmap Json.str x.scopes))

def goodOAuthFlow (x : OAuthFlow) : Bool := goodSmap (α := String) x.scopes

/-- `OAuthFlows` (v3): no extensions bag. -/
structure OAuthFlows where
  implicit : Option OAuthFlow
  password : Option OAuthFlow
  client_credentials : Option OAuthFlow
  authorization_code : Option OAuthFlow

abbrev declOAuthFlows : List String :=
  ["implicit", "password", "clientCredentials", "authorizationCode"]

def decOAuthFlows : Json → DRes OAuthFlows
  | .obj kvs => do
    let implicit ← optF kvs "implicit" decOAuthFlow
    let password ← optF kvs "password" decOAuthFlow
    let client_credentials ← optF kvs "clientCredentials" decOAuthFlow
    let authorization_code ← optF kvs "authorizationCode" decOAuthFlow
    pure ⟨implicit, password, client_credentials, authorization_code⟩
  | _ => .error .typeMismatch

def encOAuthFlows (x : OAuthFlows) : Json :=
  .obj (eOpt "implicit" encOAuthFlow x.implicit ++
    eOpt "password" encOAuthFlow x.password ++
    eOpt "clientCredentials" encOAuthFlow x.client_credentials ++
    eOpt "authorizationCode" encOAuthFlow x.authorization_code)

def goodOAuthFlows (x : OAuthFlows) : Bool :=
  goodOpt goodOAuthFlow x.implicit && goodOpt goodOAuthFlow x.password &&
    goodOpt goodOAuthFlow x.client_credentials &&
    goodOpt goodOAuthFlow x.authorization_code

/-- `SecurityScheme` (v3): no extensions bag.  The source renames
`beare_format` to the (sic) key `beareFormat`. -/
structure SecurityScheme where
  type : SecuritySchemeType
  description : Option String
  name : String
  in_ : String
  scheme : String
  beare_format : Option String
  flows : OAuthFlows
  open_id_connect_url : String

abbrev declSecurityScheme : List String :=
  ["type", "description", "name", "in", "scheme", "beareFormat", "flows",
   "openIdConnectUrl"]

def decSecurityScheme : Json → DRes SecurityScheme
  | .obj kvs => do
    let type ← reqF kvs "type" decSecuritySchemeType
    let description ← optF kvs "description" asStr
    let name ← reqF kvs "name" asStr
    let in_ ← reqF kvs "in" asStr
    let scheme ← reqF kvs "scheme" asStr
    let beare_format ← optF kvs "beareFormat" asStr
    let flows ← reqF kvs "flows" decOAuthFlows
    let open_id_connect_url ← reqF kvs "openIdConnectUrl" asStr
    pure ⟨type, description, name, in_, scheme, beare_format, flows, open_id_connect_url⟩
  | _ => .error .typeMismatch

def encSecurityScheme (x : SecurityScheme) : Json :=
  .obj (eReq "type" (encSecuritySchemeType x.type) ++
    eOpt "description" Json.str x.description ++ eReq "name" (.str x.name) ++
    eReq "in" (.str x.in_) ++ eReq "scheme" (.str x.scheme) ++
    eOpt "beareFormat" Json.str x.beare_format ++
    eReq "flows" (encOAuthFlows x.flows) ++
    eReq "openIdConnectUrl" (.str x.open_id_connect_url))

def goodSecurityScheme (x : SecurityScheme) : Bool := goodOAuthFlows x.flows

/-- `SecurityRequirement` (v3): `BTreeMap<String, Vec<String>>`. -/
abbrev SecurityRequirement := Smap (List String)

def decSecurityRequirement : Json → DRes SecurityRequirement :=
  decSmap (decList asStr)

def encSecurityRequirement (m : SecurityRequirement) : Json :=
  encSmap (encList Json.str) m

def goodSecurityRequirement (m : SecurityRequirement) : Bool :=
  goodSmap (α := List String) m

end V3

namespace V3

/-- The fields of the v3 `Schema` object, parametric in the type at its
recursive positions (`items`, `properties`, `allOf`, `oneOf`, `anyOf`, `not`),
each of which holds reference-or-inline values.  The v3 `Schema` has no
extensions bag.  Note the source declares `default` at `Option<String>`. -/
structure SchemaCore (s : Type) where
  title : Option String
  enum : Option (List String)
  multiple_of : Option Int
  maximum : Option Int
  exclusive_maximum : Option Bool
  minimum : Option Int
  exclusive_minimum : Option Bool
  max_length : Option Int
  min_length : Option Int
  pattern : Option String
  max_items : Option Int
  min_items : Option Int
  unique_items : Option Bool
  items : Option (RefOrObject s)
  properties : Option (List (String × RefOrObject s))
  max_properties : Option Int
  min_properties : Option Int
  required : Option (List String)
  type : Option String
  all_of : Option (List (RefOrObject s))
  one_of : Option (List (RefOrObject s))
  any_of : Option (List (RefOrObject s))
  not : Option (RefOrObject s)
  description : Option String
  format : Option String
  default : Option String
  additional_properties : Option Json
  nullable : Option Bool
  discriminator : Option Discriminator
  read_only : Option Bool
  write_only : Option Bool
  xml : Option XML
  external_docs : Option ExternalDoc
  example_ : Option Json
  deprecated : Option Bool

/-- `Schema` (v3). -/
inductive Schema where
  | mk : SchemaCore Schema → Schema

def Schema.core : Schema → SchemaCore Schema
  | .mk c => c

abbrev declSchema : List String :=
  ["title", "enum", "multipleOf", "maximum", "exclusiveMaximum", "minimum",
   "exclusiveMinimum", "maxLength", "minLength", "pattern", "maxItems", "minItems",
   "uniqueItems", "items", "properties", "maxProperties", "minProperties",
   "required", "type", "allOf", "oneOf", "anyOf", "not", "description", "format",
   "default", "additionalProperties", "nullable", "discriminator", "readOnly",
   "writeOnly", "xml", "externalDocs", "example", "deprecated"]

def decSchemaAux : Nat → Json → DRes Schema
  | 0, _ => .error .recursionLimit
  | fuel + 1, .obj kvs => do
    let title ← optF kvs "title" asStr
    let enum ← optF kvs "enum" (decList asStr)
    let multiple_of ← optF kvs "multipleOf" asNum
    let maximum ← optF kvs "maximum" asNum
    let exclusive_maximum ← optF kvs "exclusiveMaximum" asBool
    let minimum ← optF kvs "minimum" asNum
    let exclusive_minimum ← optF kvs "exclusiveMinimum" asBool
    let max_length ← optF kvs "maxLength" asNum
    let min_length ← optF kvs "minLength" asNum
    let pattern ← optF kvs "pattern" asStr
    let max_items ← optF kvs "maxItems" asNum
    let min_items ← optF kvs "minItems" asNum
    let unique_items ← optF kvs "uniqueItems" asBool
    let items ← optF kvs "items" (decRefOr (decSchemaAux fuel))
    let properties ← optF kvs "properties" (decSmap (decRefOr (decSchemaAux fuel)))
    let max_properties ← optF kvs "maxProperties" asNum
    let min_properties ← optF kvs "minProperties" asNum
    let required ← optF kvs "required" (decList asStr)
    let type ← optF kvs "type" asStr
    let all_of ← optF kvs "allOf" (decList (decRefOr (decSchemaAux fuel)))
    let one_of ← optF kvs "oneOf" (decList (decRefOr (decSchemaAux fuel)))
    let any_of ← optF kvs "anyOf" (decList (decRefOr (decSchemaAux fuel)))
    let not ← optF kvs "not" (decRefOr (decSchemaAux fuel))
    let description ← optF kvs "description" asStr
    let format ← optF kvs "format" asStr
    let default ← optF kvs "default" asStr
    let additional_properties ← optF kvs "additionalProperties" asValue
    let nullable ← optF kvs "nullable" asBool
    let discriminator ← optF kvs "discriminator" decDiscriminator
    let read_only ← optF kvs "readOnly" asBool
    let write_only ← optF kvs "writeOnly" asBool
    let xml ← optF kvs "xml" decXML
    let external_docs ← optF kvs "externalDocs" decExternalDoc
    let example_ ← optF kvs "example" asValue
    let deprecated ← optF kvs "deprecated" asBool
    pure (.mk ⟨title, enum, multiple_of, maximum, exclusive_maximum, minimum,
      exclusive_minimum, max_length, min_length, pattern, max_items, min_items,
      unique_items, items, properties, max_properties, min_properties, required,
      type, all_of, one_of, any_of, not, description, format, default,
      additional_properties, nullable, discriminator, read_only, write_only, xml,
      external_docs, example_, deprecated⟩)
  | _ + 1, _ => .error .typeMismatch

def decSchema (j : Json) : DRes Schema := decSchemaAux (jsize j) j

mutual

def encSchema : Schema → Json
  | .mk ⟨title, enum, multiple_of, maximum, exclusive_maximum, minimum,
      exclusive_minimum, max_length, min_length, pattern, max_items, min_items,
      unique_items, items, properties, max_properties, min_properties, required,
      type, all_of, one_of, any_of, not, description, format, default,
      additional_properties, nullable, discriminator, read_only, write_only, xml,
      external_docs, example_, deprecated⟩ =>
    .obj (eOpt "title" Json.str title ++ eOpt "enum" (encList Json.str) enum ++
      eOpt "multipleOf" Json.num multiple_of ++ eOpt "maximum" Json.num maximum ++
      eOpt "exclusiveMaximum" Json.bool exclusive_maximum ++
      eOpt "minimum" Json.num minimum ++
      eOpt "exclusiveMinimum" Json.bool exclusive_minimum ++
      eOpt "maxLength" Json.num max_length ++ eOpt "minLength" Json.num min_length ++
      eOpt "pattern" Json.str pattern ++ eOpt "maxItems" Json.num max_items ++
      eOpt "minItems" Json.num min_items ++ eOpt "uniqueItems" Json.bool unique_items ++
      encSchemaRO "items" items ++ encSchemaProps properties ++
      eOpt "maxProperties" Json.num max_properties ++
      eOpt "minProperties" Json.num min_properties ++
      eOpt "required" (encList Json.str) required ++ eOpt "type" Json.str type ++
      encSchemaROList "allOf" all_of ++ encSchemaROList "oneOf" one_of ++
      encSchemaROList "anyOf" any_of ++ encSchemaRO "not" not ++
      eOpt "description" Json.str description ++ eOpt "format" Json.str format ++
      eOpt "default" Json.str default ++
      eOpt "additionalProperties" id additional_properties ++
      eOpt "nullable" Json.bool nullable ++
      eOpt "discriminator" encDiscriminator discriminator ++
      eOpt "readOnly" Json.bool read_only ++ eOpt "writeOnly" Json.bool write_only ++
      eOpt "xml" encXML xml ++ eOpt "externalDocs" encExternalDoc external_docs ++
      eOpt "example" id example_ ++ eOpt "deprecated" Json.bool deprecated)

def encSchemaRefOr : RefOrObject Schema → Json
  | .ref r => encReference r
  | .obj s => encSchema s

def encSchemaRO : String → Option (RefOrObject Schema) → Omap
  | _, none => []
  | k, some ro => [(k, encSchemaRefOr ro)]

def encSchemaROElems : List (RefOrObject Schema) → List Json
  | [] => []
  | ro :: t => encSchemaRefOr ro :: encSchemaROElems t

def encSchemaROList : String → Option (List (RefOrObject Schema)) → Omap
  | _, none => []
  | k, some l => [(k, Json.arr (encSchemaROElems l))]

def encSchemaEntries : List (String × RefOrObject Schema) → List (String × Json)
  | [] => []
  | (k, ro) :: t => (k, encSchemaRefOr ro) :: encSchemaEntries t

def encSchemaProps : Option (List (String × RefOrObject Schema)) → Omap
  | none => []
  | some m => [("properties", Json.obj (encSchemaEntries m))]

end

mutual

def goodSchema : Schema → Bool
  | .mk ⟨_, _, _, _, _, _, _, _, _, _, _, _, _, items, properties, _, _, _, _,
      all_of, one_of, any_of, not, _, _, _, _, _, discriminator, _, _, _,
      external_docs, _, _⟩ =>
    goodSchemaROOpt items && goodSchemaPropsOpt properties &&
      goodSchemaROListOpt all_of && goodSchemaROListOpt one_of &&
      goodSchemaROListOpt any_of && goodSchemaROOpt not &&
      goodOpt goodDiscriminator discriminator &&
      goodOpt goodExternalDoc external_docs

def goodSchemaRO : RefOrObject Schema → Bool
  | .ref _ => true
  | .obj s => goodSchema s

def goodSchemaROOpt : Option (RefOrObject Schema) → Bool
  | none => true
  | some ro => goodSchemaRO ro

def goodSchemaROElems : List (RefOrObject Schema) → Bool
  | [] => true
  | ro :: t => goodSchemaRO ro && goodSchemaROElems t

def goodSchemaROListOpt : Option (List (RefOrObject Schema)) → Bool
  | none => true
  | some l => goodSchemaROElems l

def goodSchemaEntries : List (String × RefOrObject Schema) → Bool
  | [] => true
  | (_, ro) :: t => goodSchemaRO ro && goodSchemaEntries t

def goodSchemaPropsOpt : Option (List (String × RefOrObject Schema)) → Bool
  | none => true
  | some m => keysSorted (keysOf m) && goodSchemaEntries m

end

end V3

namespace V3

/-- The fields of the v3 `Header` object, parametric in the `Media` type used
at its recursive `content` position. -/
structure HeaderCore (media : Type) where
  description : Option String
  required : Option Bool
  deprecated : Option Bool
  allow_empty_value : Option Bool
  style : Option String
  explode : Option Bool
  allow_reserved : Option Bool
  schema : Option (RefOrObject Schema)
  example_ : Option Json
  examples : Option (List (String × RefOrObject Example))
  content : Option (List (String × media))
  extensions : Extensions

/-- The fields of the v3 `Media` object (no extensions bag), parametric in the
`Encoding` type used at its recursive `encoding` position. -/
structure MediaCore (encoding : Type) where
  schema : Option (RefOrObject Schema)
  example_ : Option Json
  examples : Option (List (String × RefOrObject Example))
  encoding : Option (List (String × encoding))

/-- The fields of the v3 `Encoding` object (no extensions bag), parametric in
the `Header` type used at its recursive `headers` position. -/
structure EncodingCore (header : Type) where
  content_type : Option String
  headers : Option (List (String × RefOrObject header))
  style : Option String
  explode : Option Bool
  allow_reserved : Option Bool

mutual

inductive Header where
  | mk : HeaderCore Media → Header

inductive Media where
  | mk : MediaCore Encoding → Media

inductive Encoding where
  | mk : EncodingCore Header → Encoding

end

def Header.core : Header → HeaderCore Media
  | .mk c => c

def Media.core : Media → MediaCore Encoding
  | .mk c => c

def Encoding.core : Encoding → EncodingCore Header
  | .mk c => c

abbrev declHeader : List String :=
  ["description", "required", "deprecated", "allowEmptyValue", "style", "explode",
   "allowReserved", "schema", "example", "examples", "content"]

abbrev declMedia : List String := ["schema", "example", "examples", "encoding"]

abbrev declEncoding : List String :=
  ["contentType", "headers", "style", "explode", "allowReserved"]

mutual

def decHeaderAux : Nat → Json → DRes Header
  | 0, _ => .error .recursionLimit
  | fuel + 1, .obj kvs => do
    let description ← optF kvs "description" asStr
    let required ← optF kvs "required" asBool
    let deprecated ← optF kvs "deprecated" asBool
    let allow_empty_value ← optF kvs "allowEmptyValue" asBool
    let style ← optF kvs "style" asStr
    let explode ← optF kvs "explode" asBool
    let allow_reserved ← optF kvs "allowReserved" asBool
    let schema ← optF kvs "schema" (decRefOr decSchema)
    let example_ ← optF kvs "example" asValue
    let examples ← optF kvs "examples" (decSmap (decRefOr decExample))
    let content ← optF kvs "content" (decSmap (decMediaAux fuel))
    pure (.mk ⟨description, required, deprecated, allow_empty_value, style, explode,
      allow_reserved, schema, example_, examples, content, extras kvs declHeader⟩)
  | _ + 1, _ => .error .typeMismatch

def decMediaAux : Nat → Json → DRes Media
  | 0, _ => .error .recursionLimit
  | fuel + 1, .obj kvs => do
    let schema ← optF kvs "schema" (decRefOr decSchema)
    let example_ ← optF kvs "example" asValue
    let examples ← optF kvs "examples" (decSmap (decRefOr decExample))
    let encoding ← optF kvs "encoding" (decSmap (decEncodingAux fuel))
    pure (.mk ⟨schema, example_, examples, encoding⟩)
  | _ + 1, _ => .error .typeMismatch

def decEncodingAux : Nat → Json → DRes Encoding
  | 0, _ => .error .recursionLimit
  | fuel + 1, .obj kvs => do
    let content_type ← optF kvs "contentType" asStr
    let headers ← optF kvs "headers" (decSmap (decRefOr (decHeaderAux fuel)))
    let style ← optF kvs "style" asStr
    let explode ← optF kvs "explode" asBool
    let allow_reserved ← optF kvs "allowReserved" asBool
    pure (.mk ⟨content_type, headers, style, explode, allow_reserved⟩)
  | _ + 1, _ => .error .typeMismatch

end

def decHeader (j : Json) : DRes Header := decHeaderAux (jsize j) j

def decMedia (j : Json) : DRes Media := decMediaAux (jsize j) j

def decEncoding (j : Json) : DRes Encoding := decEncodingAux (jsize j) j

mutual

def encHeader : Header → Json
  | .mk ⟨description, required, deprecated, allow_empty_value, style, explode,
      allow_reserved, schema, example_, examples, content, ext⟩ =>
    .obj (eOpt "description" Json.str description ++ eOpt "required" Json.bool required ++
      eOpt "deprecated" Json.bool deprecated ++
      eOpt "allowEmptyValue" Json.bool allow_empty_value ++
      eOpt "style" Json.str style ++ eOpt "explode" Json.bool explode ++
      eOpt "allowReserved" Json.bool allow_reserved ++
      eOpt "schema" encSchemaRefOr schema ++ eOpt "example" id example_ ++
      eOpt "examples" (encSmap (encRefOr encExample)) examples ++
      encHeaderContent content ++ ext)

def encHeaderContent : Option (List (String × Media)) → Omap
  | none => []
  | some m => [("content", Json.obj (encMediaEntries m))]

def encMediaEntries : List (String × Media) → List (String × Json)
  | [] => []
  | (k, m) :: t => (k, encMedia m) :: encMediaEntries t

def encMedia : Media → Json
  | .mk ⟨schema, example_, examples, encoding⟩ =>
    .obj (eOpt "schema" encSchemaRefOr schema ++ eOpt "example" id example_ ++
      eOpt "examples" (encSmap (encRefOr encExample)) examples ++
      encMediaEncoding encoding)

def encMediaEncoding : Option (List (String × Encoding)) → Omap
  | none => []
  | some m => [("encoding", Json.obj (encEncodingEntries m))]

def encEncodingEntries : List (String × Encoding) → List (String × Json)
  | [] => []
  | (k, e) :: t => (k, encEncoding e) :: encEncodingEntries t

def encEncoding : Encoding → Json
  | .mk ⟨content_type, headers, style, explode, allow_reserved⟩ =>
    .obj (eOpt "contentType" Json.str content_type ++ encEncodingHeaders headers ++
      eOpt "style" Json.str style ++ eOpt "explode" Json.bool explode ++
      eOpt "allowReserved" Json.bool allow_reserved)

def encEncodingHeaders : Option (List (String × RefOrObject Header)) → Omap
  | none => []
  | some m => [("headers", Json.obj (encHeaderROEntries m))]

def encHeaderROEntries : List (String × RefOrObject Header) → List (String × Json)
  | [] => []
  | (k, ro) :: t => (k, encHeaderRefOr ro) :: encHeaderROEntries t

def encHeaderRefOr : RefOrObject Header → Json
  | .ref r => encReference r
  | .obj h => encHeader h

end

mutual

def goodHeader : Header → Bool
  | .mk ⟨_, _, _, _, _, _, _, schema, _, examples, content, ext⟩ =>
    goodExt declHeader ext && goodOpt goodSchemaRO schema &&
      goodOpt (goodSmapBy (goodRefOr (fun _ => true))) examples &&
      goodHeaderContentOpt content

def goodHeaderContentOpt : Option (List (String × Media)) → Bool
  | none => true
  | some m => keysSorted (keysOf m) && goodMediaEntries m

def goodMediaEntries : List (String × Media) → Bool
  | [] => true
  | (_, m) :: t => goodMedia m && goodMediaEntries t

def goodMedia : Media → Bool
  | .mk ⟨schema, _, examples, encoding⟩ =>
    goodOpt goodSchemaRO schema &&
      goodOpt (goodSmapBy (goodRefOr (fun _ => true))) examples &&
      goodMediaEncodingOpt encoding

def goodMediaEncodingOpt : Option (List (String × Encoding)) → Bool
  | none => true
  | some m => keysSorted (keysOf m) && goodEncodingEntries m

def goodEncodingEntries : List (String × Encoding) → Bool
  | [] => true
  | (_, e) :: t => goodEncoding e && goodEncodingEntries t

def goodEncoding : Encoding → Bool
  | .mk ⟨_, headers, _, _, _⟩ => goodEncodingHeadersOpt headers

def goodEncodingHeadersOpt : Option (List (String × RefOrObject Header)) → Bool
  | none => true
  | some m => keysSorted (keysOf m) && goodHeaderROEntries m

def goodHeaderROEntries : List (String × RefOrObject Header) → Bool
  | [] => true
  | (_, ro) :: t => goodHeaderRO ro && goodHeaderROEntries t

def goodHeaderRO : RefOrObject Header → Bool
  | .ref _ => true
  | .obj h => goodHeader h && goodHeaderNoRef h

def goodHeaderNoRef : Header → Bool
  | .mk ⟨_, _, _, _, _, _, _, _, _, _, _, ext⟩ => noStrRef ext

end

end V3

namespace V3

/-- `Parameter` (v3). -/
structure Parameter where
  name : String
  in_ : String
  description : Option String
  required : Option Bool
  deprecated : Option Bool
  allow_empty_value : Option Bool
  style : Option String
  explode : Option Bool
  allow_reserved : Option Bool
  schema : Option (RefOrObject Schema)
  example_ : Option Json
  examples : Option (Smap (RefOrObject Example))
  content : Option (Smap Media)
  extensions : Extensions

abbrev declParameter : List String :=
  ["name", "in", "description", "required", "deprecated", "allowEmptyValue",
   "style", "explode", "allowReserved", "schema", "example", "examples", "content"]

def decParameter : Json → DRes Parameter
  | .obj kvs => do
    let name ← reqF kvs "name" asStr
    let in_ ← reqF kvs "in" asStr
    let description ← optF kvs "description" asStr
    let required ← optF kvs "required" asBool
    let deprecated ← optF kvs "deprecated" asBool
    let allow_empty_value ← optF kvs "allowEmptyValue" asBool
    let style ← optF kvs "style" asStr
    let explode ← optF kvs "explode" asBool
    let allow_reserved ← optF kvs "allowReserved" asBool
    let schema ← optF kvs "schema" (decRefOr decSchema)
    let example_ ← optF kvs "example" asValue
    let examples ← optF kvs "examples" (decSmap (decRefOr decExample))
    let content ← optF kvs "content" (decSmap decMedia)
    pure ⟨name, in_, description, required, deprecated, allow_empty_value, style,
      explode, allow_reserved, schema, example_, examples, content,
      extras kvs declParameter⟩
  | _ => .error .typeMismatch

def encParameter (x : Parameter) : Json :=
  .obj (eReq "name" (.str x.name) ++ eReq "in" (.str x.in_) ++
    eOpt "description" Json.str x.description ++ eOpt "required" Json.bool x.required ++
    eOpt "deprecated" Json.bool x.deprecated ++
    eOpt "allowEmptyValue" Json.bool x.allow_empty_value ++
    eOpt "style" Json.str x.style ++ eOpt "explode" Json.bool x.explode ++
    eOpt "allowReserved" Json.bool x.allow_reserved ++
    eOpt "schema" encSchemaRefOr x.schema ++ eOpt "example" id x.example_ ++
    eOpt "examples" (encSmap (encRefOr encExample)) x.examples ++
    eOpt "content" (encSmap encMedia) x.content ++ x.extensions)

def goodParameter (x : Parameter) : Bool :=
  goodExt declParameter x.extensions && goodOpt goodSchemaRO x.schema &&
    goodOpt (goodSmapBy (goodRefOr (fun _ => true))) x.examples &&
    goodOpt (goodSmapBy goodMedia) x.content

/-- Well-formedness of a `RefOrObject<Parameter>`: an inline parameter must not
re-decode as a `Reference`. -/
def goodParameterRO : RefOrObject Parameter → Bool :=
  goodRefOr (fun p => goodParameter p && noStrRef p.extensions)

/-- `RequestBody` (v3). -/
structure RequestBody where
  description : Option String
  content : Smap Media
  required : Option Bool
  extensions : Extensions

abbrev declRequestBody : List String := ["description", "content", "required"]

def decRequestBody : Json → DRes RequestBody
  | .obj kvs => do
    let description ← optF kvs "description" asStr
    let content ← reqF kvs "content" (decSmap decMedia)
    let required ← optF kvs "required" asBool
    pure ⟨description, content, required, extras kvs declRequestBody⟩
  | _ => .error .typeMismatch

def encRequestBody (x : RequestBody) : Json :=
  .obj (eOpt "description" Json.str x.description ++
    eReq "content" (encSmap encMedia x.content) ++
    eOpt "required" Json.bool x.required ++ x.extensions)

def goodRequestBody (x : RequestBody) : Bool :=
  goodExt declRequestBody x.extensions && goodSmapBy goodMedia x.content

def goodRequestBodyRO : RefOrObject RequestBody → Bool :=
  goodRefOr (fun b => goodRequestBody b && noStrRef b.extensions)

/-- `Response` (v3). -/
structure Response where
  description : String
  headers : Option (Smap (RefOrObject Header))
  content : Option (Smap Media)
  links : Option (Smap (RefOrObject Link))
  extensions : Extensions

abbrev declResponse : List String := ["description", "headers", "content", "links"]

def decResponse : Json → DRes Response
  | .obj kvs => do
    let description ← reqF kvs "description" asStr
    let headers ← optF kvs "headers" (decSmap (decRefOr decHeader))
    let content ← optF kvs "content" (decSmap decMedia)
    let links ← optF kvs "links" (decSmap (decRefOr decLink))
    pure ⟨description, headers, content, links, extras kvs declResponse⟩
  | _ => .error .typeMismatch

def encResponse (x : Response) : Json :=
  .obj (eReq "description" (.str x.description) ++
    eOpt "headers" (encSmap encHeaderRefOr) x.headers ++
    eOpt "content" (encSmap encMedia) x.content ++
    eOpt "links" (encSmap (encRefOr encLink)) x.links ++ x.extensions)

def goodResponse (x : Response) : Bool :=
  goodExt declResponse x.extensions && goodOpt (goodSmapBy goodHeaderRO) x.headers &&
    goodOpt (goodSmapBy goodMedia) x.content &&
    goodOpt (goodSmapBy (goodRefOr goodLink)) x.links

def goodResponseRO : RefOrObject Response → Bool :=
  goodRefOr (fun r => goodResponse r && noStrRef r.extensions)

/-- `Responses` (v3): `BTreeMap<String, RefOrObject<Response>>`. -/
abbrev Responses := Smap (RefOrObject Response)

def decResponses : Json → DRes Responses := decSmap (decRefOr decResponse)

def encResponses (m : Responses) : Json := encSmap (encRefOr encResponse) m

def goodResponses (m : Responses) : Bool := goodSmapBy goodResponseRO m

/-- The fields of the v3 `PathItem`, parametric in the `Operation` type at its
recursive operation positions. -/
structure PathItemCore (op : Type) where
  reference : Option String
  summary : Option String
  description : Option String
  get : Option op
  put : Option op
  post : Option op
  delete : Option op
  options : Option op
  head : Option op
  patch : Option op
  trace : Option op
  servers : Option (List Server)
  parameters : Option (List (RefOrObject Parameter))
  extensions : Extensions

/-- The fields of the v3 `Operation`, parametric in the `PathItem` type inside
its recursive `callbacks` position (`Callback = BTreeMap<String, PathItem>`). -/
structure OperationCore (pi : Type) where
  tags : Option (List String)
  summary : Option String
  description : Option String
  external_docs : Option ExternalDoc
  operation_id : Option String
  parameters : Option (List (RefOrObject Parameter))
  request_body : Option (RefOrObject RequestBody)
  responses : Responses
  callbacks : Option (List (String × RefOrObject (List (String × pi))))
  deprecated : Option Bool
  security : Option (List SecurityRequirement)
  servers : Option (List Server)
  extensions : Extensions

mutual

inductive PathItem where
  | mk : PathItemCore Operation → PathItem

inductive Operation where
  | mk : OperationCore PathItem → Operation

end

def PathItem.core : PathItem → PathItemCore Operation
  | .mk c => c

def Operation.core : Operation → OperationCore PathItem
  | .mk c => c

/-- `Callback` (v3): `BTreeMap<String, PathItem>`. -/
abbrev Callback := Smap PathItem

/-- `Paths` (v3): `BTreeMap<String, PathItem>`. -/
abbrev Paths := Smap PathItem

abbrev declPathItem : List String :=
  ["$ref", "summary", "description", "get", "put", "post", "delete", "options",
   "head", "patch", "trace", "servers", "parameters"]

abbrev declOperation : List String :=
  ["tags", "summary", "description", "externalDocs", "operationId", "parameters",
   "requestBody", "responses", "callbacks", "deprecated", "security", "servers"]

mutual

def decPathItemAux : Nat → Json → DRes PathItem
  | 0, _ => .error .recursionLimit
  | fuel + 1, .obj kvs => do
    let reference ← optF kvs "$ref" asStr
    let summary ← optF kvs "summary" asStr
    let description ← optF kvs "description" asStr
    let get ← optF kvs "get" (decOperationAux fuel)
    let put ← optF kvs "put" (decOperationAux fuel)
    let post ← optF kvs "post" (decOperationAux fuel)
    let delete ← optF kvs "delete" (decOperationAux fuel)
    let options ← optF kvs "options" (decOperationAux fuel)
    let head ← optF kvs "head" (decOperationAux fuel)
    let patch ← optF kvs "patch" (decOperationAux fuel)
    let trace ← optF kvs "trace" (decOperationAux fuel)
    let servers ← optF kvs "servers" (decList decServer)
    let parameters ← optF kvs "parameters" (decList (decRefOr decParameter))
    pure (.mk ⟨reference, summary, description, get, put, post, delete, options,
      head, patch, trace, servers, parameters, extras kvs declPathItem⟩)
  | _ + 1, _ => .error .typeMismatch

def decOperationAux : Nat → Json → DRes Operation
  | 0, _ => .error .recursionLimit
  | fuel + 1, .obj kvs => do
    let tags ← optF kvs "tags" (decList asStr)
    let summary ← optF kvs "summary" asStr
    let description ← optF kvs "description" asStr
    let external_docs ← optF kvs "externalDocs" decExternalDoc
    let operation_id ← optF kvs "operationId" asStr
    let parameters ← optF kvs "parameters" (decList (decRefOr decParameter))
    let request_body ← optF kvs "requestBody" (decRefOr decRequestBody)
    let responses ← reqF kvs "responses" decResponses
    let callbacks ← optF kvs "callbacks" (decSmap (decRefOr (decSmap (decPathItemAux fuel))))
    let deprecated ← optF kvs "deprecated" asBool
    let security ← optF kvs "security" (decList decSecurityRequirement)
    let servers ← optF kvs "servers" (decList decServer)
    pure (.mk ⟨tags, summary, description, external_docs, operation_id, parameters,
      request_body, responses, callbacks, deprecated, security, servers,
      extras kvs declOperation⟩)
  | _ + 1, _ => .error .typeMismatch

end

def decPathItem (j : Json) : DRes PathItem := decPathItemAux (jsize j) j

def decOperation (j : Json) : DRes Operation := decOperationAux (jsize j) j

mutual

def encPathItem : PathItem → Json
  | .mk ⟨reference, summary, description, get, put, post, delete, options, head,
      patch, trace, servers, parameters, ext⟩ =>
    .obj (eOpt "$ref" Json.str reference ++ eOpt "summary" Json.str summary ++
      eOpt "description" Json.str description ++ encOpField "get" get ++
      encOpField "put" put ++ encOpField "post" post ++ encOpField "delete" delete ++
      encOpField "options" options ++ encOpField "head" head ++
      encOpField "patch" patch ++ encOpField "trace" trace ++
      eOpt "servers" (encList encServer) servers ++
      eOpt "parameters" (encList (encRefOr encParameter)) parameters ++ ext)

def encOpField : String → Option Operation → Omap
  | _, none => []
  | k, some op => [(k, encOperation op)]

def encOperation : Operation → Json
  | .mk ⟨tags, summary, description, external_docs, operation_id, parameters,
      request_body, responses, callbacks, deprecated, security, servers, ext⟩ =>
    .obj (eOpt "tags" (encList Json.str) tags ++ eOpt "summary" Json.str summary ++
      eOpt "description" Json.str description ++
      eOpt "externalDocs" encExternalDoc external_docs ++
      eOpt "operationId" Json.str operation_id ++
      eOpt "parameters" (encList (encRefOr encParameter)) parameters ++
      eOpt "requestBody" (encRefOr encRequestBody) request_body ++
      eReq "responses" (encResponses responses) ++
      encCallbacksField callbacks ++ eOpt "deprecated" Json.bool deprecated ++
      eOpt "security" (encList encSecurityRequirement) security ++
      eOpt "servers" (encList encServer) servers ++ ext)

def encCallbacksField : Option (List (String × RefOrObject (List (String × PathItem)))) → Omap
  | none => []
  | some m => [("callbacks", Json.obj (encCallbackROEntries m))]

def encCallbackROEntries : List (String × RefOrObject (List (String × PathItem))) → List (String × Json)
  | [] => []
  | (k, ro) :: t => (k, encCallbackRO ro) :: encCallbackROEntries t

def encCallbackRO : RefOrObject (List (String × PathItem)) → Json
  | .ref r => encReference r
  | .obj cb => Json.obj (encPathItemEntries cb)

def encPathItemEntries : List (String × PathItem) → List (String × Json)
  | [] => []
  | (k, p) :: t => (k, encPathItem p) :: encPathItemEntries t

end

mutual

def goodPathItem : PathItem → Bool
  | .mk ⟨_, _, _, get, put, post, delete, options, head, patch, trace, servers,
      parameters, ext⟩ =>
    goodExt declPathItem ext && goodOpOpt get && goodOpOpt put && goodOpOpt post &&
      goodOpOpt delete && goodOpOpt options && goodOpOpt head && goodOpOpt patch &&
      goodOpOpt trace && goodOpt (fun l => l.all goodServer) servers &&
      goodParamsOpt parameters

def goodOpOpt : Option Operation → Bool
  | none => true
  | some op => goodOperation op

def goodParamsOpt : Option (List (RefOrObject Parameter)) → Bool
  | none => true
  | some l => l.all goodParameterRO

def goodOperation : Operation → Bool
  | .mk ⟨_, _, _, external_docs, _, parameters, request_body, responses, callbacks,
      _, security, servers, ext⟩ =>
    goodExt declOperation ext && goodOpt goodExternalDoc external_docs &&
      goodParamsOpt parameters &&
      goodOpt goodRequestBodyRO request_body && goodResponses responses &&
      goodCallbacksOpt callbacks &&
      goodOpt (fun l => l.all goodSecurityRequirement) security &&
      goodOpt (fun l => l.all goodServer) servers

def goodCallbacksOpt : Option (List (String × RefOrObject (List (String × PathItem)))) → Bool
  | none => true
  | some m => keysSorted (keysOf m) && goodCallbackROEntries m

def goodCallbackROEntries : List (String × RefOrObject (List (String × PathItem))) → Bool
  | [] => true
  | (_, ro) :: t => goodCallbackRO ro && goodCallbackROEntries t

def goodCallbackRO : RefOrObject (List (String × PathItem)) → Bool
  | .ref _ => true
  | .obj cb => keysSorted (keysOf cb) && goodPathItemEntries cb

def goodPathItemEntries : List (String × PathItem) → Bool
  | [] => true
  | (_, p) :: t => goodPathItem p && goodPathItemEntries t

end

/-- `Components` (v3). -/
structure Components where
  schemas : Option (Smap (RefOrObject Schema))
  responses : Option Responses
  parameters : Option (Smap (RefOrObject Parameter))
  examples : Option (Smap (RefOrObject Example))
  request_bodies : Option (Smap (RefOrObject RequestBody))
  headers : Option (Smap (RefOrObject Header))
  security_schemes : Option (Smap (RefOrObject SecurityScheme))
  links : Option (Smap (RefOrObject Link))
  callbacks : Option (Smap (RefOrObject Callback))
  extensions : Extensions

abbrev declComponents : List String :=
  ["schemas", "responses", "parameters", "examples", "requestBodies", "headers",
   "securitySchemes", "links", "callbacks"]

def decComponents : Json → DRes Components
  | .obj kvs => do
    let schemas ← optF kvs "schemas" (decSmap (decRefOr decSchema))
    let responses ← optF kvs "responses" decResponses
    let parameters ← optF kvs "parameters" (decSmap (decRefOr decParameter))
    let examples ← optF kvs "examples" (decSmap (decRefOr decExample))
    let request_bodies ← optF kvs "requestBodies" (decSmap (decRefOr decRequestBody))
    let headers ← optF kvs "headers" (decSmap (decRefOr decHeader))
    let security_schemes ← optF kvs "securitySchemes" (decSmap (decRefOr decSecurityScheme))
    let links ← optF kvs "links" (decSmap (decRefOr decLink))
    let callbacks ← optF kvs "callbacks" (decSmap (decRefOr (decSmap decPathItem)))
    pure ⟨schemas, responses, parameters, examples, request_bodies, headers,
      security_schemes, links, callbacks, extras kvs declComponents⟩
  | _ => .error .typeMismatch

def encComponents (x : Components) : Json :=
  .obj (eOpt "schemas" (encSmap encSchemaRefOr) x.schemas ++
    eOpt "responses" encResponses x.responses ++
    eOpt "parameters" (encSmap (encRefOr encParameter)) x.parameters ++
    eOpt "examples" (encSmap (encRefOr encExample)) x.examples ++
    eOpt "requestBodies" (encSmap (encRefOr encRequestBody)) x.request_bodies ++
    eOpt "headers" (encSmap encHeaderRefOr) x.headers ++
    eOpt "securitySchemes" (encSmap (encRefOr encSecurityScheme)) x.security_schemes ++
    eOpt "links" (encSmap (encRefOr encLink)) x.links ++
    eOpt "callbacks" (encSmap encCallbackRO) x.callbacks ++ x.extensions)

def goodComponents (x : Components) : Bool :=
  goodExt declComponents x.extensions &&
    goodOpt (goodSmapBy goodSchemaRO) x.schemas &&
    goodOpt goodResponses x.responses &&
    goodOpt (goodSmapBy goodParameterRO) x.parameters &&
    goodOpt (goodSmapBy (goodRefOr (fun _ => true))) x.examples &&
    goodOpt (goodSmapBy goodRequestBodyRO) x.request_bodies &&
    goodOpt (goodSmapBy goodHeaderRO) x.headers &&
    goodOpt (goodSmapBy (goodRefOr goodSecurityScheme)) x.security_schemes &&
    goodOpt (goodSmapBy (goodRefOr goodLink)) x.links &&
    goodOpt (goodSmapBy goodCallbackRO) x.callbacks

/-- `OpenApi` (v3), the top-level struct: it has *no* extensions bag, so
unknown top-level keys are ignored on decode and never re-emitted. -/
structure OpenApi where
  openapi : String
  info : Info
  servers : Option (List Server)
  paths : Paths
  components : Option Components
  security : Option SecurityRequirement
  tags : Option (List Tag)
  external_docs : Option ExternalDoc

abbrev declOpenApi : List String :=
  ["openapi", "info", "servers", "paths", "components", "security", "tags",
   "externalDocs"]

def decOpenApi : Json → DRes OpenApi
  | .obj kvs => do
    let openapi ← reqF kvs "openapi" asStr
    let info ← reqF kvs "info" decInfo
    let servers ← optF kvs "servers" (decList decServer)
    let paths ← reqF kvs "paths" (decSmap decPathItem)
    let components ← optF kvs "components" decComponents
    let security ← optF kvs "security" decSecurityRequirement
    let tags ← optF kvs "tags" (decList decTag)
    let external_docs ← optF kvs "externalDocs" decExternalDoc
    pure ⟨openapi, info, servers, paths, components, security, tags, external_docs⟩
  | _ => .error .typeMismatch

def encOpenApi (x : OpenApi) : Json :=
  .obj (eReq "openapi" (.str x.openapi) ++ eReq "info" (encInfo x.info) ++
    eOpt "servers" (encList encServer) x.servers ++
    eReq "paths" (encSmap encPathItem x.paths) ++
    eOpt "components" encComponents x.components ++
    eOpt "security" encSecurityRequirement x.security ++
    eOpt "tags" (encList encTag) x.tags ++
    eOpt "externalDocs" encExternalDoc x.external_docs)

def goodOpenApi (x : OpenApi) : Bool :=
  goodInfo x.info && goodOpt (fun l => l.all goodServer) x.servers &&
    goodSmapBy goodPathItem x.paths && goodOpt goodComponents x.components &&
    goodOpt goodSecurityRequirement x.security &&
    goodOpt (fun l => l.all goodTag) x.tags &&
    goodOpt goodExternalDoc x.external_docs

end V3

/-! ## The document entry points (`src/lib.rs`) -/

/-- `Doc`: `#[serde(untagged)]` with variants in order `V2(Swagger)`,
`V3(OpenApi)`. -/
inductive Doc where
  | V2 (s : V2.Swagger)
  | V3 (o : V3.OpenApi)

/-- Untagged decode of `Doc`: try `V2(Swagger)` first, then `V3(OpenApi)`;
if neither matches, the error is serde's "data did not match any variant of
untagged enum Doc". -/
def decDoc (j : Json) : DRes Doc :=
  match V2.decSwagger j with
  | .ok s => .ok (.V2 s)
  | .error _ =>
    match V3.decOpenApi j with
    | .ok o => .ok (.V3 o)
    | .error _ => .error .noVariantMatched

/-- `from_str`: parse the text, then decode the untagged `Doc`. -/
def fromStr (s : String) : DRes Doc :=
  match parseJson s with
  | .error e => .error e
  | .ok j => decDoc j

/-- Serialization of a `Doc` (each variant encodes via its own graph). -/
def encDoc : Doc → Json
  | .V2 s => V2.encSwagger s
  | .V3 o => V3.encOpenApi o

def goodDoc : Doc → Bool
  | .V2 s => V2.goodSwagger s
  | .V3 o => V3.goodOpenApi o

/-! ## Concrete example values

Used when the testable properties are checked on specific documents. -/

/-- A structurally well-typed v2 inline parameter whose extensions bag binds
the reserved pointer key `$ref` to a string — constructible in memory, but its
serialization re-decodes as a `Reference`. -/
def refExtParameter : V2.Parameter :=
  ⟨"p", .query, none, none, none, none, none, none, none, none, none, none,
    none, none, none, none, none, none, none, none, none, none, none,
    [("$ref", Json.str "x")]⟩

def refExtPathItem : V2.PathItem :=
  ⟨none, none, none, none, none, none, none, none, some [.obj refExtParameter]⟩

def refExtSwagger : V2.Swagger :=
  ⟨"2.0", ⟨"t", none, none, none, none, none, []⟩, none, none, none, none, none,
    [("/p", refExtPathItem)], none, none, none, none, none, none, none, []⟩

def refExtDoc : Doc := .V2 refExtSwagger

/-- Observation separating a decode result from `refExtDoc`: whether the first
parameter of the first path is the inline variant. -/
def firstParamIsInline : DRes Doc → Bool
  | .ok (.V2 s) =>
    match s.paths with
    | (_, pi) :: _ =>
      match pi.parameters with
      | some (.obj _ :: _) => true
      | _ => false
    | _ => false
  | _ => false

/-! # Theorems

First a lemma kit about the combinators, then the decode/encode round-trip of
every type in the graph, then the claims. -/

/-! ## Field access over encoded objects -/

@[simp] theorem getF_nil (k : String) : getF [] k = .ok none := rfl

theorem getF_cons_ne (k k' : String) (v : Json) (t : Omap) (h : ¬k' = k) :
    getF ((k', v) :: t) k = getF t k := by
  simp [getF, h]

theorem getF_cons_eq (k : String) (v : Json) (t : Omap) (h : getF t k = .ok none) :
    getF ((k, v) :: t) k = .ok (some v) := by
  simp [getF, h]

theorem getF_append_ne (k : String) (l₁ l₂ : Omap)
    (h : ∀ p ∈ l₁, ¬p.1 = k) : getF (l₁ ++ l₂) k = getF l₂ k := by
  induction l₁ with
  | nil => rfl
  | cons a t ih =>
    rw [List.cons_append, getF_cons_ne _ _ _ _ (h a (List.mem_cons_self a t))]
    exact ih (fun p hp => h p (List.mem_cons_of_mem a hp))

theorem getF_not_mem (k : String) (l : Omap)
    (h : ∀ p ∈ l, ¬p.1 = k) : getF l k = .ok none := by
  induction l with
  | nil => rfl
  | cons a t ih =>
    rw [getF_cons_ne _ _ _ _ (h a (List.mem_cons_self a t))]
    exact ih (fun p hp => h p (List.mem_cons_of_mem a hp))

@[simp] theorem getF_eReq_ne (k k' : String) (v : Json) (l : Omap)
    (h : ¬k' = k) : getF (eReq k' v ++ l) k = getF l k :=
  getF_append_ne k _ l (by simp [eReq, h])

@[simp] theorem getF_eOpt_ne {α : Type} (k k' : String) (enc : α → Json)
    (o : Option α) (l : Omap) (h : ¬k' = k) :
    getF (eOpt k' enc o ++ l) k = getF l k := by
  apply getF_append_ne
  cases o <;> simp [eOpt, h]

@[simp] theorem getF_eReq_eq (k : String) (v : Json) (l : Omap)
    (h : getF l k = .ok none) : getF (eReq k v ++ l) k = .ok (some v) :=
  getF_cons_eq k v l h

@[simp] theorem getF_eOpt_eq {α : Type} (k : String) (enc : α → Json)
    (o : Option α) (l : Omap) (h : getF l k = .ok none) :
    getF (eOpt k enc o ++ l) k = .ok (o.map enc) := by
  cases o with
  | none => simpa [eOpt] using h
  | some a => exact getF_cons_eq k (enc a) l h

@[simp] theorem getF_eReq_last_ne (k k' : String) (v : Json) (h : ¬k' = k) :
    getF (eReq k' v) k = .ok none := by
  simp [eReq, getF, h]

@[simp] theorem getF_eOpt_last_ne {α : Type} (k k' : String) (enc : α → Json)
    (o : Option α) (h : ¬k' = k) : getF (eOpt k' enc o) k = .ok none := by
  cases o <;> simp [eOpt, getF, h]

@[simp] theorem getF_eReq_last_eq (k : String) (v : Json) :
    getF (eReq k v) k = .ok (some v) := by
  simp [eReq, getF]

@[simp] theorem getF_eOpt_last_eq {α : Type} (k : String) (enc : α → Json)
    (o : Option α) : getF (eOpt k enc o) k = .ok (o.map enc) := by
  cases o <;> simp [eOpt, getF]

/-! ## Well-formed extension bags -/

theorem goodExt_sorted {decl : List String} {ext : Extensions}
    (hg : goodExt decl ext = true) : keysSorted (keysOf ext) = true :=
  (Bool.and_eq_true ..).mp hg |>.1

theorem goodExt_not_declared {decl : List String} {ext : Extensions}
    (hg : goodExt decl ext = true) {p : String × Json} (hp : p ∈ ext) :
    decl.contains p.1 = false := by
  have h2 := List.all_eq_true.mp ((Bool.and_eq_true ..).mp hg).2 p hp
  simpa using h2

@[simp] theorem getF_goodExt {decl : List String} {ext : Extensions}
    (hg : goodExt decl ext = true) (k : String) (hk : k ∈ decl) :
    getF ext k = .ok none := by
  apply getF_not_mem
  intro p hp he
  have h2 := goodExt_not_declared hg hp
  rw [he] at h2
  simp [List.contains] at h2
  exact h2 hk

/-! ## `collectMap` and `extras` -/

theorem keysSorted_tail {a : String} {t : List String}
    (hs : keysSorted (a :: t) = true) : keysSorted t = true := by
  cases t with
  | nil => rfl
  | cons b t' => exact ((Bool.and_eq_true ..).mp hs).2

theorem collectMap_sorted {α : Type} (l : List (String × α))
    (hs : keysSorted (keysOf l) = true) : collectMap l = l := by
  induction l with
  | nil => rfl
  | cons a t ih =>
    have hst : keysSorted (keysOf t) = true := keysSorted_tail hs
    have step : collectMap (a :: t) = insKeep a.1 a.2 (collectMap t) := rfl
    rw [step, ih hst]
    cases t with
    | nil => rfl
    | cons b t' =>
      have hab : strLt a.1 b.1 = true := by
        simpa [keysOf, keysSorted] using ((Bool.and_eq_true ..).mp hs).1
      unfold insKeep
      simp [hab]

theorem contains_mem {l : List String} {k : String} (h : l.contains k = true) :
    k ∈ l := by
  simpa using h

theorem filter_append_none (f : String × Json → Bool) (l₁ l₂ : Omap)
    (h : ∀ p ∈ l₁, f p = false) : (l₁ ++ l₂).filter f = l₂.filter f := by
  rw [List.filter_append, List.filter_eq_nil_iff.mpr (by simpa using h)]
  simp

@[simp] theorem extras_eReq (k : String) (v : Json) (l : Omap) (decl : List String)
    (h : k ∈ decl) : extras (eReq k v ++ l) decl = extras l decl := by
  unfold extras
  rw [filter_append_none]
  intro p hp
  simp only [eReq, List.mem_singleton] at hp
  subst hp
  simp [h]

@[simp] theorem extras_eOpt {α : Type} (k : String) (enc : α → Json) (o : Option α)
    (l : Omap) (decl : List String) (h : k ∈ decl) :
    extras (eOpt k enc o ++ l) decl = extras l decl := by
  unfold extras
  rw [filter_append_none]
  intro p hp
  cases o with
  | none => simp [eOpt] at hp
  | some a =>
    simp only [eOpt, List.mem_singleton] at hp
    subst hp
    simp [h]

@[simp] theorem extras_eReq_last (k : String) (v : Json) (decl : List String)
    (h : k ∈ decl) : extras (eReq k v) decl = [] := by
  unfold extras
  simp [eReq, h]
  rfl

@[simp] theorem extras_eOpt_last {α : Type} (k : String) (enc : α → Json)
    (o : Option α) (decl : List String) (h : k ∈ decl) :
    extras (eOpt k enc o) decl = [] := by
  unfold extras
  cases o <;> simp [eOpt, h] <;> rfl

theorem extras_goodExt {decl : List String} {ext : Extensions}
    (hg : goodExt decl ext = true) : extras ext decl = ext := by
  unfold extras
  rw [List.filter_eq_self.mpr]
  · exact collectMap_sorted ext (goodExt_sorted hg)
  · intro p hp
    have h2 := goodExt_not_declared hg hp
    simp only [Bool.not_eq_true']
    exact h2

/-! ## Evaluating `reqF`/`optF` on encoded fields -/

theorem reqF_eval {kvs : Omap} {k : String} {dec : Json → DRes α} {v : Json} {a : α}
    (hget : getF kvs k = .ok (some v)) (hdec : dec v = .ok a) :
    reqF kvs k dec = .ok a := by
  simp [reqF, hget, hdec]

theorem optF_eval {kvs : Omap} {k : String} {dec : Json → DRes α} {enc : α → Json}
    {o : Option α} (hget : getF kvs k = .ok (o.map enc))
    (hdec : ∀ a, o = some a → dec (enc a) = .ok a) :
    optF kvs k dec = .ok o := by
  cases o with
  | none => simp [optF, hget]
  | some a => simp [optF, hget, hdec a rfl, Except.map]

/-- `optF_eval` with the encoder explicit (for recursive call sites where the
decoder hypothesis is deferred). -/
theorem optF_eval2 {kvs : Omap} {k : String} {dec : Json → DRes α} (enc : α → Json)
    {o : Option α} (hget : getF kvs k = .ok (o.map enc))
    (hdec : ∀ a, o = some a → dec (enc a) = .ok a) :
    optF kvs k dec = .ok o :=
  optF_eval hget hdec

/-- `optF` over an encoded leaf field whose decoder inverts its encoder
unconditionally. -/
theorem optF_leaf {kvs : Omap} {k : String} {dec : Json → DRes α} {enc : α → Json}
    {o : Option α} (hget : getF kvs k = .ok (o.map enc))
    (hdec : ∀ a, dec (enc a) = .ok a) :
    optF kvs k dec = .ok o :=
  optF_eval hget (fun a _ => hdec a)

/-! ## Leaf decoder inverses -/

theorem asStr_rt (s : String) : asStr (Json.str s) = .ok s := rfl

theorem asBool_rt (b : Bool) : asBool (Json.bool b) = .ok b := rfl

theorem asNum_rt (n : Int) : asNum (Json.num n) = .ok n := rfl

theorem asValue_rt (j : Json) : asValue (id j) = .ok j := rfl

/-! ## Container round-trips -/

theorem decEntries_rt {dec : Json → DRes α} {enc : α → Json} :
    ∀ (m : List (String × α)), (∀ p ∈ m, dec (enc p.2) = .ok p.2) →
      decEntries dec (m.map (fun p => (p.1, enc p.2))) = .ok m
  | [], _ => rfl
  | p :: t, h => by
    obtain ⟨k, a⟩ := p
    have hp := h (k, a) (List.mem_cons_self _ t)
    have ht := decEntries_rt t (fun q hq => h q (List.mem_cons_of_mem _ hq))
    simp only [List.map_cons]
    simp [decEntries, hp, ht]

theorem decSmap_rt {dec : Json → DRes α} {enc : α → Json} (m : Smap α)
    (hs : keysSorted (keysOf m) = true)
    (hv : ∀ p ∈ m, dec (enc p.2) = .ok p.2) :
    decSmap dec (encSmap enc m) = .ok m := by
  simp only [decSmap, encSmap]
  rw [decEntries_rt m hv]
  simp [Except.map, collectMap_sorted m hs]

theorem decElems_rt {dec : Json → DRes α} {enc : α → Json} :
    ∀ (l : List α), (∀ a ∈ l, dec (enc a) = .ok a) →
      decElems dec (l.map enc) = .ok l
  | [], _ => rfl
  | a :: t, h => by
    have ha := h a (List.mem_cons_self a t)
    have ht := decElems_rt t (fun b hb => h b (List.mem_cons_of_mem a hb))
    simp [decElems, ha, ht]

theorem decList_rt {dec : Json → DRes α} {enc : α → Json} (l : List α)
    (hv : ∀ a ∈ l, dec (enc a) = .ok a) :
    decList dec (encList enc l) = .ok l := by
  unfold decList encList
  exact decElems_rt l hv

/-! ## `Reference` and reference-or-inline -/

theorem decReference_rt (r : Reference) : decReference (encReference r) = .ok r := rfl

/-- A `Reference`-shaped trial fails on any object whose (unique) view of the
`$ref` key is absent or not a string. -/
theorem decReference_fails {kvs : Omap}
    (h : getF kvs "$ref" = .ok none ∨
      ∃ v, getF kvs "$ref" = .ok (some v) ∧ asStr v = .error .typeMismatch) :
    ∃ e, decReference (.obj kvs) = .error e := by
  rcases h with h | ⟨v, hv, hs⟩
  · exact ⟨.missingField "$ref", by simp [decReference, reqF, h]⟩
  · exact ⟨.typeMismatch, by simp [decReference, reqF, hv, hs]⟩

theorem decRefOr_ref {decT : Json → DRes α} (r : Reference) :
    decRefOr decT (encReference r) = .ok (.ref r) := by
  simp [decRefOr, decReference_rt]

theorem decRefOr_obj {decT : Json → DRes α} {j : Json} {t : α}
    (hfail : ∃ e, decReference j = .error e) (hok : decT j = .ok t) :
    decRefOr decT j = .ok (.obj t) := by
  obtain ⟨e, he⟩ := hfail
  simp [decRefOr, he, hok]

/-! ## `jsize` facts -/

theorem jsize_pos : ∀ j : Json, 0 < jsize j
  | .null => by simp [jsize]
  | .bool _ => by simp [jsize]
  | .num _ => by simp [jsize]
  | .str _ => by simp [jsize]
  | .arr _ => by simp [jsize]
  | .obj _ => by simp [jsize]

theorem jsizeMems_mem : ∀ {ms : List (String × Json)} {p : String × Json},
    p ∈ ms → jsize p.2 < jsizeMems ms + 1
  | m :: t, p, h => by
    rcases List.mem_cons.mp h with rfl | h'
    · cases p with
      | mk k v => simp [jsizeMems]; omega
    · have := jsizeMems_mem h'
      cases m with
      | mk k v => simp [jsizeMems] at *; omega

theorem jsize_obj_mem {ms : List (String × Json)} {p : String × Json}
    (h : p ∈ ms) : jsize p.2 < jsize (.obj ms) := by
  have := jsizeMems_mem h
  simp [jsize]
  omega

theorem jsize_obj_mem2 {ms : List (String × Json)} {k : String} {v : Json}
    (h : (k, v) ∈ ms) : jsize v < jsize (.obj ms) :=
  jsize_obj_mem h

theorem jsizeElems_mem : ∀ {xs : List Json} {x : Json},
    x ∈ xs → jsize x < jsizeElems xs + 1
  | y :: t, x, h => by
    rcases List.mem_cons.mp h with rfl | h'
    · simp [jsizeElems]; omega
    · have := jsizeElems_mem h'
      simp [jsizeElems] at *
      omega

theorem jsize_arr_mem {xs : List Json} {x : Json} (h : x ∈ xs) :
    jsize x < jsize (.arr xs) := by
  have := jsizeElems_mem h
  simp [jsize]
  omega

/-! ## Monadic glue and Bool extraction helpers -/

@[simp] theorem dbind_ok {α β : Type} (a : α) (f : α → DRes β) :
    (Except.ok a >>= f : DRes β) = f a := rfl

@[simp] theorem dbind_err {α β : Type} (e : DErr) (f : α → DRes β) :
    (Except.error e >>= f : DRes β) = .error e := rfl

theorem band_l {a b : Bool} (h : (a && b) = true) : a = true :=
  ((Bool.and_eq_true ..).mp h).1

theorem band_r {a b : Bool} (h : (a && b) = true) : b = true :=
  ((Bool.and_eq_true ..).mp h).2

theorem goodOpt_some {p : α → Bool} {o : Option α} (h : goodOpt p o = true)
    {a : α} (ha : o = some a) : p a = true := by
  subst ha
  exact h

theorem all_mem {p : α → Bool} {l : List α} (h : l.all p = true) {a : α}
    (ha : a ∈ l) : p a = true :=
  List.all_eq_true.mp h a ha

theorem goodSmapBy_sorted {p : α → Bool} {m : Smap α}
    (h : goodSmapBy p m = true) : keysSorted (keysOf m) = true := band_l h

theorem goodSmapBy_val {p : α → Bool} {m : Smap α} (h : goodSmapBy p m = true)
    {q : String × α} (hq : q ∈ m) : p q.2 = true :=
  all_mem (band_r h) hq

/-! ## Round-trips, v2 leaves -/

theorem v2_TransferProtocol_rt (a : V2.TransferProtocol) :
    V2.decTransferProtocol (V2.encTransferProtocol a) = .ok a := by
  cases a <;> rfl

theorem v2_InEnum_rt (a : V2.InEnum) : V2.decInEnum (V2.encInEnum a) = .ok a := by
  cases a <;> rfl

theorem v2_Flow_rt (a : V2.Flow) : V2.decFlow (V2.encFlow a) = .ok a := by
  cases a <;> rfl

theorem v2_AuthorizationUrl_rt (a : V2.AuthorizationUrl) :
    V2.decAuthorizationUrl (V2.encAuthorizationUrl a) = .ok a := by
  cases a <;> rfl

theorem v2_TokenUrl_rt (a : V2.TokenUrl) :
    V2.decTokenUrl (V2.encTokenUrl a) = .ok a := by
  cases a <;> rfl

theorem v2_SecuritySchemeType_rt (a : V2.SecuritySchemeType) :
    V2.decSecuritySchemeType (V2.encSecuritySchemeType a) = .ok a := by
  cases a <;> rfl

theorem v2_ParamInEnum_rt (a : V2.ParamInEnum) :
    V2.decParamInEnum (V2.encParamInEnum a) = .ok a := by
  cases a <;> rfl

theorem v2_ParameterType_rt (a : V2.ParameterType) :
    V2.decParameterType (V2.encParameterType a) = .ok a := by
  cases a <;> rfl

theorem v2_ItemsType_rt (a : V2.ItemsType) :
    V2.decItemsType (V2.encItemsType a) = .ok a := by
  cases a <;> rfl

theorem v2_ExternalDoc_of_fields {kvs : Omap} {description : Option String}
    {url : String}
    (h1 : optF kvs "description" asStr = .ok description)
    (h2 : reqF kvs "url" asStr = .ok url) :
    V2.decExternalDoc (.obj kvs) = .ok ⟨description, url⟩ := by
  simp only [V2.decExternalDoc, h1, h2, dbind_ok]
  rfl

theorem v2_ExternalDoc_rt (x : V2.ExternalDoc) :
    V2.decExternalDoc (V2.encExternalDoc x) = .ok x := by
  obtain ⟨description, url⟩ := x
  apply v2_ExternalDoc_of_fields
  · exact optF_leaf (by simp [V2.encExternalDoc, getF_not_mem]) asStr_rt
  · exact reqF_eval (by simp [V2.encExternalDoc, getF_not_mem]) (asStr_rt _)

theorem v2_Tag_of_fields {kvs : Omap} {name : String} {description : Option String}
    {external_doc : Option V2.ExternalDoc}
    (h1 : reqF kvs "name" asStr = .ok name)
    (h2 : optF kvs "description" asStr = .ok description)
    (h3 : optF kvs "externalDoc" V2.decExternalDoc = .ok external_doc) :
    V2.decTag (.obj kvs) = .ok ⟨name, description, external_doc⟩ := by
  simp only [V2.decTag, h1, h2, h3, dbind_ok]
  rfl

theorem v2_Tag_rt (x : V2.Tag) : V2.decTag (V2.encTag x) = .ok x := by
  obtain ⟨name, description, external_doc⟩ := x
  apply v2_Tag_of_fields
  · exact reqF_eval (by simp [V2.encTag, getF_not_mem]) (asStr_rt _)
  · exact optF_leaf (by simp [V2.encTag, getF_not_mem]) asStr_rt
  · exact optF_leaf (by simp [V2.encTag, getF_not_mem]) v2_ExternalDoc_rt

theorem v2_Contact_of_fields {kvs : Omap} {name url email : Option String}
    {ext : Extensions}
    (h1 : optF kvs "name" asStr = .ok name)
    (h2 : optF kvs "url" asStr = .ok url)
    (h3 : optF kvs "email" asStr = .ok email)
    (h4 : extras kvs V2.declContact = ext) :
    V2.decContact (.obj kvs) = .ok ⟨name, url, email, ext⟩ := by
  simp only [V2.decContact, h1, h2, h3, h4, dbind_ok]
  rfl

theorem v2_Contact_rt (x : V2.Contact) (hx : V2.goodContact x = true) :
    V2.decContact (V2.encContact x) = .ok x := by
  obtain ⟨name, url, email, ext⟩ := x
  have hg : goodExt V2.declContact ext = true := hx
  apply v2_Contact_of_fields
  · exact optF_leaf (by simp [V2.encContact, getF_goodExt hg]) asStr_rt
  · exact optF_leaf (by simp [V2.encContact, getF_goodExt hg]) asStr_rt
  · exact optF_leaf (by simp [V2.encContact, getF_goodExt hg]) asStr_rt
  · simp [V2.encContact, extras_goodExt hg]

theorem v2_License_of_fields {kvs : Omap} {name : String} {url : Option String}
    {ext : Extensions}
    (h1 : reqF kvs "name" asStr = .ok name)
    (h2 : optF kvs "url" asStr = .ok url)
    (h3 : extras kvs V2.declLicense = ext) :
    V2.decLicense (.obj kvs) = .ok ⟨name, url, ext⟩ := by
  simp only [V2.decLicense, h1, h2, h3, dbind_ok]
  rfl

theorem v2_License_rt (x : V2.License) (hx : V2.goodLicense x = true) :
    V2.decLicense (V2.encLicense x) = .ok x := by
  obtain ⟨name, url, ext⟩ := x
  have hg : goodExt V2.declLicense ext = true := hx
  apply v2_License_of_fields
  · exact reqF_eval (by simp [V2.encLicense, getF_goodExt hg]) (asStr_rt _)
  · exact optF_leaf (by simp [V2.encLicense, getF_goodExt hg]) asStr_rt
  · simp [V2.encLicense, extras_goodExt hg]

theorem v2_Info_of_fields {kvs : Omap} {title : String}
    {description terms_of_service : Option String} {contact : Option V2.Contact}
    {license : Option V2.License} {version : Option String} {ext : Extensions}
    (h1 : reqF kvs "title" asStr = .ok title)
    (h2 : optF kvs "description" asStr = .ok description)
    (h3 : optF kvs "termsOfService" asStr = .ok terms_of_service)
    (h4 : optF kvs "contact" V2.decContact = .ok contact)
    (h5 : optF kvs "license" V2.decLicense = .ok license)
    (h6 : optF kvs "version" asStr = .ok version)
    (h7 : extras kvs V2.declInfo = ext) :
    V2.decInfo (.obj kvs) =
      .ok ⟨title, description, terms_of_service, contact, license, version, ext⟩ := by
  simp only [V2.decInfo, h1, h2, h3, h4, h5, h6, h7, dbind_ok]
  rfl

theorem v2_Info_rt (x : V2.Info) (hx : V2.goodInfo x = true) :
    V2.decInfo (V2.encInfo x) = .ok x := by
  obtain ⟨title, description, terms_of_service, contact, license, version, ext⟩ := x
  have hg : goodExt V2.declInfo ext = true := band_l (band_l hx)
  have hc : goodOpt V2.goodContact contact = true := band_r (band_l hx)
  have hl : goodOpt V2.goodLicense license = true := band_r hx
  apply v2_Info_of_fields
  · exact reqF_eval (by simp [V2.encInfo, getF_goodExt hg]) (asStr_rt _)
  · exact optF_leaf (by simp [V2.encInfo, getF_goodExt hg]) asStr_rt
  · exact optF_leaf (by simp [V2.encInfo, getF_goodExt hg]) asStr_rt
  · exact optF_eval (by simp [V2.encInfo, getF_goodExt hg])
      (fun a ha => v2_Contact_rt a (goodOpt_some hc ha))
  · exact optF_eval (by simp [V2.encInfo, getF_goodExt hg])
      (fun a ha => v2_License_rt a (goodOpt_some hl ha))
  · exact optF_leaf (by simp [V2.encInfo, getF_goodExt hg]) asStr_rt
  · simp [V2.encInfo, extras_goodExt hg]

theorem v2_SecurityRequirementObject_rt (m : V2.SecurityRequirementObject)
    (hm : V2.goodSecurityRequirementObject m = true) :
    V2.decSecurityRequirementObject (V2.encSecurityRequirementObject m) = .ok m :=
  decSmap_rt m hm (fun _ _ => decList_rt _ (fun a _ => asStr_rt a))

theorem v2_SecurityScheme_of_fields {kvs : Omap} {type : V2.SecuritySchemeType}
    {description : Option String} {name : String} {in_ : V2.InEnum} {flow : V2.Flow}
    {authorization_url : V2.AuthorizationUrl} {token_url : V2.TokenUrl}
    {scopes : Smap String} {ext : Extensions}
    (h1 : reqF kvs "type" V2.decSecuritySchemeType = .ok type)
    (h2 : optF kvs "description" asStr = .ok description)
    (h3 : reqF kvs "name" asStr = .ok name)
    (h4 : reqF kvs "in" V2.decInEnum = .ok in_)
    (h5 : reqF kvs "flow" V2.decFlow = .ok flow)
    (h6 : reqF kvs "authorizationUrl" V2.decAuthorizationUrl = .ok authorization_url)
    (h7 : reqF kvs "tokenUrl" V2.decTokenUrl = .ok token_url)
    (h8 : reqF kvs "scopes" (decSmap asStr) = .ok scopes)
    (h9 : extras kvs V2.declSecurityScheme = ext) :
    V2.decSecurityScheme (.obj kvs) =
      .ok ⟨type, description, name, in_, flow, authorization_url, token_url, scopes, ext⟩ := by
  simp only [V2.decSecurityScheme, h1, h2, h3, h4, h5, h6, h7, h8, h9, dbind_ok]
  rfl

theorem v2_SecurityScheme_rt (x : V2.SecurityScheme)
    (hx : V2.goodSecurityScheme x = true) :
    V2.decSecurityScheme (V2.encSecurityScheme x) = .ok x := by
  obtain ⟨type, description, name, in_, flow, authorization_url, token_url, scopes, ext⟩ := x
  have hg : goodExt V2.declSecurityScheme ext = true := band_l hx
  have hsc : keysSorted (keysOf scopes) = true := band_r hx
  apply v2_SecurityScheme_of_fields
  · exact reqF_eval (by simp [V2.encSecurityScheme, getF_goodExt hg])
      (v2_SecuritySchemeType_rt _)
  · exact optF_leaf (by simp [V2.encSecurityScheme, getF_goodExt hg]) asStr_rt
  · exact reqF_eval (by simp [V2.encSecurityScheme, getF_goodExt hg]) (asStr_rt _)
  · exact reqF_eval (by simp [V2.encSecurityScheme, getF_goodExt hg]) (v2_InEnum_rt _)
  · exact reqF_eval (by simp [V2.encSecurityScheme, getF_goodExt hg]) (v2_Flow_rt _)
  · exact reqF_eval (by simp [V2.encSecurityScheme, getF_goodExt hg])
      (v2_AuthorizationUrl_rt _)
  · exact reqF_eval (by simp [V2.encSecurityScheme, getF_goodExt hg]) (v2_TokenUrl_rt _)
  · exact reqF_eval (by simp [V2.encSecurityScheme, getF_goodExt hg])
      (decSmap_rt scopes hsc (fun _ _ => asStr_rt _))
  · simp [V2.encSecurityScheme, extras_goodExt hg]

/-! ## Round-trip of the recursive v2 `Schema` -/

theorem v2_encSchemaItems_eq (o : Option V2.Schema) :
    V2.encSchemaItems o = eOpt "items" V2.encSchema o := by
  cases o <;> rfl

theorem v2_encSchemaEntries_eq : ∀ m : List (String × V2.Schema),
    V2.encSchemaEntries m = m.map (fun p => (p.1, V2.encSchema p.2))
  | [] => rfl
  | (k, s) :: t => by
    simp only [V2.encSchemaEntries, v2_encSchemaEntries_eq t, List.map_cons]

theorem v2_encSchemaProps_eq (o : Option (List (String × V2.Schema))) :
    V2.encSchemaProps o =
      eOpt "properties" (fun m => encSmap V2.encSchema m) o := by
  cases o with
  | none => rfl
  | some m =>
    simp only [V2.encSchemaProps, eOpt, encSmap, v2_encSchemaEntries_eq]

theorem v2_encSchemaElems_eq : ∀ l : List V2.Schema,
    V2.encSchemaElems l = l.map V2.encSchema
  | [] => rfl
  | s :: t => by
    simp only [V2.encSchemaElems, v2_encSchemaElems_eq t, List.map_cons]

theorem v2_encSchemaAllOf_eq (o : Option (List V2.Schema)) :
    V2.encSchemaAllOf o = eOpt "allOf" (fun l => encList V2.encSchema l) o := by
  cases o with
  | none => rfl
  | some l => simp only [V2.encSchemaAllOf, eOpt, encList, v2_encSchemaElems_eq]

theorem v2_goodSchemaEntries_mem : ∀ {m : List (String × V2.Schema)},
    V2.goodSchemaEntries m = true → ∀ {p : String × V2.Schema}, p ∈ m →
      V2.goodSchema p.2 = true
  | q :: t, h, p, hp => by
    rcases List.mem_cons.mp hp with rfl | hp'
    · exact band_l (by simpa [V2.goodSchemaEntries] using h)
    · exact v2_goodSchemaEntries_mem (band_r (by simpa [V2.goodSchemaEntries] using h)) hp'

theorem v2_goodSchemaElems_mem : ∀ {l : List V2.Schema},
    V2.goodSchemaElems l = true → ∀ {s : V2.Schema}, s ∈ l → V2.goodSchema s = true
  | a :: t, h, s, hs => by
    rcases List.mem_cons.mp hs with rfl | hs'
    · exact band_l (by simpa [V2.goodSchemaElems] using h)
    · exact v2_goodSchemaElems_mem (band_r (by simpa [V2.goodSchemaElems] using h)) hs'

theorem v2_Schema_of_fields {fuel : Nat} {kvs : Omap}
    {reference title description type format : Option String}
    {enum required : Option (List String)} {default : Option Json}
    {maximum : Option Int} {exclusive_maximum : Option Bool} {minimum : Option Int}
    {exclusive_minimum : Option Bool} {max_length min_length : Option Int}
    {pattern : Option String} {max_items min_items : Option Int}
    {unique_items : Option Bool} {multiple_of : Option Int}
    {items : Option V2.Schema} {properties : Option (List (String × V2.Schema))}
    {all_of : Option (List V2.Schema)} {ext : Extensions}
    (h1 : optF kvs "$ref" asStr = .ok reference)
    (h2 : optF kvs "title" asStr = .ok title)
    (h3 : optF kvs "description" asStr = .ok description)
    (h4 : optF kvs "type" asStr = .ok type)
    (h5 : optF kvs "format" asStr = .ok format)
    (h6 : optF kvs "enum" (decList asStr) = .ok enum)
    (h7 : optF kvs "required" (decList asStr) = .ok required)
    (h8 : optF kvs "default" asValue = .ok default)
    (h9 : optF kvs "maximum" asNum = .ok maximum)
    (h10 : optF kvs "exclusiveMaximum" asBool = .ok exclusive_maximum)
    (h11 : optF kvs "minimum" asNum = .ok minimum)
    (h12 : optF kvs "exclusiveMinimum" asBool = .ok exclusive_minimum)
    (h13 : optF kvs "maxLength" asNum = .ok max_length)
    (h14 : optF kvs "minLength" asNum = .ok min_length)
    (h15 : optF kvs "pattern" asStr = .ok pattern)
    (h16 : optF kvs "maxItems" asNum = .ok max_items)
    (h17 : optF kvs "minItems" asNum = .ok min_items)
    (h18 : optF kvs "uniqueItems" asBool = .ok unique_items)
    (h19 : optF kvs "multipleOf" asNum = .ok multiple_of)
    (h20 : optF kvs "items" (V2.decSchemaAux fuel) = .ok items)
    (h21 : optF kvs "properties" (decSmap (V2.decSchemaAux fuel)) = .ok properties)
    (h22 : optF kvs "allOf" (decList (V2.decSchemaAux fuel)) = .ok all_of)
    (h23 : extras kvs V2.declSchema = ext) :
    V2.decSchemaAux (fuel + 1) (.obj kvs) =
      .ok (.mk ⟨reference, title, description, type, format, enum, required, default,
        maximum, exclusive_maximum, minimum, exclusive_minimum, max_length,
        min_length, pattern, max_items, min_items, unique_items, multiple_of,
        items, properties, all_of, ext⟩) := by
  simp only [V2.decSchemaAux, h1, h2, h3, h4, h5, h6, h7, h8, h9, h10, h11, h12,
    h13, h14, h15, h16, h17, h18, h19, h20, h21, h22, h23, dbind_ok]
  rfl

theorem v2_Schema_rt_aux : ∀ (fuel : Nat) (s : V2.Schema),
    V2.goodSchema s = true → jsize (V2.encSchema s) ≤ fuel →
      V2.decSchemaAux fuel (V2.encSchema s) = .ok s := by
  intro fuel
  induction fuel using Nat.strong_induction_on with
  | _ fuel ih =>
    intro s hs hsize
    obtain ⟨reference, title, description, type, format, enum, required, default,
      maximum, exclusive_maximum, minimum, exclusive_minimum, max_length,
      min_length, pattern, max_items, min_items, unique_items, multiple_of,
      items, properties, all_of, ext⟩ := s
    match fuel with
    | 0 =>
      have := jsize_pos (V2.encSchema (.mk ⟨reference, title, description, type,
        format, enum, required, default, maximum, exclusive_maximum, minimum,
        exclusive_minimum, max_length, min_length, pattern, max_items, min_items,
        unique_items, multiple_of, items, properties, all_of, ext⟩))
      omega
    | fuel + 1 =>
      simp only [V2.goodSchema, Bool.and_eq_true] at hs
      obtain ⟨⟨⟨hg, hit⟩, hpr⟩, hal⟩ := hs
      rw [show V2.encSchema (.mk ⟨reference, title, description, type, format, enum,
        required, default, maximum, exclusive_maximum, minimum, exclusive_minimum,
        max_length, min_length, pattern, max_items, min_items, unique_items,
        multiple_of, items, properties, all_of, ext⟩) =
        .obj (eOpt "$ref" Json.str reference ++ eOpt "title" Json.str title ++
          eOpt "description" Json.str description ++ eOpt "type" Json.str type ++
          eOpt "format" Json.str format ++ eOpt "enum" (encList Json.str) enum ++
          eOpt "required" (encList Json.str) required ++ eOpt "default" id default ++
          eOpt "maximum" Json.num maximum ++
          eOpt "exclusiveMaximum" Json.bool exclusive_maximum ++
          eOpt "minimum" Json.num minimum ++
          eOpt "exclusiveMinimum" Json.bool exclusive_minimum ++
          eOpt "maxLength" Json.num max_length ++ eOpt "minLength" Json.num min_length ++
          eOpt "pattern" Json.str pattern ++ eOpt "maxItems" Json.num max_items ++
          eOpt "minItems" Json.num min_items ++
          eOpt "uniqueItems" Json.bool unique_items ++
          eOpt "multipleOf" Json.num multiple_of ++
          eOpt "items" V2.encSchema items ++
          eOpt "properties" (fun m => encSmap V2.encSchema m) properties ++
          eOpt "allOf" (fun l => encList V2.encSchema l) all_of ++ ext)
        from by
          simp only [V2.encSchema, v2_encSchemaItems_eq, v2_encSchemaProps_eq,
            v2_encSchemaAllOf_eq]] at hsize ⊢
      apply v2_Schema_of_fields
      · exact optF_leaf (by simp [getF_goodExt hg]) asStr_rt
      · exact optF_leaf (by simp [getF_goodExt hg]) asStr_rt
      · exact optF_leaf (by simp [getF_goodExt hg]) asStr_rt
      · exact optF_leaf (by simp [getF_goodExt hg]) asStr_rt
      · exact optF_leaf (by simp [getF_goodExt hg]) asStr_rt
      · exact optF_leaf (by simp [getF_goodExt hg])
          (fun l => decList_rt l (fun a _ => asStr_rt a))
      · exact optF_leaf (by simp [getF_goodExt hg])
          (fun l => decList_rt l (fun a _ => asStr_rt a))
      · exact optF_leaf (by simp [getF_goodExt hg]) asValue_rt
      · exact optF_leaf (by simp [getF_goodExt hg]) asNum_rt
      · exact optF_leaf (by simp [getF_goodExt hg]) asBool_rt
      · exact optF_leaf (by simp [getF_goodExt hg]) asNum_rt
      · exact optF_leaf (by simp [getF_goodExt hg]) asBool_rt
      · exact optF_leaf (by simp [getF_goodExt hg]) asNum_rt
      · exact optF_leaf (by simp [getF_goodExt hg]) asNum_rt
      · exact optF_leaf (by simp [getF_goodExt hg]) asStr_rt
      · exact optF_leaf (by simp [getF_goodExt hg]) asNum_rt
      · exact optF_leaf (by simp [getF_goodExt hg]) asNum_rt
      · exact optF_leaf (by simp [getF_goodExt hg]) asBool_rt
      · exact optF_leaf (by simp [getF_goodExt hg]) asNum_rt
      · refine optF_eval2 V2.encSchema (by simp [getF_goodExt hg]) (fun a ha => ?_)
        subst ha
        refine ih fuel (by omega) a (by simpa [V2.goodSchemaItems] using hit) ?_
        have hmem : ("items", V2.encSchema a) ∈ (eOpt "$ref" Json.str reference ++
          eOpt "title" Json.str title ++ eOpt "description" Json.str description ++
          eOpt "type" Json.str type ++ eOpt "format" Json.str format ++
          eOpt "enum" (encList Json.str) enum ++
          eOpt "required" (encList Json.str) required ++ eOpt "default" id default ++
          eOpt "maximum" Json.num maximum ++
          eOpt "exclusiveMaximum" Json.bool exclusive_maximum ++
          eOpt "minimum" Json.num minimum ++
          eOpt "exclusiveMinimum" Json.bool exclusive_minimum ++
          eOpt "maxLength" Json.num max_length ++ eOpt "minLength" Json.num min_length ++
          eOpt "pattern" Json.str pattern ++ eOpt "maxItems" Json.num max_items ++
          eOpt "minItems" Json.num min_items ++
          eOpt "uniqueItems" Json.bool unique_items ++
          eOpt "multipleOf" Json.num multiple_of ++
          eOpt "items" V2.encSchema (some a) ++
          eOpt "properties" (fun m => encSmap V2.encSchema m) properties ++
          eOpt "allOf" (fun l => encList V2.encSchema l) all_of ++ ext) := by
          simp [eOpt]
        have := jsize_obj_mem2 hmem
        omega
      · refine optF_eval2 (fun m => encSmap V2.encSchema m) (by simp [getF_goodExt hg]) (fun m hm => ?_)
        subst hm
        have hms : keysSorted (keysOf m) = true :=
          band_l (by simpa [V2.goodSchemaProps2] using hpr)
        have hme := band_r (by simpa [V2.goodSchemaProps2] using hpr)
        refine decSmap_rt m hms (fun p hp => ?_)
        refine ih fuel (by omega) p.2 (v2_goodSchemaEntries_mem hme hp) ?_
        have hmem : ("properties", encSmap V2.encSchema m) ∈ (eOpt "$ref" Json.str reference ++
          eOpt "title" Json.str title ++ eOpt "description" Json.str description ++
          eOpt "type" Json.str type ++ eOpt "format" Json.str format ++
          eOpt "enum" (encList Json.str) enum ++
          eOpt "required" (encList Json.str) required ++ eOpt "default" id default ++
          eOpt "maximum" Json.num maximum ++
          eOpt "exclusiveMaximum" Json.bool exclusive_maximum ++
          eOpt "minimum" Json.num minimum ++
          eOpt "exclusiveMinimum" Json.bool exclusive_minimum ++
          eOpt "maxLength" Json.num max_length ++ eOpt "minLength" Json.num min_length ++
          eOpt "pattern" Json.str pattern ++ eOpt "maxItems" Json.num max_items ++
          eOpt "minItems" Json.num min_items ++
          eOpt "uniqueItems" Json.bool unique_items ++
          eOpt "multipleOf" Json.num multiple_of ++
          eOpt "items" V2.encSchema items ++
          eOpt "properties" (fun m' => encSmap V2.encSchema m') (some m) ++
          eOpt "allOf" (fun l => encList V2.encSchema l) all_of ++ ext) := by
          simp [eOpt]
        have h1 := jsize_obj_mem2 hmem
        have hmem2 : (p.1, V2.encSchema p.2) ∈
            (m.map (fun q => (q.1, V2.encSchema q.2))) :=
          List.mem_map.mpr ⟨p, hp, rfl⟩
        have h2 := jsize_obj_mem2 hmem2
        have h3 : jsize (encSmap V2.encSchema m) =
            jsize (Json.obj (m.map (fun q => (q.1, V2.encSchema q.2)))) := rfl
        omega
      · refine optF_eval2 (fun l => encList V2.encSchema l) (by simp [getF_goodExt hg]) (fun l hl => ?_)
        subst hl
        have hle := by simpa [V2.goodSchemaAllOf] using hal
        refine decList_rt l (fun a hal2 => ?_)
        refine ih fuel (by omega) a (v2_goodSchemaElems_mem hle hal2) ?_
        have hmem : ("allOf", encList V2.encSchema l) ∈ (eOpt "$ref" Json.str reference ++
          eOpt "title" Json.str title ++ eOpt "description" Json.str description ++
          eOpt "type" Json.str type ++ eOpt "format" Json.str format ++
          eOpt "enum" (encList Json.str) enum ++
          eOpt "required" (encList Json.str) required ++ eOpt "default" id default ++
          eOpt "maximum" Json.num maximum ++
          eOpt "exclusiveMaximum" Json.bool exclusive_maximum ++
          eOpt "minimum" Json.num minimum ++
          eOpt "exclusiveMinimum" Json.bool exclusive_minimum ++
          eOpt "maxLength" Json.num max_length ++ eOpt "minLength" Json.num min_length ++
          eOpt "pattern" Json.str pattern ++ eOpt "maxItems" Json.num max_items ++
          eOpt "minItems" Json.num min_items ++
          eOpt "uniqueItems" Json.bool unique_items ++
          eOpt "multipleOf" Json.num multiple_of ++
          eOpt "items" V2.encSchema items ++
          eOpt "properties" (fun m => encSmap V2.encSchema m) properties ++
          eOpt "allOf" (fun l' => encList V2.encSchema l') (some l) ++ ext) := by
          simp [eOpt]
        have h1 := jsize_obj_mem2 hmem
        have hmem2 : V2.encSchema a ∈ l.map V2.encSchema := List.mem_map_of_mem _ hal2
        have h2 := jsize_arr_mem hmem2
        have h3 : jsize (encList V2.encSchema l) =
            jsize (Json.arr (l.map V2.encSchema)) := rfl
        omega
      · simp [extras_goodExt hg]

theorem v2_Schema_rt (s : V2.Schema) (hs : V2.goodSchema s = true) :
    V2.decSchema (V2.encSchema s) = .ok s :=
  v2_Schema_rt_aux (jsize (V2.encSchema s)) s hs (Nat.le_refl _)

theorem v2_encItemsItems_eq (o : Option V2.Items) :
    V2.encItemsItems o = eOpt "items" V2.encItems o := by
  cases o <;> rfl

theorem v2_Items_of_fields {fuel : Nat} {kvs : Omap} {type : V2.ItemsType}
    {format : Option String} {items : Option V2.Items}
    {collection_format : Option String} {default : Option Json}
    {maximum : Option Int} {exclusive_maximum : Option Bool} {minimum : Option Int}
    {exclusive_minimum : Option Bool} {max_length min_length : Option Int}
    {pattern : Option String} {max_items min_items : Option Int}
    {unique_items : Option Bool} {enum : Option (List Json)}
    {multiple_of : Option Int} {ext : Extensions}
    (h1 : reqF kvs "type" V2.decItemsType = .ok type)
    (h2 : optF kvs "format" asStr = .ok format)
    (h3 : optF kvs "items" (V2.decItemsAux fuel) = .ok items)
    (h4 : optF kvs "collectionFormat" asStr = .ok collection_format)
    (h5 : optF kvs "default" asValue = .ok default)
    (h6 : optF kvs "maximum" asNum = .ok maximum)
    (h7 : optF kvs "exclusiveMaximum" asBool = .ok exclusive_maximum)
    (h8 : optF kvs "minimum" asNum = .ok minimum)
    (h9 : optF kvs "exclusiveMinimum" asBool = .ok exclusive_minimum)
    (h10 : optF kvs "maxLength" asNum = .ok max_length)
    (h11 : optF kvs "minLength" asNum = .ok min_length)
    (h12 : optF kvs "pattern" asStr = .ok pattern)
    (h13 : optF kvs "maxItems" asNum = .ok max_items)
    (h14 : optF kvs "minItems" asNum = .ok min_items)
    (h15 : optF kvs "uniqueItems" asBool = .ok unique_items)
    (h16 : optF kvs "enum" (decList asValue) = .ok enum)
    (h17 : optF kvs "multipleOf" asNum = .ok multiple_of)
    (h18 : extras kvs V2.declItems = ext) :
    V2.decItemsAux (fuel + 1) (.obj kvs) =
      .ok (.mk ⟨type, format, items, collection_format, default, maximum,
        exclusive_maximum, minimum, exclusive_minimum, max_length, min_length,
        pattern, max_items, min_items, unique_items, enum, multiple_of, ext⟩) := by
  simp only [V2.decItemsAux, h1, h2, h3, h4, h5, h6, h7, h8, h9, h10, h11, h12,
    h13, h14, h15, h16, h17, h18, dbind_ok]
  rfl

theorem v2_Items_rt_aux : ∀ (fuel : Nat) (x : V2.Items),
    V2.goodItems x = true → jsize (V2.encItems x) ≤ fuel →
      V2.decItemsAux fuel (V2.encItems x) = .ok x := by
  intro fuel
  induction fuel using Nat.strong_induction_on with
  | _ fuel ih =>
    intro x hx hsize
    obtain ⟨type, format, items, collection_format, default, maximum,
      exclusive_maximum, minimum, exclusive_minimum, max_length, min_length,
      pattern, max_items, min_items, unique_items, enum, multiple_of, ext⟩ := x
    match fuel with
    | 0 =>
      have := jsize_pos (V2.encItems (.mk ⟨type, format, items, collection_format,
        default, maximum, exclusive_maximum, minimum, exclusive_minimum, max_length,
        min_length, pattern, max_items, min_items, unique_items, enum, multiple_of,
        ext⟩))
      omega
    | fuel + 1 =>
      simp only [V2.goodItems, Bool.and_eq_true] at hx
      obtain ⟨hg, hit⟩ := hx
      rw [show V2.encItems (.mk ⟨type, format, items, collection_format, default,
        maximum, exclusive_maximum, minimum, exclusive_minimum, max_length,
        min_length, pattern, max_items, min_items, unique_items, enum, multiple_of,
        ext⟩) =
        .obj (eReq "type" (V2.encItemsType type) ++ eOpt "format" Json.str format ++
          eOpt "items" V2.encItems items ++
          eOpt "collectionFormat" Json.str collection_format ++
          eOpt "default" id default ++ eOpt "maximum" Json.num maximum ++
          eOpt "exclusiveMaximum" Json.bool exclusive_maximum ++
          eOpt "minimum" Json.num minimum ++
          eOpt "exclusiveMinimum" Json.bool exclusive_minimum ++
          eOpt "maxLength" Json.num max_length ++ eOpt "minLength" Json.num min_length ++
          eOpt "pattern" Json.str pattern ++ eOpt "maxItems" Json.num max_items ++
          eOpt "minItems" Json.num min_items ++
          eOpt "uniqueItems" Json.bool unique_items ++ eOpt "enum" (encList id) enum ++
          eOpt "multipleOf" Json.num multiple_of ++ ext)
        from by simp only [V2.encItems, v2_encItemsItems_eq]] at hsize ⊢
      apply v2_Items_of_fields
      · exact reqF_eval (by simp [getF_goodExt hg]) (v2_ItemsType_rt _)
      · exact optF_leaf (by simp [getF_goodExt hg]) asStr_rt
      · refine optF_eval2 V2.encItems (by simp [getF_goodExt hg]) (fun a ha => ?_)
        subst ha
        refine ih fuel (by omega) a (by simpa [V2.goodItemsItems] using hit) ?_
        have hmem : ("items", V2.encItems a) ∈ (eReq "type" (V2.encItemsType type) ++
          eOpt "format" Json.str format ++ eOpt "items" V2.encItems (some a) ++
          eOpt "collectionFormat" Json.str collection_format ++
          eOpt "default" id default ++ eOpt "maximum" Json.num maximum ++
          eOpt "exclusiveMaximum" Json.bool exclusive_maximum ++
          eOpt "minimum" Json.num minimum ++
          eOpt "exclusiveMinimum" Json.bool exclusive_minimum ++
          eOpt "maxLength" Json.num max_length ++ eOpt "minLength" Json.num min_length ++
          eOpt "pattern" Json.str pattern ++ eOpt "maxItems" Json.num max_items ++
          eOpt "minItems" Json.num min_items ++
          eOpt "uniqueItems" Json.bool unique_items ++ eOpt "enum" (encList id) enum ++
          eOpt "multipleOf" Json.num multiple_of ++ ext) := by
          simp [eOpt, eReq]
        have := jsize_obj_mem2 hmem
        omega
      · exact optF_leaf (by simp [getF_goodExt hg]) asStr_rt
      · exact optF_leaf (by simp [getF_goodExt hg]) asValue_rt
      · exact optF_leaf (by simp [getF_goodExt hg]) asNum_rt
      · exact optF_leaf (by simp [getF_goodExt hg]) asBool_rt
      · exact optF_leaf (by simp [getF_goodExt hg]) asNum_rt
      · exact optF_leaf (by simp [getF_goodExt hg]) asBool_rt
      · exact optF_leaf (by simp [getF_goodExt hg]) asNum_rt
      · exact optF_leaf (by simp [getF_goodExt hg]) asNum_rt
      · exact optF_leaf (by simp [getF_goodExt hg]) asStr_rt
      · exact optF_leaf (by simp [getF_goodExt hg]) asNum_rt
      · exact optF_leaf (by simp [getF_goodExt hg]) asNum_rt
      · exact optF_leaf (by simp [getF_goodExt hg]) asBool_rt
      · exact optF_leaf (by simp [getF_goodExt hg])
          (fun l => decList_rt l (fun a _ => asValue_rt a))
      · exact optF_leaf (by simp [getF_goodExt hg]) asNum_rt
      · simp [extras_goodExt hg]

theorem v2_Items_rt (x : V2.Items) (hx : V2.goodItems x = true) :
    V2.decItems (V2.encItems x) = .ok x :=
  v2_Items_rt_aux (jsize (V2.encItems x)) x hx (Nat.le_refl _)

/-! ## Sorted maps: `getF` agrees with `lookupKey`, and the reference trial
fails on a well-formed inline object -/

theorem lexLt_irrefl : ∀ l : List Char, lexLt l l = false
  | [] => rfl
  | a :: as => by simp [lexLt, lexLt_irrefl as]

theorem strLt_irrefl (s : String) : strLt s s = false := lexLt_irrefl _

theorem lexLt_trans : ∀ a b c : List Char,
    lexLt a b = true → lexLt b c = true → lexLt a c = true
  | [], [], _, h, _ => by simp [lexLt] at h
  | [], _ :: _, [], _, h => by simp [lexLt] at h
  | [], _ :: _, _ :: _, _, _ => rfl
  | _ :: _, [], _, h, _ => by simp [lexLt] at h
  | _ :: _, _ :: _, [], _, h => by simp [lexLt] at h
  | a :: as, b :: bs, c :: cs, h1, h2 => by
    simp only [lexLt] at h1 h2 ⊢
    split at h1
    · rename_i hab
      split at h2
      · rename_i hbc
        simp [Nat.lt_trans hab hbc]
      · rename_i hbc
        split at h2
        · rename_i heb
          rw [← heb] at *
          simp [hab]
        · exact absurd h2 (by simp)
    · rename_i hab
      split at h1
      · rename_i heq
        split at h2
        · rename_i hbc
          rw [heq]
          simp [hbc]
        · rename_i hbc
          split at h2
          · rename_i heq2
            rw [heq, heq2]
            simp only [lt_irrefl, if_false, if_pos rfl]
            exact lexLt_trans as bs cs h1 h2
          · exact absurd h2 (by simp)
      · exact absurd h1 (by simp)

theorem strLt_trans {a b c : String} (h1 : strLt a b = true)
    (h2 : strLt b c = true) : strLt a c = true :=
  lexLt_trans _ _ _ h1 h2

theorem keysSorted_head_lt : ∀ {t : List String} {a b : String},
    keysSorted (a :: t) = true → b ∈ t → strLt a b = true
  | c :: t', a, b, h, hb => by
    have hac : strLt a c = true := band_l (by simpa [keysSorted] using h)
    rcases List.mem_cons.mp hb with rfl | hb'
    · exact hac
    · exact strLt_trans hac (keysSorted_head_lt (keysSorted_tail h) hb')

theorem keysSorted_head_not_mem {t : List String} {a : String}
    (h : keysSorted (a :: t) = true) : a ∉ t := by
  intro hmem
  have := keysSorted_head_lt h hmem
  rw [strLt_irrefl] at this
  simp at this

theorem getF_sorted_lookup : ∀ {l : Omap},
    keysSorted (keysOf l) = true → ∀ (k : String), getF l k = .ok (lookupKey l k)
  | [], _, k => rfl
  | (k', v) :: t, h, k => by
    have ht : keysSorted (keysOf t) = true := keysSorted_tail (by simpa [keysOf] using h)
    by_cases he : k' = k
    · subst he
      have hnm : k' ∉ keysOf t :=
        keysSorted_head_not_mem (by simpa [keysOf] using h)
      have h0 : getF t k' = .ok none := by
        apply getF_not_mem
        intro p hp hpk
        exact hnm (by simpa [keysOf, ← hpk] using List.mem_map_of_mem Prod.fst hp)
      rw [getF_cons_eq _ _ _ h0]
      simp [lookupKey]
    · rw [getF_cons_ne _ _ _ _ he, getF_sorted_lookup ht k]
      simp [lookupKey, he]

/-- On an object whose view of `$ref` is that of a well-formed extensions bag
not binding `$ref` to a string, the `Reference` trial fails. -/
theorem decReference_fails_ext {kvs : Omap} {ext : Extensions}
    (hg2 : getF kvs "$ref" = .ok (lookupKey ext "$ref"))
    (hnr : noStrRef ext = true) : ∃ e, decReference (.obj kvs) = .error e := by
  apply decReference_fails
  rcases hlk : lookupKey ext "$ref" with _ | v
  · left
    rw [hg2, hlk]
  · right
    refine ⟨v, by rw [hg2, hlk], ?_⟩
    cases v with
    | str s =>
      rw [noStrRef, hlk] at hnr
      simp at hnr
    | null => rfl
    | bool b => rfl
    | num n => rfl
    | arr xs => rfl
    | obj ms => rfl

/-! ## Round-trips, rest of the v2 graph -/

theorem v2_Parameter_of_fields {kvs : Omap} {name : String} {in_ : V2.ParamInEnum}
    {description : Option String} {required : Option Bool} {schema : Option V2.Schema}
    {type : Option V2.ParameterType} {format : Option String}
    {allow_empty_value : Option Bool} {items : Option V2.Items}
    {collection_format : Option String} {default : Option Json}
    {maximum : Option Int} {exclusive_maximum : Option Bool} {minimum : Option Int}
    {exclusive_minimum : Option Bool} {max_length min_length : Option Int}
    {pattern : Option String} {max_items min_items : Option Int}
    {unique_items : Option Bool} {enum : Option (List Json)}
    {multiple_of : Option Int} {ext : Extensions}
    (h1 : reqF kvs "name" asStr = .ok name)
    (h2 : reqF kvs "in" V2.decParamInEnum = .ok in_)
    (h3 : optF kvs "description" asStr = .ok description)
    (h4 : optF kvs "required" asBool = .ok required)
    (h5 : optF kvs "schema" V2.decSchema = .ok schema)
    (h6 : optF kvs "type" V2.decParameterType = .ok type)
    (h7 : optF kvs "format" asStr = .ok format)
    (h8 : optF kvs "allowEmptyValue" asBool = .ok allow_empty_value)
    (h9 : optF kvs "items" V2.decItems = .ok items)
    (h10 : optF kvs "collectionFormat" asStr = .ok collection_format)
    (h11 : optF kvs "default" asValue = .ok default)
    (h12 : optF kvs "maximum" asNum = .ok maximum)
    (h13 : optF kvs "exclusiveMaximum" asBool = .ok exclusive_maximum)
    (h14 : optF kvs "minimum" asNum = .ok minimum)
    (h15 : optF kvs "exclusiveMinimum" asBool = .ok exclusive_minimum)
    (h16 : optF kvs "maxLength" asNum = .ok max_length)
    (h17 : optF kvs "minLength" asNum = .ok min_length)
    (h18 : optF kvs "pattern" asStr = .ok pattern)
    (h19 : optF kvs "maxItems" asNum = .ok max_items)
    (h20 : optF kvs "minItems" asNum = .ok min_items)
    (h21 : optF kvs "uniqueItems" asBool = .ok unique_items)
    (h22 : optF kvs "enum" (decList asValue) = .ok enum)
    (h23 : optF kvs "multipleOf" asNum = .ok multiple_of)
    (h24 : extras kvs V2.declParameter = ext) :
    V2.decParameter (.obj kvs) =
      .ok ⟨name, in_, description, required, schema, type, format, allow_empty_value,
        items, collection_format, default, maximum, exclusive_maximum, minimum,
        exclusive_minimum, max_length, min_length, pattern, max_items, min_items,
        unique_items, enum, multiple_of, ext⟩ := by
  simp only [V2.decParameter, h1, h2, h3, h4, h5, h6, h7, h8, h9, h10, h11, h12,
    h13, h14, h15, h16, h17, h18, h19, h20, h21, h22, h23, h24, dbind_ok]
  rfl

theorem v2_Parameter_rt (x : V2.Parameter) (hx : V2.goodParameter x = true) :
    V2.decParameter (V2.encParameter x) = .ok x := by
  obtain ⟨name, in_, description, required, schema, type, format, allow_empty_value,
    items, collection_format, default, maximum, exclusive_maximum, minimum,
    exclusive_minimum, max_length, min_length, pattern, max_items, min_items,
    unique_items, enum, multiple_of, ext⟩ := x
  have hg : goodExt V2.declParameter ext = true := band_l (band_l hx)
  have hsc : goodOpt V2.goodSchema schema = true := band_r (band_l hx)
  have hitm : goodOpt V2.goodItems items = true := band_r hx
  apply v2_Parameter_of_fields
  · exact reqF_eval (by simp [V2.encParameter, getF_goodExt hg]) (asStr_rt _)
  · exact reqF_eval (by simp [V2.encParameter, getF_goodExt hg]) (v2_ParamInEnum_rt _)
  · exact optF_leaf (by simp [V2.encParameter, getF_goodExt hg]) asStr_rt
  · exact optF_leaf (by simp [V2.encParameter, getF_goodExt hg]) asBool_rt
  · exact optF_eval (by simp [V2.encParameter, getF_goodExt hg])
      (fun a ha => v2_Schema_rt a (goodOpt_some hsc ha))
  · exact optF_leaf (by simp [V2.encParameter, getF_goodExt hg]) v2_ParameterType_rt
  · exact optF_leaf (by simp [V2.encParameter, getF_goodExt hg]) asStr_rt
  · exact optF_leaf (by simp [V2.encParameter, getF_goodExt hg]) asBool_rt
  · exact optF_eval (by simp [V2.encParameter, getF_goodExt hg])
      (fun a ha => v2_Items_rt a (goodOpt_some hitm ha))
  · exact optF_leaf (by simp [V2.encParameter, getF_goodExt hg]) asStr_rt
  · exact optF_leaf (by simp [V2.encParameter, getF_goodExt hg]) asValue_rt
  · exact optF_leaf (by simp [V2.encParameter, getF_goodExt hg]) asNum_rt
  · exact optF_leaf (by simp [V2.encParameter, getF_goodExt hg]) asBool_rt
  · exact optF_leaf (by simp [V2.encParameter, getF_goodExt hg]) asNum_rt
  · exact optF_leaf (by simp [V2.encParameter, getF_goodExt hg]) asBool_rt
  · exact optF_leaf (by simp [V2.encParameter, getF_goodExt hg]) asNum_rt
  · exact optF_leaf (by simp [V2.encParameter, getF_goodExt hg]) asNum_rt
  · exact optF_leaf (by simp [V2.encParameter, getF_goodExt hg]) asStr_rt
  · exact optF_leaf (by simp [V2.encParameter, getF_goodExt hg]) asNum_rt
  · exact optF_leaf (by simp [V2.encParameter, getF_goodExt hg]) asNum_rt
  · exact optF_leaf (by simp [V2.encParameter, getF_goodExt hg]) asBool_rt
  · exact optF_leaf (by simp [V2.encParameter, getF_goodExt hg])
      (fun l => decList_rt l (fun a _ => asValue_rt a))
  · exact optF_leaf (by simp [V2.encParameter, getF_goodExt hg]) asNum_rt
  · simp [V2.encParameter, extras_goodExt hg]

theorem v2_ParameterOrRef_rt (x : V2.ParameterOrRef)
    (hx : V2.goodParameterOrRef x = true) :
    V2.decParameterOrRef (V2.encParameterOrRef x) = .ok x := by
  cases x with
  | ref r => exact decRefOr_ref r
  | obj p =>
    have hp : V2.goodParameter p = true := band_l hx
    have hnr : noStrRef p.extensions = true := band_r hx
    have hg : goodExt V2.declParameter p.extensions = true := band_l (band_l hp)
    refine decRefOr_obj (decReference_fails_ext ?_ hnr) (v2_Parameter_rt p hp)
    simp [V2.encParameter, getF_sorted_lookup (goodExt_sorted hg)]

theorem v2_Header_of_fields {kvs : Omap} {description : Option String}
    {type : V2.ItemsType} {format : Option String} {items : Option V2.Items}
    {collection_format : Option String} {default : Option Json}
    {maximum : Option Int} {exclusive_maximum : Option Bool} {minimum : Option Int}
    {exclusive_minimum : Option Bool} {max_length : Option Json}
    {min_length : Option Int} {pattern : Option String}
    {max_items min_items : Option Int} {unique_items : Option Bool}
    {enum : Option (List Json)} {multiple_of : Option Int} {ext : Extensions}
    (h1 : optF kvs "description" asStr = .ok description)
    (h2 : reqF kvs "type" V2.decItemsType = .ok type)
    (h3 : optF kvs "format" asStr = .ok format)
    (h4 : optF kvs "items" V2.decItems = .ok items)
    (h5 : optF kvs "collectionFormat" asStr = .ok collection_format)
    (h6 : optF kvs "default" asValue = .ok default)
    (h7 : optF kvs "maximum" asNum = .ok maximum)
    (h8 : optF kvs "exclusiveMaximum" asBool = .ok exclusive_maximum)
    (h9 : optF kvs "minimum" asNum = .ok minimum)
    (h10 : optF kvs "exclusiveMinimum" asBool = .ok exclusive_minimum)
    (h11 : optF kvs "maxLength" asValue = .ok max_length)
    (h12 : optF kvs "minLength" asNum = .ok min_length)
    (h13 : optF kvs "pattern" asStr = .ok pattern)
    (h14 : optF kvs "maxItems" asNum = .ok max_items)
    (h15 : optF kvs "minItems" asNum = .ok min_items)
    (h16 : optF kvs "uniqueItems" asBool = .ok unique_items)
    (h17 : optF kvs "enum" (decList asValue) = .ok enum)
    (h18 : optF kvs "multipleOf" asNum = .ok multiple_of)
    (h19 : extras kvs V2.declHeader = ext) :
    V2.decHeader (.obj kvs) =
      .ok ⟨description, type, format, items, collection_format, default, maximum,
        exclusive_maximum, minimum, exclusive_minimum, max_length, min_length,
        pattern, max_items, min_items, unique_items, enum, multiple_of, ext⟩ := by
  simp only [V2.decHeader, h1, h2, h3, h4, h5, h6, h7, h8, h9, h10, h11, h12, h13,
    h14, h15, h16, h17, h18, h19, dbind_ok]
  rfl

theorem v2_Header_rt (x : V2.Header) (hx : V2.goodHeader x = true) :
    V2.decHeader (V2.encHeader x) = .ok x := by
  obtain ⟨description, type, format, items, collection_format, default, maximum,
    exclusive_maximum, minimum, exclusive_minimum, max_length, min_length, pattern,
    max_items, min_items, unique_items, enum, multiple_of, ext⟩ := x
  have hg : goodExt V2.declHeader ext = true := band_l hx
  have hitm : goodOpt V2.goodItems items = true := band_r hx
  apply v2_Header_of_fields
  · exact optF_leaf (by simp [V2.encHeader, getF_goodExt hg]) asStr_rt
  · exact reqF_eval (by simp [V2.encHeader, getF_goodExt hg]) (v2_ItemsType_rt _)
  · exact optF_leaf (by simp [V2.encHeader, getF_goodExt hg]) asStr_rt
  · exact optF_eval (by simp [V2.encHeader, getF_goodExt hg])
      (fun a ha => v2_Items_rt a (goodOpt_some hitm ha))
  · exact optF_leaf (by simp [V2.encHeader, getF_goodExt hg]) asStr_rt
  · exact optF_leaf (by simp [V2.encHeader, getF_goodExt hg]) asValue_rt
  · exact optF_leaf (by simp [V2.encHeader, getF_goodExt hg]) asNum_rt
  · exact optF_leaf (by simp [V2.encHeader, getF_goodExt hg]) asBool_rt
  · exact optF_leaf (by simp [V2.encHeader, getF_goodExt hg]) asNum_rt
  · exact optF_leaf (by simp [V2.encHeader, getF_goodExt hg]) asBool_rt
  · exact optF_leaf (by simp [V2.encHeader, getF_goodExt hg]) asValue_rt
  · exact optF_leaf (by simp [V2.encHeader, getF_goodExt hg]) asNum_rt
  · exact optF_leaf (by simp [V2.encHeader, getF_goodExt hg]) asStr_rt
  · exact optF_leaf (by simp [V2.encHeader, getF_goodExt hg]) asNum_rt
  · exact optF_leaf (by simp [V2.encHeader, getF_goodExt hg]) asNum_rt
  · exact optF_leaf (by simp [V2.encHeader, getF_goodExt hg]) asBool_rt
  · exact optF_leaf (by simp [V2.encHeader, getF_goodExt hg])
      (fun l => decList_rt l (fun a _ => asValue_rt a))
  · exact optF_leaf (by simp [V2.encHeader, getF_goodExt hg]) asNum_rt
  · simp [V2.encHeader, extras_goodExt hg]

theorem v2_Response_of_fields {kvs : Omap} {description : String}
    {schema : Option V2.Schema} {headers : Option (Smap V2.Header)}
    {examples : Option (Smap Json)} {ext : Extensions}
    (h1 : reqF kvs "description" asStr = .ok description)
    (h2 : optF kvs "schema" V2.decSchema = .ok schema)
    (h3 : optF kvs "headers" (decSmap V2.decHeader) = .ok headers)
    (h4 : optF kvs "examples" (decSmap asValue) = .ok examples)
    (h5 : extras kvs V2.declResponse = ext) :
    V2.decResponse (.obj kvs) = .ok ⟨description, schema, headers, examples, ext⟩ := by
  simp only [V2.decResponse, h1, h2, h3, h4, h5, dbind_ok]
  rfl

theorem v2_Response_rt (x : V2.Response) (hx : V2.goodResponse x = true) :
    V2.decResponse (V2.encResponse x) = .ok x := by
  obtain ⟨description, schema, headers, examples, ext⟩ := x
  have hg : goodExt V2.declResponse ext = true := band_l (band_l (band_l hx))
  have hsc : goodOpt V2.goodSchema schema = true := band_r (band_l (band_l hx))
  have hhd : goodOpt (goodSmapBy V2.goodHeader) headers = true := band_r (band_l hx)
  have hex : goodOpt (goodSmap (α := Json)) examples = true := band_r hx
  apply v2_Response_of_fields
  · exact reqF_eval (by simp [V2.encResponse, getF_goodExt hg]) (asStr_rt _)
  · exact optF_eval (by simp [V2.encResponse, getF_goodExt hg])
      (fun a ha => v2_Schema_rt a (goodOpt_some hsc ha))
  · refine optF_eval2 (encSmap V2.encHeader) (by simp [V2.encResponse, getF_goodExt hg]) (fun m hm => ?_)
    have hh := goodOpt_some hhd hm
    exact decSmap_rt m (goodSmapBy_sorted hh)
      (fun p hp => v2_Header_rt p.2 (goodSmapBy_val hh hp))
  · refine optF_eval2 (encSmap id) (by simp [V2.encResponse, getF_goodExt hg]) (fun m hm => ?_)
    exact decSmap_rt m (goodOpt_some hex hm) (fun p _ => asValue_rt _)
  · simp [V2.encResponse, extras_goodExt hg]

theorem v2_ResponseOrRef_rt (x : V2.ResponseOrRef)
    (hx : V2.goodResponseOrRef x = true) :
    V2.decResponseOrRef (V2.encResponseOrRef x) = .ok x := by
  cases x with
  | response r =>
    have hr : V2.goodResponse r = true := hx
    simp only [V2.encResponseOrRef, V2.decResponseOrRef, v2_Response_rt r hr]
  | ref s =>
    have h0 : getF [("$ref", Json.str s)] "description" = .ok none := by
      apply getF_not_mem
      intro p hp
      simp only [List.mem_singleton] at hp
      subst hp
      simp
    have he : V2.decResponse (.obj [("$ref", .str s)]) =
        .error (.missingField "description") := by
      simp [V2.decResponse, reqF, h0]
    simp only [V2.encResponseOrRef, V2.decResponseOrRef, he]
    rfl

theorem v2_Responses_rt (m : V2.Responses) (hm : V2.goodResponses m = true) :
    V2.decResponses (V2.encResponses m) = .ok m :=
  decSmap_rt m (goodSmapBy_sorted hm)
    (fun p hp => v2_ResponseOrRef_rt p.2 (goodSmapBy_val hm hp))

theorem v2_Operation_of_fields {kvs : Omap} {tags : Option (List String)}
    {summary description : Option String} {external_docs : Option V2.ExternalDoc}
    {operation_id : Option String} {consumes produces : Option (List String)}
    {parameters : Option (List V2.ParameterOrRef)} {responses : V2.Responses}
    {schemas : Option V2.TransferProtocol} {deprecated : Option String}
    {security : Option (List V2.SecurityRequirementObject)} {ext : Extensions}
    (h1 : optF kvs "tags" (decList asStr) = .ok tags)
    (h2 : optF kvs "summary" asStr = .ok summary)
    (h3 : optF kvs "description" asStr = .ok description)
    (h4 : optF kvs "externalDocs" V2.decExternalDoc = .ok external_docs)
    (h5 : optF kvs "operationId" asStr = .ok operation_id)
    (h6 : optF kvs "consumes" (decList asStr) = .ok consumes)
    (h7 : optF kvs "produces" (decList asStr) = .ok produces)
    (h8 : optF kvs "parameters" (decList V2.decParameterOrRef) = .ok parameters)
    (h9 : reqF kvs "responses" V2.decResponses = .ok responses)
    (h10 : optF kvs "schemas" V2.decTransferProtocol = .ok schemas)
    (h11 : optF kvs "deprecated" asStr = .ok deprecated)
    (h12 : optF kvs "security" (decList V2.decSecurityRequirementObject) = .ok security)
    (h13 : extras kvs V2.declOperation = ext) :
    V2.decOperation (.obj kvs) =
      .ok ⟨tags, summary, description, external_docs, operation_id, consumes,
        produces, parameters, responses, schemas, deprecated, security, ext⟩ := by
  simp only [V2.decOperation, h1, h2, h3, h4, h5, h6, h7, h8, h9, h10, h11, h12,
    h13, dbind_ok]
  rfl

theorem v2_Operation_rt (x : V2.Operation) (hx : V2.goodOperation x = true) :
    V2.decOperation (V2.encOperation x) = .ok x := by
  obtain ⟨tags, summary, description, external_docs, operation_id, consumes,
    produces, parameters, responses, schemas, deprecated, security, ext⟩ := x
  have hg : goodExt V2.declOperation ext = true := band_l (band_l (band_l hx))
  have hpar := band_r (band_l (band_l hx))
  have hres : V2.goodResponses responses = true := band_r (band_l hx)
  have hsec := band_r hx
  apply v2_Operation_of_fields
  · exact optF_leaf (by simp [V2.encOperation, getF_goodExt hg])
      (fun l => decList_rt l (fun a _ => asStr_rt a))
  · exact optF_leaf (by simp [V2.encOperation, getF_goodExt hg]) asStr_rt
  · exact optF_leaf (by simp [V2.encOperation, getF_goodExt hg]) asStr_rt
  · exact optF_leaf (by simp [V2.encOperation, getF_goodExt hg]) v2_ExternalDoc_rt
  · exact optF_leaf (by simp [V2.encOperation, getF_goodExt hg]) asStr_rt
  · exact optF_leaf (by simp [V2.encOperation, getF_goodExt hg])
      (fun l => decList_rt l (fun a _ => asStr_rt a))
  · exact optF_leaf (by simp [V2.encOperation, getF_goodExt hg])
      (fun l => decList_rt l (fun a _ => asStr_rt a))
  · refine optF_eval2 (encList V2.encParameterOrRef) (by simp [V2.encOperation, getF_goodExt hg]) (fun l hl => ?_)
    exact decList_rt l
      (fun a ha => v2_ParameterOrRef_rt a (all_mem (goodOpt_some hpar hl) ha))
  · exact reqF_eval (by simp [V2.encOperation, getF_goodExt hg])
      (v2_Responses_rt responses hres)
  · exact optF_leaf (by simp [V2.encOperation, getF_goodExt hg]) v2_TransferProtocol_rt
  · exact optF_leaf (by simp [V2.encOperation, getF_goodExt hg]) asStr_rt
  · refine optF_eval2 (encList V2.encSecurityRequirementObject) (by simp [V2.encOperation, getF_goodExt hg]) (fun l hl => ?_)
    exact decList_rt l
      (fun a ha => v2_SecurityRequirementObject_rt a (all_mem (goodOpt_some hsec hl) ha))
  · simp [V2.encOperation, extras_goodExt hg]

theorem v2_PathItem_of_fields {kvs : Omap} {reference : Option String}
    {get put post delete options head patch : Option V2.Operation}
    {parameters : Option (List V2.ParameterOrRef)}
    (h1 : optF kvs "$ref" asStr = .ok reference)
    (h2 : optF kvs "get" V2.decOperation = .ok get)
    (h3 : optF kvs "put" V2.decOperation = .ok put)
    (h4 : optF kvs "post" V2.decOperation = .ok post)
    (h5 : optF kvs "delete" V2.decOperation = .ok delete)
    (h6 : optF kvs "options" V2.decOperation = .ok options)
    (h7 : optF kvs "head" V2.decOperation = .ok head)
    (h8 : optF kvs "patch" V2.decOperation = .ok patch)
    (h9 : optF kvs "parameters" (decList V2.decParameterOrRef) = .ok parameters) :
    V2.decPathItem (.obj kvs) =
      .ok ⟨reference, get, put, post, delete, options, head, patch, parameters⟩ := by
  simp only [V2.decPathItem, h1, h2, h3, h4, h5, h6, h7, h8, h9, dbind_ok]
  rfl

theorem v2_PathItem_rt (x : V2.PathItem) (hx : V2.goodPathItem x = true) :
    V2.decPathItem (V2.encPathItem x) = .ok x := by
  obtain ⟨reference, get, put, post, delete, options, head, patch, parameters⟩ := x
  have h1 := band_l (band_l (band_l (band_l (band_l (band_l (band_l hx))))))
  have h2 := band_r (band_l (band_l (band_l (band_l (band_l (band_l hx))))))
  have h3 := band_r (band_l (band_l (band_l (band_l (band_l hx)))))
  have h4 := band_r (band_l (band_l (band_l (band_l hx))))
  have h5 := band_r (band_l (band_l (band_l hx)))
  have h6 := band_r (band_l (band_l hx))
  have h7 := band_r (band_l hx)
  have h8 := band_r hx
  apply v2_PathItem_of_fields
  · exact optF_leaf (by simp [V2.encPathItem, getF_not_mem]) asStr_rt
  · exact optF_eval (by simp [V2.encPathItem, getF_not_mem])
      (fun a ha => v2_Operation_rt a (goodOpt_some h1 ha))
  · exact optF_eval (by simp [V2.encPathItem, getF_not_mem])
      (fun a ha => v2_Operation_rt a (goodOpt_some h2 ha))
  · exact optF_eval (by simp [V2.encPathItem, getF_not_mem])
      (fun a ha => v2_Operation_rt a (goodOpt_some h3 ha))
  · exact optF_eval (by simp [V2.encPathItem, getF_not_mem])
      (fun a ha => v2_Operation_rt a (goodOpt_some h4 ha))
  · exact optF_eval (by simp [V2.encPathItem, getF_not_mem])
      (fun a ha => v2_Operation_rt a (goodOpt_some h5 ha))
  · exact optF_eval (by simp [V2.encPathItem, getF_not_mem])
      (fun a ha => v2_Operation_rt a (goodOpt_some h6 ha))
  · exact optF_eval (by simp [V2.encPathItem, getF_not_mem])
      (fun a ha => v2_Operation_rt a (goodOpt_some h7 ha))
  · refine optF_eval2 (encList V2.encParameterOrRef) (by simp [V2.encPathItem, getF_not_mem]) (fun l hl => ?_)
    exact decList_rt l
      (fun a ha => v2_ParameterOrRef_rt a (all_mem (goodOpt_some h8 hl) ha))

theorem v2_Swagger_of_fields {kvs : Omap} {swagger : String} {info : V2.Info}
    {host base_path : Option String} {schemas : Option (List V2.TransferProtocol)}
    {consumes produces : Option String} {paths : Smap V2.PathItem}
    {definitions : Option (Smap V2.Schema)} {parameters : Option (Smap V2.Parameter)}
    {responses : Option (Smap V2.Response)}
    {security_definitions : Option (Smap V2.SecurityScheme)}
    {security : Option (List V2.SecurityRequirementObject)}
    {tags : Option (List V2.Tag)} {external_docs : Option V2.ExternalDoc}
    {ext : Extensions}
    (h1 : reqF kvs "swagger" asStr = .ok swagger)
    (h2 : reqF kvs "info" V2.decInfo = .ok info)
    (h3 : optF kvs "host" asStr = .ok host)
    (h4 : optF kvs "basePath" asStr = .ok base_path)
    (h5 : optF kvs "schemas" (decList V2.decTransferProtocol) = .ok schemas)
    (h6 : optF kvs "consumes" asStr = .ok consumes)
    (h7 : optF kvs "produces" asStr = .ok produces)
    (h8 : reqF kvs "paths" (decSmap V2.decPathItem) = .ok paths)
    (h9 : optF kvs "definitions" (decSmap V2.decSchema) = .ok definitions)
    (h10 : optF kvs "parameters" (decSmap V2.decParameter) = .ok parameters)
    (h11 : optF kvs "responses" (decSmap V2.decResponse) = .ok responses)
    (h12 : optF kvs "SecurityScheme" (decSmap V2.decSecurityScheme) = .ok security_definitions)
    (h13 : optF kvs "security" (decList V2.decSecurityRequirementObject) = .ok security)
    (h14 : optF kvs "tags" (decList V2.decTag) = .ok tags)
    (h15 : optF kvs "externalDocs" V2.decExternalDoc = .ok external_docs)
    (h16 : extras kvs V2.declSwagger = ext) :
    V2.decSwagger (.obj kvs) =
      .ok ⟨swagger, info, host, base_path, schemas, consumes, produces, paths,
        definitions, parameters, responses, security_definitions, security, tags,
        external_docs, ext⟩ := by
  simp only [V2.decSwagger, h1, h2, h3, h4, h5, h6, h7, h8, h9, h10, h11, h12, h13,
    h14, h15, h16, dbind_ok]
  rfl

theorem v2_Swagger_rt (x : V2.Swagger) (hx : V2.goodSwagger x = true) :
    V2.decSwagger (V2.encSwagger x) = .ok x := by
  obtain ⟨swagger, info, host, base_path, schemas, consumes, produces, paths,
    definitions, parameters, responses, security_definitions, security, tags,
    external_docs, ext⟩ := x
  have hg : goodExt V2.declSwagger ext = true :=
    band_l (band_l (band_l (band_l (band_l (band_l (band_l hx))))))
  have hinf := band_r (band_l (band_l (band_l (band_l (band_l (band_l hx))))))
  have hpth := band_r (band_l (band_l (band_l (band_l (band_l hx)))))
  have hdef := band_r (band_l (band_l (band_l (band_l hx))))
  have hpar := band_r (band_l (band_l (band_l hx)))
  have hres := band_r (band_l (band_l hx))
  have hsd := band_r (band_l hx)
  have hsec := band_r hx
  apply v2_Swagger_of_fields
  · exact reqF_eval (by simp [V2.encSwagger, getF_goodExt hg]) (asStr_rt _)
  · exact reqF_eval (by simp [V2.encSwagger, getF_goodExt hg]) (v2_Info_rt info hinf)
  · exact optF_leaf (by simp [V2.encSwagger, getF_goodExt hg]) asStr_rt
  · exact optF_leaf (by simp [V2.encSwagger, getF_goodExt hg]) asStr_rt
  · exact optF_leaf (by simp [V2.encSwagger, getF_goodExt hg])
      (fun l => decList_rt l (fun a _ => v2_TransferProtocol_rt a))
  · exact optF_leaf (by simp [V2.encSwagger, getF_goodExt hg]) asStr_rt
  · exact optF_leaf (by simp [V2.encSwagger, getF_goodExt hg]) asStr_rt
  · exact reqF_eval (by simp [V2.encSwagger, getF_goodExt hg])
      (decSmap_rt paths (goodSmapBy_sorted hpth)
        (fun p hp => v2_PathItem_rt p.2 (goodSmapBy_val hpth hp)))
  · refine optF_eval2 (encSmap V2.encSchema) (by simp [V2.encSwagger, getF_goodExt hg]) (fun m hm => ?_)
    have h := goodOpt_some hdef hm
    exact decSmap_rt m (goodSmapBy_sorted h)
      (fun p hp => v2_Schema_rt p.2 (goodSmapBy_val h hp))
  · refine optF_eval2 (encSmap V2.encParameter) (by simp [V2.encSwagger, getF_goodExt hg]) (fun m hm => ?_)
    have h := goodOpt_some hpar hm
    exact decSmap_rt m (goodSmapBy_sorted h)
      (fun p hp => v2_Parameter_rt p.2 (goodSmapBy_val h hp))
  · refine optF_eval2 (encSmap V2.encResponse) (by simp [V2.encSwagger, getF_goodExt hg]) (fun m hm => ?_)
    have h := goodOpt_some hres hm
    exact decSmap_rt m (goodSmapBy_sorted h)
      (fun p hp => v2_Response_rt p.2 (goodSmapBy_val h hp))
  · refine optF_eval2 (encSmap V2.encSecurityScheme) (by simp [V2.encSwagger, getF_goodExt hg]) (fun m hm => ?_)
    have h := goodOpt_some hsd hm
    exact decSmap_rt m (goodSmapBy_sorted h)
      (fun p hp => v2_SecurityScheme_rt p.2 (goodSmapBy_val h hp))
  · refine optF_eval2 (encList V2.encSecurityRequirementObject) (by simp [V2.encSwagger, getF_goodExt hg]) (fun l hl => ?_)
    exact decList_rt l
      (fun a ha => v2_SecurityRequirementObject_rt a (all_mem (goodOpt_some hsec hl) ha))
  · exact optF_leaf (by simp [V2.encSwagger, getF_goodExt hg])
      (fun l => decList_rt l (fun a _ => v2_Tag_rt a))
  · exact optF_leaf (by simp [V2.encSwagger, getF_goodExt hg]) v2_ExternalDoc_rt
  · simp [V2.encSwagger, extras_goodExt hg]

/-! ## Round-trips, v3 leaves -/

theorem v3_SecuritySchemeType_rt (a : V3.SecuritySchemeType) :
    V3.decSecuritySchemeType (V3.encSecuritySchemeType a) = .ok a := by
  cases a <;> rfl

theorem v3_XML_of_fields {kvs : Omap} {name namespace_ prefix_ : Option String}
    {attribute_ wrapped : Option Bool}
    (h1 : optF kvs "name" asStr = .ok name)
    (h2 : optF kvs "namespace" asStr = .ok namespace_)
    (h3 : optF kvs "prefix" asStr = .ok prefix_)
    (h4 : optF kvs "attribute" asBool = .ok attribute_)
    (h5 : optF kvs "wrapped" asBool = .ok wrapped) :
    V3.decXML (.obj kvs) = .ok ⟨name, namespace_, prefix_, attribute_, wrapped⟩ := by
  simp only [V3.decXML, h1, h2, h3, h4, h5, dbind_ok]
  rfl

theorem v3_XML_rt (x : V3.XML) : V3.decXML (V3.encXML x) = .ok x := by
  obtain ⟨name, namespace_, prefix_, attribute_, wrapped⟩ := x
  apply v3_XML_of_fields
  · exact optF_leaf (by simp [V3.encXML, getF_not_mem]) asStr_rt
  · exact optF_leaf (by simp [V3.encXML, getF_not_mem]) asStr_rt
  · exact optF_leaf (by simp [V3.encXML, getF_not_mem]) asStr_rt
  · exact optF_leaf (by simp [V3.encXML, getF_not_mem]) asBool_rt
  · exact optF_leaf (by simp [V3.encXML, getF_not_mem]) asBool_rt

theorem v3_Discriminator_of_fields {kvs : Omap} {property_name : String}
    {mapping : Option (Smap String)}
    (h1 : reqF kvs "propertyName" asStr = .ok property_name)
    (h2 : optF kvs "mapping" (decSmap asStr) = .ok mapping) :
    V3.decDiscriminator (.obj kvs) = .ok ⟨property_name, mapping⟩ := by
  simp only [V3.decDiscriminator, h1, h2, dbind_ok]
  rfl

theorem v3_Discriminator_rt (x : V3.Discriminator)
    (hx : V3.goodDiscriminator x = true) :
    V3.decDiscriminator (V3.encDiscriminator x) = .ok x := by
  obtain ⟨property_name, mapping⟩ := x
  apply v3_Discriminator_of_fields
  · exact reqF_eval (by simp [V3.encDiscriminator, getF_not_mem]) (asStr_rt _)
  · refine optF_eval2 (encSmap Json.str) (by simp [V3.encDiscriminator, getF_not_mem])
      (fun m hm => ?_)
    exact decSmap_rt m (goodOpt_some hx hm) (fun p _ => asStr_rt _)

theorem v3_ExternalDoc_of_fields {kvs : Omap} {description : Option String}
    {url : String} {ext : Extensions}
    (h1 : optF kvs "description" asStr = .ok description)
    (h2 : reqF kvs "url" asStr = .ok url)
    (h3 : extras kvs V3.declExternalDoc = ext) :
    V3.decExternalDoc (.obj kvs) = .ok ⟨description, url, ext⟩ := by
  simp only [V3.decExternalDoc, h1, h2, h3, dbind_ok]
  rfl

theorem v3_ExternalDoc_rt (x : V3.ExternalDoc) (hx : V3.goodExternalDoc x = true) :
    V3.decExternalDoc (V3.encExternalDoc x) = .ok x := by
  obtain ⟨description, url, ext⟩ := x
  have hg : goodExt V3.declExternalDoc ext = true := hx
  apply v3_ExternalDoc_of_fields
  · exact optF_leaf (by simp [V3.encExternalDoc, getF_goodExt hg]) asStr_rt
  · exact reqF_eval (by simp [V3.encExternalDoc, getF_goodExt hg]) (asStr_rt _)
  · simp [V3.encExternalDoc, extras_goodExt hg]

theorem v3_Contact_of_fields {kvs : Omap} {name url email : Option String}
    {ext : Extensions}
    (h1 : optF kvs "name" asStr = .ok name)
    (h2 : optF kvs "url" asStr = .ok url)
    (h3 : optF kvs "email" asStr = .ok email)
    (h4 : extras kvs V3.declContact = ext) :
    V3.decContact (.obj kvs) = .ok ⟨name, url, email, ext⟩ := by
  simp only [V3.decContact, h1, h2, h3, h4, dbind_ok]
  rfl

theorem v3_Contact_rt (x : V3.Contact) (hx : V3.goodContact x = true) :
    V3.decContact (V3.encContact x) = .ok x := by
  obtain ⟨name, url, email, ext⟩ := x
  have hg : goodExt V3.declContact ext = true := hx
  apply v3_Contact_of_fields
  · exact optF_leaf (by simp [V3.encContact, getF_goodExt hg]) asStr_rt
  · exact optF_leaf (by simp [V3.encContact, getF_goodExt hg]) asStr_rt
  · exact optF_leaf (by simp [V3.encContact, getF_goodExt hg]) asStr_rt
  · simp [V3.encContact, extras_goodExt hg]

theorem v3_License_of_fields {kvs : Omap} {name : String} {url : Option String}
    {ext : Extensions}
    (h1 : reqF kvs "name" asStr = .ok name)
    (h2 : optF kvs "url" asStr = .ok url)
    (h3 : extras kvs V3.declLicense = ext) :
    V3.decLicense (.obj kvs) = .ok ⟨name, url, ext⟩ := by
  simp only [V3.decLicense, h1, h2, h3, dbind_ok]
  rfl

theorem v3_License_rt (x : V3.License) (hx : V3.goodLicense x = true) :
    V3.decLicense (V3.encLicense x) = .ok x := by
  obtain ⟨name, url, ext⟩ := x
  have hg : goodExt V3.declLicense ext = true := hx
  apply v3_License_of_fields
  · exact reqF_eval (by simp [V3.encLicense, getF_goodExt hg]) (asStr_rt _)
  · exact optF_leaf (by simp [V3.encLicense, getF_goodExt hg]) asStr_rt
  · simp [V3.encLicense, extras_goodExt hg]

theorem v3_Info_of_fields {kvs : Omap} {title : String}
    {description terms_of_service : Option String} {contact : Option V3.Contact}
    {license : Option V3.License} {version : Option String} {ext : Extensions}
    (h1 : reqF kvs "title" asStr = .ok title)
    (h2 : optF kvs "description" asStr = .ok description)
    (h3 : optF kvs "termsOfService" asStr = .ok terms_of_service)
    (h4 : optF kvs "contact" V3.decContact = .ok contact)
    (h5 : optF kvs "license" V3.decLicense = .ok license)
    (h6 : optF kvs "version" asStr = .ok version)
    (h7 : extras kvs V3.declInfo = ext) :
    V3.decInfo (.obj kvs) =
      .ok ⟨title, description, terms_of_service, contact, license, version, ext⟩ := by
  simp only [V3.decInfo, h1, h2, h3, h4, h5, h6, h7, dbind_ok]
  rfl

theorem v3_Info_rt (x : V3.Info) (hx : V3.goodInfo x = true) :
    V3.decInfo (V3.encInfo x) = .ok x := by
  obtain ⟨title, description, terms_of_service, contact, license, version, ext⟩ := x
  have hg : goodExt V3.declInfo ext = true := band_l (band_l hx)
  have hc := band_r (band_l hx)
  have hl := band_r hx
  apply v3_Info_of_fields
  · exact reqF_eval (by simp [V3.encInfo, getF_goodExt hg]) (asStr_rt _)
  · exact optF_leaf (by simp [V3.encInfo, getF_goodExt hg]) asStr_rt
  · exact optF_leaf (by simp [V3.encInfo, getF_goodExt hg]) asStr_rt
  · exact optF_eval (by simp [V3.encInfo, getF_goodExt hg])
      (fun a ha => v3_Contact_rt a (goodOpt_some hc ha))
  · exact optF_eval (by simp [V3.encInfo, getF_goodExt hg])
      (fun a ha => v3_License_rt a (goodOpt_some hl ha))
  · exact optF_leaf (by simp [V3.encInfo, getF_goodExt hg]) asStr_rt
  · simp [V3.encInfo, extras_goodExt hg]

theorem v3_ServerVariable_of_fields {kvs : Omap} {enum : Option (List String)}
    {default : String} {description : Option String} {ext : Extensions}
    (h1 : optF kvs "enum" (decList asStr) = .ok enum)
    (h2 : reqF kvs "default" asStr = .ok default)
    (h3 : optF kvs "description" asStr = .ok description)
    (h4 : extras kvs V3.declServerVariable = ext) :
    V3.decServerVariable (.obj kvs) = .ok ⟨enum, default, description, ext⟩ := by
  simp only [V3.decServerVariable, h1, h2, h3, h4, dbind_ok]
  rfl

theorem v3_ServerVariable_rt (x : V3.ServerVariable)
    (hx : V3.goodServerVariable x = true) :
    V3.decServerVariable (V3.encServerVariable x) = .ok x := by
  obtain ⟨enum, default, description, ext⟩ := x
  have hg : goodExt V3.declServerVariable ext = true := hx
  apply v3_ServerVariable_of_fields
  · exact optF_leaf (by simp [V3.encServerVariable, getF_goodExt hg])
      (fun l => decList_rt l (fun a _ => asStr_rt a))
  · exact reqF_eval (by simp [V3.encServerVariable, getF_goodExt hg]) (asStr_rt _)
  · exact optF_leaf (by simp [V3.encServerVariable, getF_goodExt hg]) asStr_rt
  · simp [V3.encServerVariable, extras_goodExt hg]

theorem v3_Server_of_fields {kvs : Omap} {url : String}
    {description : Option String} {variables_ : Option (Smap V3.ServerVariable)}
    {ext : Extensions}
    (h1 : reqF kvs "url" asStr = .ok url)
    (h2 : optF kvs "description" asStr = .ok description)
    (h3 : optF kvs "variables" (decSmap V3.decServerVariable) = .ok variables_)
    (h4 : extras kvs V3.declServer = ext) :
    V3.decServer (.obj kvs) = .ok ⟨url, description, variables_, ext⟩ := by
  simp only [V3.decServer, h1, h2, h3, h4, dbind_ok]
  rfl

theorem v3_Server_rt (x : V3.Server) (hx : V3.goodServer x = true) :
    V3.decServer (V3.encServer x) = .ok x := by
  obtain ⟨url, description, variables_, ext⟩ := x
  have hg : goodExt V3.declServer ext = true := band_l hx
  have hv := band_r hx
  apply v3_Server_of_fields
  · exact reqF_eval (by simp [V3.encServer, getF_goodExt hg]) (asStr_rt _)
  · exact optF_leaf (by simp [V3.encServer, getF_goodExt hg]) asStr_rt
  · refine optF_eval2 (encSmap V3.encServerVariable)
      (by simp [V3.encServer, getF_goodExt hg]) (fun m hm => ?_)
    have h := goodOpt_some hv hm
    exact decSmap_rt m (goodSmapBy_sorted h)
      (fun p hp => v3_ServerVariable_rt p.2 (goodSmapBy_val h hp))
  · simp [V3.encServer, extras_goodExt hg]

theorem v3_Tag_of_fields {kvs : Omap} {name : String} {description : Option String}
    {external_docs : Option V3.ExternalDoc} {ext : Extensions}
    (h1 : reqF kvs "name" asStr = .ok name)
    (h2 : optF kvs "description" asStr = .ok description)
    (h3 : optF kvs "externalDocs" V3.decExternalDoc = .ok external_docs)
    (h4 : extras kvs V3.declTag = ext) :
    V3.decTag (.obj kvs) = .ok ⟨name, description, external_docs, ext⟩ := by
  simp only [V3.decTag, h1, h2, h3, h4, dbind_ok]
  rfl

theorem v3_Tag_rt (x : V3.Tag) (hx : V3.goodTag x = true) :
    V3.decTag (V3.encTag x) = .ok x := by
  obtain ⟨name, description, external_docs, ext⟩ := x
  have hg : goodExt V3.declTag ext = true := band_l hx
  have he := band_r hx
  apply v3_Tag_of_fields
  · exact reqF_eval (by simp [V3.encTag, getF_goodExt hg]) (asStr_rt _)
  · exact optF_leaf (by simp [V3.encTag, getF_goodExt hg]) asStr_rt
  · exact optF_eval (by simp [V3.encTag, getF_goodExt hg])
      (fun a ha => v3_ExternalDoc_rt a (goodOpt_some he ha))
  · simp [V3.encTag, extras_goodExt hg]

theorem v3_Example_of_fields {kvs : Omap} {summary description : Option String}
    {value : Option Json} {external_value : Option String}
    (h1 : optF kvs "summary" asStr = .ok summary)
    (h2 : optF kvs "description" asStr = .ok description)
    (h3 : optF kvs "value" asValue = .ok value)
    (h4 : optF kvs "externalValue" asStr = .ok external_value) :
    V3.decExample (.obj kvs) = .ok ⟨summary, description, value, external_value⟩ := by
  simp only [V3.decExample, h1, h2, h3, h4, dbind_ok]
  rfl

theorem v3_Example_rt (x : V3.Example) : V3.decExample (V3.encExample x) = .ok x := by
  obtain ⟨summary, description, value, external_value⟩ := x
  apply v3_Example_of_fields
  · exact optF_leaf (by simp [V3.encExample, getF_not_mem]) asStr_rt
  · exact optF_leaf (by simp [V3.encExample, getF_not_mem]) asStr_rt
  · exact optF_leaf (by simp [V3.encExample, getF_not_mem]) asValue_rt
  · exact optF_leaf (by simp [V3.encExample, getF_not_mem]) asStr_rt

theorem v3_Link_of_fields {kvs : Omap} {operation_ref operation_id : Option String}
    {parameters : Option (Smap Json)} {request_body : Option Json}
    {description : Option String} {server : Option V3.Server}
    (h1 : optF kvs "operationRef" asStr = .ok operation_ref)
    (h2 : optF kvs "operationId" asStr = .ok operation_id)
    (h3 : optF kvs "parameters" (decSmap asValue) = .ok parameters)
    (h4 : optF kvs "requestBody" asValue = .ok request_body)
    (h5 : optF kvs "description" asStr = .ok description)
    (h6 : optF kvs "server" V3.decServer = .ok server) :
    V3.decLink (.obj kvs) =
      .ok ⟨operation_ref, operation_id, parameters, request_body, description, server⟩ := by
  simp only [V3.decLink, h1, h2, h3, h4, h5, h6, dbind_ok]
  rfl

theorem v3_Link_rt (x : V3.Link) (hx : V3.goodLink x = true) :
    V3.decLink (V3.encLink x) = .ok x := by
  obtain ⟨operation_ref, operation_id, parameters, request_body, description, server⟩ := x
  have hp := band_l hx
  have hs := band_r hx
  apply v3_Link_of_fields
  · exact optF_leaf (by simp [V3.encLink, getF_not_mem]) asStr_rt
  · exact optF_leaf (by simp [V3.encLink, getF_not_mem]) asStr_rt
  · refine optF_eval2 (encSmap id) (by simp [V3.encLink, getF_not_mem]) (fun m hm => ?_)
    exact decSmap_rt m (goodOpt_some hp hm) (fun p _ => asValue_rt _)
  · exact optF_leaf (by simp [V3.encLink, getF_not_mem]) asValue_rt
  · exact optF_leaf (by simp [V3.encLink, getF_not_mem]) asStr_rt
  · exact optF_eval (by simp [V3.encLink, getF_not_mem])
      (fun a ha => v3_Server_rt a (goodOpt_some hs ha))

theorem v3_OAuthFlow_of_fields {kvs : Omap} {authorization_url token_url : String}
    {refresh_url : Option String} {scopes : Smap String}
    (h1 : reqF kvs "authorizationUrl" asStr = .ok authorization_url)
    (h2 : reqF kvs "tokenUrl" asStr = .ok token_url)
    (h3 : optF kvs "refreshUrl" asStr = .ok refresh_url)
    (h4 : reqF kvs "scopes" (decSmap asStr) = .ok scopes) :
    V3.decOAuthFlow (.obj kvs) =
      .ok ⟨authorization_url, token_url, refresh_url, scopes⟩ := by
  simp only [V3.decOAuthFlow, h1, h2, h3, h4, dbind_ok]
  rfl

theorem v3_OAuthFlow_rt (x : V3.OAuthFlow) (hx : V3.goodOAuthFlow x = true) :
    V3.decOAuthFlow (V3.encOAuthFlow x) = .ok x := by
  obtain ⟨authorization_url, token_url, refresh_url, scopes⟩ := x
  apply v3_OAuthFlow_of_fields
  · exact reqF_eval (by simp [V3.encOAuthFlow, getF_not_mem]) (asStr_rt _)
  · exact reqF_eval (by simp [V3.encOAuthFlow, getF_not_mem]) (asStr_rt _)
  · exact optF_leaf (by simp [V3.encOAuthFlow, getF_not_mem]) asStr_rt
  · exact reqF_eval (by simp [V3.encOAuthFlow, getF_not_mem])
      (decSmap_rt scopes hx (fun p _ => asStr_rt _))

theorem v3_OAuthFlows_of_fields {kvs : Omap}
    {implicit password client_credentials authorization_code : Option V3.OAuthFlow}
    (h1 : optF kvs "implicit" V3.decOAuthFlow = .ok implicit)
    (h2 : optF kvs "password" V3.decOAuthFlow = .ok password)
    (h3 : optF kvs "clientCredentials" V3.decOAuthFlow = .ok client_credentials)
    (h4 : optF kvs "authorizationCode" V3.decOAuthFlow = .ok authorization_code) :
    V3.decOAuthFlows (.obj kvs) =
      .ok ⟨implicit, password, client_credentials, authorization_code⟩ := by
  simp only [V3.decOAuthFlows, h1, h2, h3, h4, dbind_ok]
  rfl

theorem v3_OAuthFlows_rt (x : V3.OAuthFlows) (hx : V3.goodOAuthFlows x = true) :
    V3.decOAuthFlows (V3.encOAuthFlows x) = .ok x := by
  obtain ⟨implicit, password, client_credentials, authorization_code⟩ := x
  have h1 := band_l (band_l (band_l hx))
  have h2 := band_r (band_l (band_l hx))
  have h3 := band_r (band_l hx)
  have h4 := band_r hx
  apply v3_OAuthFlows_of_fields
  · exact optF_eval (by simp [V3.encOAuthFlows, getF_not_mem])
      (fun a ha => v3_OAuthFlow_rt a (goodOpt_some h1 ha))
  · exact optF_eval (by simp [V3.encOAuthFlows, getF_not_mem])
      (fun a ha => v3_OAuthFlow_rt a (goodOpt_some h2 ha))
  · exact optF_eval (by simp [V3.encOAuthFlows, getF_not_mem])
      (fun a ha => v3_OAuthFlow_rt a (goodOpt_some h3 ha))
  · exact optF_eval (by simp [V3.encOAuthFlows, getF_not_mem])
      (fun a ha => v3_OAuthFlow_rt a (goodOpt_some h4 ha))

theorem v3_SecurityScheme_of_fields {kvs : Omap} {type : V3.SecuritySchemeType}
    {description : Option String} {name in_ scheme : String}
    {beare_format : Option String} {flows : V3.OAuthFlows}
    {open_id_connect_url : String}
    (h1 : reqF kvs "type" V3.decSecuritySchemeType = .ok type)
    (h2 : optF kvs "description" asStr = .ok description)
    (h3 : reqF kvs "name" asStr = .ok name)
    (h4 : reqF kvs "in" asStr = .ok in_)
    (h5 : reqF kvs "scheme" asStr = .ok scheme)
    (h6 : optF kvs "beareFormat" asStr = .ok beare_format)
    (h7 : reqF kvs "flows" V3.decOAuthFlows = .ok flows)
    (h8 : reqF kvs "openIdConnectUrl" asStr = .ok open_id_connect_url) :
    V3.decSecurityScheme (.obj kvs) =
      .ok ⟨type, description, name, in_, scheme, beare_format, flows,
        open_id_connect_url⟩ := by
  simp only [V3.decSecurityScheme, h1, h2, h3, h4, h5, h6, h7, h8, dbind_ok]
  rfl

theorem v3_SecurityScheme_rt (x : V3.SecurityScheme)
    (hx : V3.goodSecurityScheme x = true) :
    V3.decSecurityScheme (V3.encSecurityScheme x) = .ok x := by
  obtain ⟨type, description, name, in_, scheme, beare_format, flows,
    open_id_connect_url⟩ := x
  apply v3_SecurityScheme_of_fields
  · exact reqF_eval (by simp [V3.encSecurityScheme, getF_not_mem])
      (v3_SecuritySchemeType_rt _)
  · exact optF_leaf (by simp [V3.encSecurityScheme, getF_not_mem]) asStr_rt
  · exact reqF_eval (by simp [V3.encSecurityScheme, getF_not_mem]) (asStr_rt _)
  · exact reqF_eval (by simp [V3.encSecurityScheme, getF_not_mem]) (asStr_rt _)
  · exact reqF_eval (by simp [V3.encSecurityScheme, getF_not_mem]) (asStr_rt _)
  · exact optF_leaf (by simp [V3.encSecurityScheme, getF_not_mem]) asStr_rt
  · exact reqF_eval (by simp [V3.encSecurityScheme, getF_not_mem])
      (v3_OAuthFlows_rt flows hx)
  · exact reqF_eval (by simp [V3.encSecurityScheme, getF_not_mem]) (asStr_rt _)

theorem v3_SecurityRequirement_rt (m : V3.SecurityRequirement)
    (hm : V3.goodSecurityRequirement m = true) :
    V3.decSecurityRequirement (V3.encSecurityRequirement m) = .ok m :=
  decSmap_rt m hm (fun _ _ => decList_rt _ (fun a _ => asStr_rt a))

/-! ## Round-trip of the recursive v3 `Schema` -/

theorem v3_encSchemaRO_eq (k : String) (o : Option (RefOrObject V3.Schema)) :
    V3.encSchemaRO k o = eOpt k V3.encSchemaRefOr o := by
  cases o <;> rfl

theorem v3_encSchemaROElems_eq : ∀ l : List (RefOrObject V3.Schema),
    V3.encSchemaROElems l = l.map V3.encSchemaRefOr
  | [] => rfl
  | ro :: t => by
    simp only [V3.encSchemaROElems, v3_encSchemaROElems_eq t, List.map_cons]

theorem v3_encSchemaROList_eq (k : String)
    (o : Option (List (RefOrObject V3.Schema))) :
    V3.encSchemaROList k o =
      eOpt k (fun l => encList V3.encSchemaRefOr l) o := by
  cases o with
  | none => rfl
  | some l => simp only [V3.encSchemaROList, eOpt, encList, v3_encSchemaROElems_eq]

theorem v3_encSchemaEntries_eq : ∀ m : List (String × RefOrObject V3.Schema),
    V3.encSchemaEntries m = m.map (fun p => (p.1, V3.encSchemaRefOr p.2))
  | [] => rfl
  | (k, ro) :: t => by
    simp only [V3.encSchemaEntries, v3_encSchemaEntries_eq t, List.map_cons]

theorem v3_encSchemaProps_eq (o : Option (List (String × RefOrObject V3.Schema))) :
    V3.encSchemaProps o =
      eOpt "properties" (fun m => encSmap V3.encSchemaRefOr m) o := by
  cases o with
  | none => rfl
  | some m => simp only [V3.encSchemaProps, eOpt, encSmap, v3_encSchemaEntries_eq]

theorem v3_goodSchemaEntries_mem : ∀ {m : List (String × RefOrObject V3.Schema)},
    V3.goodSchemaEntries m = true → ∀ {p : String × RefOrObject V3.Schema},
      p ∈ m → V3.goodSchemaRO p.2 = true
  | q :: t, h, p, hp => by
    rcases List.mem_cons.mp hp with rfl | hp'
    · exact band_l (by simpa [V3.goodSchemaEntries] using h)
    · exact v3_goodSchemaEntries_mem (band_r (by simpa [V3.goodSchemaEntries] using h)) hp'

theorem v3_goodSchemaROElems_mem : ∀ {l : List (RefOrObject V3.Schema)},
    V3.goodSchemaROElems l = true → ∀ {ro : RefOrObject V3.Schema}, ro ∈ l →
      V3.goodSchemaRO ro = true
  | a :: t, h, ro, hro => by
    rcases List.mem_cons.mp hro with rfl | hro'
    · exact band_l (by simpa [V3.goodSchemaROElems] using h)
    · exact v3_goodSchemaROElems_mem (band_r (by simpa [V3.goodSchemaROElems] using h)) hro'

/-- The `Reference` trial always fails on an encoded inline v3 `Schema`: the v3
`Schema` declares no `$ref` key and carries no extensions bag. -/
theorem v3_Schema_ref_fails (s : V3.Schema) :
    ∃ e, decReference (V3.encSchema s) = .error e := by
  obtain ⟨title, enum, multiple_of, maximum, exclusive_maximum, minimum,
    exclusive_minimum, max_length, min_length, pattern, max_items, min_items,
    unique_items, items, properties, max_properties, min_properties, required,
    type, all_of, one_of, any_of, not, description, format, default,
    additional_properties, nullable, discriminator, read_only, write_only, xml,
    external_docs, example_, deprecated⟩ := s
  refine ⟨.missingField "$ref", ?_⟩
  rw [show V3.encSchema (.mk ⟨title, enum, multiple_of, maximum, exclusive_maximum,
    minimum, exclusive_minimum, max_length, min_length, pattern, max_items,
    min_items, unique_items, items, properties, max_properties, min_properties,
    required, type, all_of, one_of, any_of, not, description, format, default,
    additional_properties, nullable, discriminator, read_only, write_only, xml,
    external_docs, example_, deprecated⟩) =
    .obj (eOpt "title" Json.str title ++ eOpt "enum" (encList Json.str) enum ++
      eOpt "multipleOf" Json.num multiple_of ++ eOpt "maximum" Json.num maximum ++
      eOpt "exclusiveMaximum" Json.bool exclusive_maximum ++
      eOpt "minimum" Json.num minimum ++
      eOpt "exclusiveMinimum" Json.bool exclusive_minimum ++
      eOpt "maxLength" Json.num max_length ++ eOpt "minLength" Json.num min_length ++
      eOpt "pattern" Json.str pattern ++ eOpt "maxItems" Json.num max_items ++
      eOpt "minItems" Json.num min_items ++ eOpt "uniqueItems" Json.bool unique_items ++
      eOpt "items" V3.encSchemaRefOr items ++
      eOpt "properties" (fun m => encSmap V3.encSchemaRefOr m) properties ++
      eOpt "maxProperties" Json.num max_properties ++
      eOpt "minProperties" Json.num min_properties ++
      eOpt "required" (encList Json.str) required ++ eOpt "type" Json.str type ++
      eOpt "allOf" (fun l => encList V3.encSchemaRefOr l) all_of ++
      eOpt "oneOf" (fun l => encList V3.encSchemaRefOr l) one_of ++
      eOpt "anyOf" (fun l => encList V3.encSchemaRefOr l) any_of ++
      eOpt "not" V3.encSchemaRefOr not ++
      eOpt "description" Json.str description ++ eOpt "format" Json.str format ++
      eOpt "default" Json.str default ++
      eOpt "additionalProperties" id additional_properties ++
      eOpt "nullable" Json.bool nullable ++
      eOpt "discriminator" V3.encDiscriminator discriminator ++
      eOpt "readOnly" Json.bool read_only ++ eOpt "writeOnly" Json.bool write_only ++
      eOpt "xml" V3.encXML xml ++ eOpt "externalDocs" V3.encExternalDoc external_docs ++
      eOpt "example" id example_ ++ eOpt "deprecated" Json.bool deprecated)
    from by
      simp only [V3.encSchema, v3_encSchemaRO_eq, v3_encSchemaROList_eq,
        v3_encSchemaProps_eq]]
  have h0 : getF (eOpt "title" Json.str title ++ eOpt "enum" (encList Json.str) enum ++
      eOpt "multipleOf" Json.num multiple_of ++ eOpt "maximum" Json.num maximum ++
      eOpt "exclusiveMaximum" Json.bool exclusive_maximum ++
      eOpt "minimum" Json.num minimum ++
      eOpt "exclusiveMinimum" Json.bool exclusive_minimum ++
      eOpt "maxLength" Json.num max_length ++ eOpt "minLength" Json.num min_length ++
      eOpt "pattern" Json.str pattern ++ eOpt "maxItems" Json.num max_items ++
      eOpt "minItems" Json.num min_items ++ eOpt "uniqueItems" Json.bool unique_items ++
      eOpt "items" V3.encSchemaRefOr items ++
      eOpt "properties" (fun m => encSmap V3.encSchemaRefOr m) properties ++
      eOpt "maxProperties" Json.num max_properties ++
      eOpt "minProperties" Json.num min_properties ++
      eOpt "required" (encList Json.str) required ++ eOpt "type" Json.str type ++
      eOpt "allOf" (fun l => encList V3.encSchemaRefOr l) all_of ++
      eOpt "oneOf" (fun l => encList V3.encSchemaRefOr l) one_of ++
      eOpt "anyOf" (fun l => encList V3.encSchemaRefOr l) any_of ++
      eOpt "not" V3.encSchemaRefOr not ++
      eOpt "description" Json.str description ++ eOpt "format" Json.str format ++
      eOpt "default" Json.str default ++
      eOpt "additionalProperties" id additional_properties ++
      eOpt "nullable" Json.bool nullable ++
      eOpt "discriminator" V3.encDiscriminator discriminator ++
      eOpt "readOnly" Json.bool read_only ++ eOpt "writeOnly" Json.bool write_only ++
      eOpt "xml" V3.encXML xml ++ eOpt "externalDocs" V3.encExternalDoc external_docs ++
      eOpt "example" id example_ ++ eOpt "deprecated" Json.bool deprecated) "$ref" =
      .ok none := by
    simp
  simp [decReference, reqF, h0]

theorem v3_Schema_of_fields {fuel : Nat} {kvs : Omap} {title : Option String}
    {enum : Option (List String)} {multiple_of maximum : Option Int}
    {exclusive_maximum : Option Bool} {minimum : Option Int}
    {exclusive_minimum : Option Bool} {max_length min_length : Option Int}
    {pattern : Option String} {max_items min_items : Option Int}
    {unique_items : Option Bool} {items : Option (RefOrObject V3.Schema)}
    {properties : Option (List (String × RefOrObject V3.Schema))}
    {max_properties min_properties : Option Int} {required : Option (List String)}
    {type : Option String} {all_of one_of any_of : Option (List (RefOrObject V3.Schema))}
    {not : Option (RefOrObject V3.Schema)} {description format default : Option String}
    {additional_properties : Option Json} {nullable : Option Bool}
    {discriminator : Option V3.Discriminator} {read_only write_only : Option Bool}
    {xml : Option V3.XML} {external_docs : Option V3.ExternalDoc}
    {example_ : Option Json} {deprecated : Option Bool}
    (h1 : optF kvs "title" asStr = .ok title)
    (h2 : optF kvs "enum" (decList asStr) = .ok enum)
    (h3 : optF kvs "multipleOf" asNum = .ok multiple_of)
    (h4 : optF kvs "maximum" asNum = .ok maximum)
    (h5 : optF kvs "exclusiveMaximum" asBool = .ok exclusive_maximum)
    (h6 : optF kvs "minimum" asNum = .ok minimum)
    (h7 : optF kvs "exclusiveMinimum" asBool = .ok exclusive_minimum)
    (h8 : optF kvs "maxLength" asNum = .ok max_length)
    (h9 : optF kvs "minLength" asNum = .ok min_length)
    (h10 : optF kvs "pattern" asStr = .ok pattern)
    (h11 : optF kvs "maxItems" asNum = .ok max_items)
    (h12 : optF kvs "minItems" asNum = .ok min_items)
    (h13 : optF kvs "uniqueItems" asBool = .ok unique_items)
    (h14 : optF kvs "items" (decRefOr (V3.decSchemaAux fuel)) = .ok items)
    (h15 : optF kvs "properties" (decSmap (decRefOr (V3.decSchemaAux fuel))) = .ok properties)
    (h16 : optF kvs "maxProperties" asNum = .ok max_properties)
    (h17 : optF kvs "minProperties" asNum = .ok min_properties)
    (h18 : optF kvs "required" (decList asStr) = .ok required)
    (h19 : optF kvs "type" asStr = .ok type)
    (h20 : optF kvs "allOf" (decList (decRefOr (V3.decSchemaAux fuel))) = .ok all_of)
    (h21 : optF kvs "oneOf" (decList (decRefOr (V3.decSchemaAux fuel))) = .ok one_of)
    (h22 : optF kvs "anyOf" (decList (decRefOr (V3.decSchemaAux fuel))) = .ok any_of)
    (h23 : optF kvs "not" (decRefOr (V3.decSchemaAux fuel)) = .ok not)
    (h24 : optF kvs "description" asStr = .ok description)
    (h25 : optF kvs "format" asStr = .ok format)
    (h26 : optF kvs "default" asStr = .ok default)
    (h27 : optF kvs "additionalProperties" asValue = .ok additional_properties)
    (h28 : optF kvs "nullable" asBool = .ok nullable)
    (h29 : optF kvs "discriminator" V3.decDiscriminator = .ok discriminator)
    (h30 : optF kvs "readOnly" asBool = .ok read_only)
    (h31 : optF kvs "writeOnly" asBool = .ok write_only)
    (h32 : optF kvs "xml" V3.decXML = .ok xml)
    (h33 : optF kvs "externalDocs" V3.decExternalDoc = .ok external_docs)
    (h34 : optF kvs "example" asValue = .ok example_)
    (h35 : optF kvs "deprecated" asBool = .ok deprecated) :
    V3.decSchemaAux (fuel + 1) (.obj kvs) =
      .ok (.mk ⟨title, enum, multiple_of, maximum, exclusive_maximum, minimum,
        exclusive_minimum, max_length, min_length, pattern, max_items, min_items,
        unique_items, items, properties, max_properties, min_properties, required,
        type, all_of, one_of, any_of, not, description, format, default,
        additional_properties, nullable, discriminator, read_only, write_only, xml,
        external_docs, example_, deprecated⟩) := by
  simp only [V3.decSchemaAux, h1, h2, h3, h4, h5, h6, h7, h8, h9, h10, h11, h12,
    h13, h14, h15, h16, h17, h18, h19, h20, h21, h22, h23, h24, h25, h26, h27,
    h28, h29, h30, h31, h32, h33, h34, h35, dbind_ok]
  rfl

set_option maxHeartbeats 4000000 in
theorem v3_Schema_rt_aux : ∀ (fuel : Nat) (s : V3.Schema),
    V3.goodSchema s = true → jsize (V3.encSchema s) ≤ fuel →
      V3.decSchemaAux fuel (V3.encSchema s) = .ok s := by
  intro fuel
  induction fuel using Nat.strong_induction_on with
  | _ fuel ih =>
    intro s hs hsize
    obtain ⟨title, enum, multiple_of, maximum, exclusive_maximum, minimum,
      exclusive_minimum, max_length, min_length, pattern, max_items, min_items,
      unique_items, items, properties, max_properties, min_properties, required,
      type, all_of, one_of, any_of, not, description, format, default,
      additional_properties, nullable, discriminator, read_only, write_only, xml,
      external_docs, example_, deprecated⟩ := s
  
    match fuel with
    | 0 =>
      have := jsize_pos (V3.encSchema (.mk ⟨title, enum, multiple_of, maximum,
        exclusive_maximum, minimum, exclusive_minimum, max_length, min_length,
        pattern, max_items, min_items, unique_items, items, properties,
        max_properties, min_properties, required, type, all_of, one_of, any_of,
        not, description, format, default, additional_properties, nullable,
        discriminator, read_only, write_only, xml, external_docs, example_,
        deprecated⟩))
      omega
    | fuel + 1 =>
      simp only [V3.goodSchema, Bool.and_eq_true] at hs
      obtain ⟨⟨⟨⟨⟨⟨⟨hit, hpr⟩, hao⟩, hoo⟩, hano⟩, hno⟩, hdi⟩, hed⟩ := hs
      rw [show V3.encSchema (.mk ⟨title, enum, multiple_of, maximum,
        exclusive_maximum, minimum, exclusive_minimum, max_length, min_length,
        pattern, max_items, min_items, unique_items, items, properties,
        max_properties, min_properties, required, type, all_of, one_of, any_of,
        not, description, format, default, additional_properties, nullable,
        discriminator, read_only, write_only, xml, external_docs, example_,
        deprecated⟩) =
        .obj (eOpt "title" Json.str title ++ eOpt "enum" (encList Json.str) enum ++
          eOpt "multipleOf" Json.num multiple_of ++ eOpt "maximum" Json.num maximum ++
          eOpt "exclusiveMaximum" Json.bool exclusive_maximum ++
          eOpt "minimum" Json.num minimum ++
          eOpt "exclusiveMinimum" Json.bool exclusive_minimum ++
          eOpt "maxLength" Json.num max_length ++ eOpt "minLength" Json.num min_length ++
          eOpt "pattern" Json.str pattern ++ eOpt "maxItems" Json.num max_items ++
          eOpt "minItems" Json.num min_items ++
          eOpt "uniqueItems" Json.bool unique_items ++
          eOpt "items" V3.encSchemaRefOr items ++
          eOpt "properties" (fun m => encSmap V3.encSchemaRefOr m) properties ++
          eOpt "maxProperties" Json.num max_properties ++
          eOpt "minProperties" Json.num min_properties ++
          eOpt "required" (encList Json.str) required ++ eOpt "type" Json.str type ++
          eOpt "allOf" (fun l => encList V3.encSchemaRefOr l) all_of ++
          eOpt "oneOf" (fun l => encList V3.encSchemaRefOr l) one_of ++
          eOpt "anyOf" (fun l => encList V3.encSchemaRefOr l) any_of ++
          eOpt "not" V3.encSchemaRefOr not ++
          eOpt "description" Json.str description ++ eOpt "format" Json.str format ++
          eOpt "default" Json.str default ++
          eOpt "additionalProperties" id additional_properties ++
          eOpt "nullable" Json.bool nullable ++
          eOpt "discriminator" V3.encDiscriminator discriminator ++
          eOpt "readOnly" Json.bool read_only ++ eOpt "writeOnly" Json.bool write_only ++
          eOpt "xml" V3.encXML xml ++
          eOpt "externalDocs" V3.encExternalDoc external_docs ++
          eOpt "example" id example_ ++ eOpt "deprecated" Json.bool deprecated)
        from by
          simp only [V3.encSchema, v3_encSchemaRO_eq, v3_encSchemaROList_eq,
            v3_encSchemaProps_eq]] at hsize ⊢
      have hbound : ∀ q : String × Json,
          q ∈ (eOpt "title" Json.str title ++ eOpt "enum" (encList Json.str) enum ++
          eOpt "multipleOf" Json.num multiple_of ++ eOpt "maximum" Json.num maximum ++
          eOpt "exclusiveMaximum" Json.bool exclusive_maximum ++
          eOpt "minimum" Json.num minimum ++
          eOpt "exclusiveMinimum" Json.bool exclusive_minimum ++
          eOpt "maxLength" Json.num max_length ++ eOpt "minLength" Json.num min_length ++
          eOpt "pattern" Json.str pattern ++ eOpt "maxItems" Json.num max_items ++
          eOpt "minItems" Json.num min_items ++
          eOpt "uniqueItems" Json.bool unique_items ++
          eOpt "items" V3.encSchemaRefOr items ++
          eOpt "properties" (fun m => encSmap V3.encSchemaRefOr m) properties ++
          eOpt "maxProperties" Json.num max_properties ++
          eOpt "minProperties" Json.num min_properties ++
          eOpt "required" (encList Json.str) required ++ eOpt "type" Json.str type ++
          eOpt "allOf" (fun l => encList V3.encSchemaRefOr l) all_of ++
          eOpt "oneOf" (fun l => encList V3.encSchemaRefOr l) one_of ++
          eOpt "anyOf" (fun l => encList V3.encSchemaRefOr l) any_of ++
          eOpt "not" V3.encSchemaRefOr not ++
          eOpt "description" Json.str description ++ eOpt "format" Json.str format ++
          eOpt "default" Json.str default ++
          eOpt "additionalProperties" id additional_properties ++
          eOpt "nullable" Json.bool nullable ++
          eOpt "discriminator" V3.encDiscriminator discriminator ++
          eOpt "readOnly" Json.bool read_only ++ eOpt "writeOnly" Json.bool write_only ++
          eOpt "xml" V3.encXML xml ++
          eOpt "externalDocs" V3.encExternalDoc external_docs ++
          eOpt "example" id example_ ++ eOpt "deprecated" Json.bool deprecated) →
          jsize q.2 ≤ fuel := by
        intro q hq
        have := jsize_obj_mem hq
        omega
      have hro : ∀ ro : RefOrObject V3.Schema, V3.goodSchemaRO ro = true →
          jsize (V3.encSchemaRefOr ro) ≤ fuel →
          decRefOr (V3.decSchemaAux fuel) (V3.encSchemaRefOr ro) = .ok ro := by
        intro ro hg hsz
        cases ro with
        | ref r => exact decRefOr_ref r
        | obj s' =>
          exact decRefOr_obj (v3_Schema_ref_fails s')
            (ih fuel (by omega) s' (by simpa [V3.goodSchemaRO] using hg) hsz)
      apply v3_Schema_of_fields
      · exact optF_leaf (by simp) asStr_rt
      · exact optF_leaf (by simp) (fun l => decList_rt l (fun a _ => asStr_rt a))
      · exact optF_leaf (by simp) asNum_rt
      · exact optF_leaf (by simp) asNum_rt
      · exact optF_leaf (by simp) asBool_rt
      · exact optF_leaf (by simp) asNum_rt
      · exact optF_leaf (by simp) asBool_rt
      · exact optF_leaf (by simp) asNum_rt
      · exact optF_leaf (by simp) asNum_rt
      · exact optF_leaf (by simp) asStr_rt
      · exact optF_leaf (by simp) asNum_rt
      · exact optF_leaf (by simp) asNum_rt
      · exact optF_leaf (by simp) asBool_rt
      · refine optF_eval2 V3.encSchemaRefOr (by simp) (fun ro ha => ?_)
        subst ha
        refine hro ro (by simpa [V3.goodSchemaROOpt] using hit) ?_
        exact hbound ("items", V3.encSchemaRefOr ro) (by simp [eOpt])
      · refine optF_eval2 (fun m => encSmap V3.encSchemaRefOr m) (by simp) (fun m hm => ?_)
        subst hm
        have hpr2 : (keysSorted (keysOf m) && V3.goodSchemaEntries m) = true := by
          simpa [V3.goodSchemaPropsOpt] using hpr
        have hms : keysSorted (keysOf m) = true := band_l hpr2
        have hme : V3.goodSchemaEntries m = true := band_r hpr2
        refine decSmap_rt m hms (fun p hp => ?_)
        refine hro p.2 (v3_goodSchemaEntries_mem hme hp) ?_
        have h1 := hbound ("properties", encSmap V3.encSchemaRefOr m) (by simp [eOpt])
        have hmem2 : (p.1, V3.encSchemaRefOr p.2) ∈
            (m.map (fun q => (q.1, V3.encSchemaRefOr q.2))) :=
          List.mem_map.mpr ⟨p, hp, rfl⟩
        have h2 := jsize_obj_mem2 hmem2
        have h3 : jsize (encSmap V3.encSchemaRefOr m) =
            jsize (Json.obj (m.map (fun q => (q.1, V3.encSchemaRefOr q.2)))) := rfl
        simp only [h3] at h1
        omega
      · exact optF_leaf (by simp) asNum_rt
      · exact optF_leaf (by simp) asNum_rt
      · exact optF_leaf (by simp) (fun l => decList_rt l (fun a _ => asStr_rt a))
      · exact optF_leaf (by simp) asStr_rt
      · refine optF_eval2 (fun l => encList V3.encSchemaRefOr l) (by simp) (fun l hl => ?_)
        subst hl
        have hle : V3.goodSchemaROElems l = true := by
          simpa [V3.goodSchemaROListOpt] using hao
        refine decList_rt l (fun ro hrol => ?_)
        refine hro ro (v3_goodSchemaROElems_mem hle hrol) ?_
        have h1 := hbound ("allOf", encList V3.encSchemaRefOr l) (by simp [eOpt])
        have h2 := jsize_arr_mem (List.mem_map_of_mem V3.encSchemaRefOr hrol)
        have h3 : jsize (encList V3.encSchemaRefOr l) =
            jsize (Json.arr (l.map V3.encSchemaRefOr)) := rfl
        simp only [h3] at h1
        omega
      · refine optF_eval2 (fun l => encList V3.encSchemaRefOr l) (by simp) (fun l hl => ?_)
        subst hl
        have hle : V3.goodSchemaROElems l = true := by
          simpa [V3.goodSchemaROListOpt] using hoo
        refine decList_rt l (fun ro hrol => ?_)
        refine hro ro (v3_goodSchemaROElems_mem hle hrol) ?_
        have h1 := hbound ("oneOf", encList V3.encSchemaRefOr l) (by simp [eOpt])
        have h2 := jsize_arr_mem (List.mem_map_of_mem V3.encSchemaRefOr hrol)
        have h3 : jsize (encList V3.encSchemaRefOr l) =
            jsize (Json.arr (l.map V3.encSchemaRefOr)) := rfl
        simp only [h3] at h1
        omega
      · refine optF_eval2 (fun l => encList V3.encSchemaRefOr l) (by simp) (fun l hl => ?_)
        subst hl
        have hle : V3.goodSchemaROElems l = true := by
          simpa [V3.goodSchemaROListOpt] using hano
        refine decList_rt l (fun ro hrol => ?_)
        refine hro ro (v3_goodSchemaROElems_mem hle hrol) ?_
        have h1 := hbound ("anyOf", encList V3.encSchemaRefOr l) (by simp [eOpt])
        have h2 := jsize_arr_mem (List.mem_map_of_mem V3.encSchemaRefOr hrol)
        have h3 : jsize (encList V3.encSchemaRefOr l) =
            jsize (Json.arr (l.map V3.encSchemaRefOr)) := rfl
        simp only [h3] at h1
        omega
      · refine optF_eval2 V3.encSchemaRefOr (by simp) (fun ro ha => ?_)
        subst ha
        refine hro ro (by simpa [V3.goodSchemaROOpt] using hno) ?_
        exact hbound ("not", V3.encSchemaRefOr ro) (by simp [eOpt])
      · exact optF_leaf (by simp) asStr_rt
      · exact optF_leaf (by simp) asStr_rt
      · exact optF_leaf (by simp) asStr_rt
      · exact optF_leaf (by simp) asValue_rt
      · exact optF_leaf (by simp) asBool_rt
      · refine optF_eval2 V3.encDiscriminator (by simp) (fun a ha => ?_)
        exact v3_Discriminator_rt a (goodOpt_some hdi ha)
      · exact optF_leaf (by simp) asBool_rt
      · exact optF_leaf (by simp) asBool_rt
      · exact optF_leaf (by simp) v3_XML_rt
      · refine optF_eval2 V3.encExternalDoc (by simp) (fun a ha => ?_)
        exact v3_ExternalDoc_rt a (goodOpt_some hed ha)
      · exact optF_leaf (by simp) asValue_rt
      · exact optF_leaf (by simp) asBool_rt

theorem v3_Schema_rt (s : V3.Schema) (hs : V3.goodSchema s = true) :
    V3.decSchema (V3.encSchema s) = .ok s :=
  v3_Schema_rt_aux (jsize (V3.encSchema s)) s hs (Nat.le_refl _)

/-! ## The `Reference` trial on inline v3 objects without an extensions bag -/

/-- The `Reference` trial always fails on an encoded inline v3 `Example`. -/
theorem v3_Example_ref_fails (x : V3.Example) :
    ∃ e, decReference (V3.encExample x) = .error e := by
  obtain ⟨summary, description, value, external_value⟩ := x
  have h0 : getF (eOpt "summary" Json.str summary ++
      eOpt "description" Json.str description ++ eOpt "value" id value ++
      eOpt "externalValue" Json.str external_value) "$ref" = .ok none := by simp
  exact ⟨.missingField "$ref", by simp [V3.encExample, decReference, reqF, h0]⟩

/-- The `Reference` trial always fails on an encoded inline v3 `Link`. -/
theorem v3_Link_ref_fails (x : V3.Link) :
    ∃ e, decReference (V3.encLink x) = .error e := by
  obtain ⟨operation_ref, operation_id, parameters, request_body, description,
    server⟩ := x
  have h0 : getF (eOpt "operationRef" Json.str operation_ref ++
      eOpt "operationId" Json.str operation_id ++
      eOpt "parameters" (encSmap id) parameters ++
      eOpt "requestBody" id request_body ++
      eOpt "description" Json.str description ++
      eOpt "server" V3.encServer server) "$ref" = .ok none := by simp
  exact ⟨.missingField "$ref", by simp [V3.encLink, decReference, reqF, h0]⟩

/-- The `Reference` trial always fails on an encoded inline v3
`SecurityScheme`. -/
theorem v3_SecurityScheme_ref_fails (x : V3.SecurityScheme) :
    ∃ e, decReference (V3.encSecurityScheme x) = .error e := by
  obtain ⟨type, description, name, in_, scheme, beare_format, flows,
    open_id_connect_url⟩ := x
  have h0 : getF (eReq "type" (V3.encSecuritySchemeType type) ++
      eOpt "description" Json.str description ++ eReq "name" (.str name) ++
      eReq "in" (.str in_) ++ eReq "scheme" (.str scheme) ++
      eOpt "beareFormat" Json.str beare_format ++
      eReq "flows" (V3.encOAuthFlows flows) ++
      eReq "openIdConnectUrl" (.str open_id_connect_url)) "$ref" = .ok none := by
    simp
  exact ⟨.missingField "$ref", by
    simp [V3.encSecurityScheme, decReference, reqF, h0]⟩

/-! ## Reference-or-inline round trips for the non-recursive v3 types -/

theorem v3_SchemaRO_rt (ro : RefOrObject V3.Schema)
    (h : V3.goodSchemaRO ro = true) :
    decRefOr V3.decSchema (V3.encSchemaRefOr ro) = .ok ro := by
  cases ro with
  | ref r => exact decRefOr_ref r
  | obj s =>
    exact decRefOr_obj (v3_Schema_ref_fails s)
      (v3_Schema_rt s (by simpa [V3.goodSchemaRO] using h))

theorem v3_ExampleRO_rt (ro : RefOrObject V3.Example) :
    decRefOr V3.decExample (encRefOr V3.encExample ro) = .ok ro := by
  cases ro with
  | ref r => exact decRefOr_ref r
  | obj e => exact decRefOr_obj (v3_Example_ref_fails e) (v3_Example_rt e)

theorem v3_LinkRO_rt (ro : RefOrObject V3.Link)
    (h : goodRefOr V3.goodLink ro = true) :
    decRefOr V3.decLink (encRefOr V3.encLink ro) = .ok ro := by
  cases ro with
  | ref r => exact decRefOr_ref r
  | obj x =>
    exact decRefOr_obj (v3_Link_ref_fails x)
      (v3_Link_rt x (by simpa [goodRefOr] using h))

theorem v3_SecuritySchemeRO_rt (ro : RefOrObject V3.SecurityScheme)
    (h : goodRefOr V3.goodSecurityScheme ro = true) :
    decRefOr V3.decSecurityScheme (encRefOr V3.encSecurityScheme ro) = .ok ro := by
  cases ro with
  | ref r => exact decRefOr_ref r
  | obj x =>
    exact decRefOr_obj (v3_SecurityScheme_ref_fails x)
      (v3_SecurityScheme_rt x (by simpa [goodRefOr] using h))

/-! ## Bridges for the v3 `Header`/`Media`/`Encoding` mutual encoders -/

theorem v3_encMediaEntries_eq : ∀ m : List (String × V3.Media),
    V3.encMediaEntries m = m.map (fun q => (q.1, V3.encMedia q.2))
  | [] => rfl
  | (k, v) :: t => by
    simp [V3.encMediaEntries, v3_encMediaEntries_eq t]

theorem v3_encHeaderContent_eq (o : Option (List (String × V3.Media))) :
    V3.encHeaderContent o = eOpt "content" (encSmap V3.encMedia) o := by
  cases o with
  | none => rfl
  | some m => simp [V3.encHeaderContent, eOpt, encSmap, v3_encMediaEntries_eq m]

theorem v3_encEncodingEntries_eq : ∀ m : List (String × V3.Encoding),
    V3.encEncodingEntries m = m.map (fun q => (q.1, V3.encEncoding q.2))
  | [] => rfl
  | (k, v) :: t => by
    simp [V3.encEncodingEntries, v3_encEncodingEntries_eq t]

theorem v3_encMediaEncoding_eq (o : Option (List (String × V3.Encoding))) :
    V3.encMediaEncoding o = eOpt "encoding" (encSmap V3.encEncoding) o := by
  cases o with
  | none => rfl
  | some m => simp [V3.encMediaEncoding, eOpt, encSmap, v3_encEncodingEntries_eq m]

theorem v3_encHeaderRefOr_eq (ro : RefOrObject V3.Header) :
    V3.encHeaderRefOr ro = encRefOr V3.encHeader ro := by
  cases ro <;> rfl

theorem v3_encHeaderROEntries_eq : ∀ m : List (String × RefOrObject V3.Header),
    V3.encHeaderROEntries m = m.map (fun q => (q.1, encRefOr V3.encHeader q.2))
  | [] => rfl
  | (k, v) :: t => by
    simp [V3.encHeaderROEntries, v3_encHeaderROEntries_eq t, v3_encHeaderRefOr_eq]

theorem v3_encEncodingHeaders_eq (o : Option (List (String × RefOrObject V3.Header))) :
    V3.encEncodingHeaders o = eOpt "headers" (encSmap (encRefOr V3.encHeader)) o := by
  cases o with
  | none => rfl
  | some m =>
    simp [V3.encEncodingHeaders, eOpt, encSmap, v3_encHeaderROEntries_eq m]

/-! ## Membership facts for the `Header`/`Media`/`Encoding` goodness chains -/

theorem v3_goodMediaEntries_mem : ∀ {m : List (String × V3.Media)},
    V3.goodMediaEntries m = true → ∀ {p : String × V3.Media},
      p ∈ m → V3.goodMedia p.2 = true
  | q :: t, h, p, hp => by
    rcases List.mem_cons.mp hp with rfl | hp'
    · exact band_l (by simpa [V3.goodMediaEntries] using h)
    · exact v3_goodMediaEntries_mem (band_r (by simpa [V3.goodMediaEntries] using h)) hp'

theorem v3_goodEncodingEntries_mem : ∀ {m : List (String × V3.Encoding)},
    V3.goodEncodingEntries m = true → ∀ {p : String × V3.Encoding},
      p ∈ m → V3.goodEncoding p.2 = true
  | q :: t, h, p, hp => by
    rcases List.mem_cons.mp hp with rfl | hp'
    · exact band_l (by simpa [V3.goodEncodingEntries] using h)
    · exact v3_goodEncodingEntries_mem
        (band_r (by simpa [V3.goodEncodingEntries] using h)) hp'

theorem v3_goodHeaderROEntries_mem : ∀ {m : List (String × RefOrObject V3.Header)},
    V3.goodHeaderROEntries m = true → ∀ {p : String × RefOrObject V3.Header},
      p ∈ m → V3.goodHeaderRO p.2 = true
  | q :: t, h, p, hp => by
    rcases List.mem_cons.mp hp with rfl | hp'
    · exact band_l (by simpa [V3.goodHeaderROEntries] using h)
    · exact v3_goodHeaderROEntries_mem
        (band_r (by simpa [V3.goodHeaderROEntries] using h)) hp'

/-- The `Reference` trial fails on an encoded inline v3 `Header` whose
extensions bag is well-formed and does not bind `$ref` to a string. -/
theorem v3_Header_ref_fails {h : V3.Header} (hg : V3.goodHeader h = true)
    (hnr : V3.goodHeaderNoRef h = true) :
    ∃ e, decReference (V3.encHeader h) = .error e := by
  obtain ⟨description, required, deprecated, allow_empty_value, style, explode,
    allow_reserved, schema, example_, examples, content, ext⟩ := h
  simp only [V3.goodHeader, Bool.and_eq_true] at hg
  obtain ⟨⟨⟨hext, _⟩, _⟩, _⟩ := hg
  have hnr2 : noStrRef ext = true := by simpa [V3.goodHeaderNoRef] using hnr
  rw [show V3.encHeader (.mk ⟨description, required, deprecated, allow_empty_value,
      style, explode, allow_reserved, schema, example_, examples, content, ext⟩) =
    .obj (eOpt "description" Json.str description ++
      eOpt "required" Json.bool required ++ eOpt "deprecated" Json.bool deprecated ++
      eOpt "allowEmptyValue" Json.bool allow_empty_value ++
      eOpt "style" Json.str style ++ eOpt "explode" Json.bool explode ++
      eOpt "allowReserved" Json.bool allow_reserved ++
      eOpt "schema" V3.encSchemaRefOr schema ++ eOpt "example" id example_ ++
      eOpt "examples" (encSmap (encRefOr V3.encExample)) examples ++
      eOpt "content" (encSmap V3.encMedia) content ++ ext)
    from by simp only [V3.encHeader, v3_encHeaderContent_eq]]
  refine decReference_fails_ext ?_ hnr2
  simp [getF_sorted_lookup (goodExt_sorted hext)]

theorem v3_Header_of_fields {fuel : Nat} {kvs : Omap}
    {description : Option String} {required deprecated allow_empty_value : Option Bool}
    {style : Option String} {explode allow_reserved : Option Bool}
    {schema : Option (RefOrObject V3.Schema)} {example_ : Option Json}
    {examples : Option (List (String × RefOrObject V3.Example))}
    {content : Option (List (String × V3.Media))} {ext : Extensions}
    (h1 : optF kvs "description" asStr = .ok description)
    (h2 : optF kvs "required" asBool = .ok required)
    (h3 : optF kvs "deprecated" asBool = .ok deprecated)
    (h4 : optF kvs "allowEmptyValue" asBool = .ok allow_empty_value)
    (h5 : optF kvs "style" asStr = .ok style)
    (h6 : optF kvs "explode" asBool = .ok explode)
    (h7 : optF kvs "allowReserved" asBool = .ok allow_reserved)
    (h8 : optF kvs "schema" (decRefOr V3.decSchema) = .ok schema)
    (h9 : optF kvs "example" asValue = .ok example_)
    (h10 : optF kvs "examples" (decSmap (decRefOr V3.decExample)) = .ok examples)
    (h11 : optF kvs "content" (decSmap (V3.decMediaAux fuel)) = .ok content)
    (hext : extras kvs V3.declHeader = ext) :
    V3.decHeaderAux (fuel + 1) (.obj kvs) =
      .ok (.mk ⟨description, required, deprecated, allow_empty_value, style,
        explode, allow_reserved, schema, example_, examples, content, ext⟩) := by
  simp only [V3.decHeaderAux, h1, h2, h3, h4, h5, h6, h7, h8, h9, h10, h11, hext,
    dbind_ok]
  rfl

theorem v3_Media_of_fields {fuel : Nat} {kvs : Omap}
    {schema : Option (RefOrObject V3.Schema)} {example_ : Option Json}
    {examples : Option (List (String × RefOrObject V3.Example))}
    {encoding : Option (List (String × V3.Encoding))}
    (h1 : optF kvs "schema" (decRefOr V3.decSchema) = .ok schema)
    (h2 : optF kvs "example" asValue = .ok example_)
    (h3 : optF kvs "examples" (decSmap (decRefOr V3.decExample)) = .ok examples)
    (h4 : optF kvs "encoding" (decSmap (V3.decEncodingAux fuel)) = .ok encoding) :
    V3.decMediaAux (fuel + 1) (.obj kvs) =
      .ok (.mk ⟨schema, example_, examples, encoding⟩) := by
  simp only [V3.decMediaAux, h1, h2, h3, h4, dbind_ok]
  rfl

theorem v3_Encoding_of_fields {fuel : Nat} {kvs : Omap}
    {content_type : Option String}
    {headers : Option (List (String × RefOrObject V3.Header))}
    {style : Option String} {explode allow_reserved : Option Bool}
    (h1 : optF kvs "contentType" asStr = .ok content_type)
    (h2 : optF kvs "headers" (decSmap (decRefOr (V3.decHeaderAux fuel))) = .ok headers)
    (h3 : optF kvs "style" asStr = .ok style)
    (h4 : optF kvs "explode" asBool = .ok explode)
    (h5 : optF kvs "allowReserved" asBool = .ok allow_reserved) :
    V3.decEncodingAux (fuel + 1) (.obj kvs) =
      .ok (.mk ⟨content_type, headers, style, explode, allow_reserved⟩) := by
  simp only [V3.decEncodingAux, h1, h2, h3, h4, h5, dbind_ok]
  rfl

set_option maxHeartbeats 4000000 in
theorem v3_HME_rt_aux : ∀ fuel : Nat,
    (∀ h : V3.Header, V3.goodHeader h = true → jsize (V3.encHeader h) ≤ fuel →
      V3.decHeaderAux fuel (V3.encHeader h) = .ok h) ∧
    (∀ m : V3.Media, V3.goodMedia m = true → jsize (V3.encMedia m) ≤ fuel →
      V3.decMediaAux fuel (V3.encMedia m) = .ok m) ∧
    (∀ x : V3.Encoding, V3.goodEncoding x = true → jsize (V3.encEncoding x) ≤ fuel →
      V3.decEncodingAux fuel (V3.encEncoding x) = .ok x) := by
  intro fuel
  induction fuel using Nat.strong_induction_on with
  | _ fuel ih =>
    match fuel with
    | 0 =>
      refine ⟨fun h _ hsz => ?_, fun m _ hsz => ?_, fun x _ hsz => ?_⟩
      · have := jsize_pos (V3.encHeader h)
        omega
      · have := jsize_pos (V3.encMedia m)
        omega
      · have := jsize_pos (V3.encEncoding x)
        omega
    | fuel + 1 =>
      refine ⟨fun h hg hsize => ?_, fun m hg hsize => ?_, fun x hg hsize => ?_⟩
      · obtain ⟨description, required, deprecated, allow_empty_value, style, explode,
          allow_reserved, schema, example_, examples, content, ext⟩ := h
        simp only [V3.goodHeader, Bool.and_eq_true] at hg
        obtain ⟨⟨⟨hext, hsch⟩, hexs⟩, hcont⟩ := hg
        rw [show V3.encHeader (.mk ⟨description, required, deprecated,
            allow_empty_value, style, explode, allow_reserved, schema, example_,
            examples, content, ext⟩) =
          .obj (eOpt "description" Json.str description ++
            eOpt "required" Json.bool required ++
            eOpt "deprecated" Json.bool deprecated ++
            eOpt "allowEmptyValue" Json.bool allow_empty_value ++
            eOpt "style" Json.str style ++ eOpt "explode" Json.bool explode ++
            eOpt "allowReserved" Json.bool allow_reserved ++
            eOpt "schema" V3.encSchemaRefOr schema ++ eOpt "example" id example_ ++
            eOpt "examples" (encSmap (encRefOr V3.encExample)) examples ++
            eOpt "content" (encSmap V3.encMedia) content ++ ext)
          from by simp only [V3.encHeader, v3_encHeaderContent_eq]] at hsize ⊢
        have hbound : ∀ q : String × Json,
            q ∈ (eOpt "description" Json.str description ++
            eOpt "required" Json.bool required ++
            eOpt "deprecated" Json.bool deprecated ++
            eOpt "allowEmptyValue" Json.bool allow_empty_value ++
            eOpt "style" Json.str style ++ eOpt "explode" Json.bool explode ++
            eOpt "allowReserved" Json.bool allow_reserved ++
            eOpt "schema" V3.encSchemaRefOr schema ++ eOpt "example" id example_ ++
            eOpt "examples" (encSmap (encRefOr V3.encExample)) examples ++
            eOpt "content" (encSmap V3.encMedia) content ++ ext) →
            jsize q.2 ≤ fuel := by
          intro q hq
          have := jsize_obj_mem hq
          omega
        apply v3_Header_of_fields
        · exact optF_leaf (by simp [getF_goodExt hext]) asStr_rt
        · exact optF_leaf (by simp [getF_goodExt hext]) asBool_rt
        · exact optF_leaf (by simp [getF_goodExt hext]) asBool_rt
        · exact optF_leaf (by simp [getF_goodExt hext]) asBool_rt
        · exact optF_leaf (by simp [getF_goodExt hext]) asStr_rt
        · exact optF_leaf (by simp [getF_goodExt hext]) asBool_rt
        · exact optF_leaf (by simp [getF_goodExt hext]) asBool_rt
        · refine optF_eval2 V3.encSchemaRefOr (by simp [getF_goodExt hext])
            (fun ro ha => v3_SchemaRO_rt ro (goodOpt_some hsch ha))
        · exact optF_leaf (by simp [getF_goodExt hext]) asValue_rt
        · refine optF_eval2 (encSmap (encRefOr V3.encExample))
            (by simp [getF_goodExt hext]) (fun m hm => ?_)
          have hsm := goodOpt_some hexs hm
          have hs2 : keysSorted (keysOf m) = true :=
            band_l (show (keysSorted (keysOf m) &&
              m.all (fun q => goodRefOr (fun _ => true) q.2)) = true from hsm)
          exact decSmap_rt m hs2 (fun p _ => v3_ExampleRO_rt p.2)
        · refine optF_eval2 (encSmap V3.encMedia) (by simp [getF_goodExt hext])
            (fun m hm => ?_)
          subst hm
          have hcm : (keysSorted (keysOf m) && V3.goodMediaEntries m) = true := by
            simpa [V3.goodHeaderContentOpt] using hcont
          refine decSmap_rt m (band_l hcm) (fun p hp => ?_)
          refine (ih fuel (by omega)).2.1 p.2
            (v3_goodMediaEntries_mem (band_r hcm) hp) ?_
          have h1 := hbound ("content", encSmap V3.encMedia m) (by simp [eOpt])
          have hmem2 : (p.1, V3.encMedia p.2) ∈
              (m.map (fun q => (q.1, V3.encMedia q.2))) :=
            List.mem_map.mpr ⟨p, hp, rfl⟩
          have h2 := jsize_obj_mem2 hmem2
          have h3 : jsize (encSmap V3.encMedia m) =
              jsize (Json.obj (m.map (fun q => (q.1, V3.encMedia q.2)))) := rfl
          simp only [h3] at h1
          omega
        · simp [extras_goodExt hext]
      · obtain ⟨schema, example_, examples, encoding⟩ := m
        simp only [V3.goodMedia, Bool.and_eq_true] at hg
        obtain ⟨⟨hsch, hexs⟩, henc⟩ := hg
        rw [show V3.encMedia (.mk ⟨schema, example_, examples, encoding⟩) =
          .obj (eOpt "schema" V3.encSchemaRefOr schema ++
            eOpt "example" id example_ ++
            eOpt "examples" (encSmap (encRefOr V3.encExample)) examples ++
            eOpt "encoding" (encSmap V3.encEncoding) encoding)
          from by simp only [V3.encMedia, v3_encMediaEncoding_eq]] at hsize ⊢
        have hbound : ∀ q : String × Json,
            q ∈ (eOpt "schema" V3.encSchemaRefOr schema ++
            eOpt "example" id example_ ++
            eOpt "examples" (encSmap (encRefOr V3.encExample)) examples ++
            eOpt "encoding" (encSmap V3.encEncoding) encoding) →
            jsize q.2 ≤ fuel := by
          intro q hq
          have := jsize_obj_mem hq
          omega
        apply v3_Media_of_fields
        · refine optF_eval2 V3.encSchemaRefOr (by simp)
            (fun ro ha => v3_SchemaRO_rt ro (goodOpt_some hsch ha))
        · exact optF_leaf (by simp) asValue_rt
        · refine optF_eval2 (encSmap (encRefOr V3.encExample)) (by simp)
            (fun m2 hm => ?_)
          have hsm := goodOpt_some hexs hm
          have hs2 : keysSorted (keysOf m2) = true :=
            band_l (show (keysSorted (keysOf m2) &&
              m2.all (fun q => goodRefOr (fun _ => true) q.2)) = true from hsm)
          exact decSmap_rt m2 hs2 (fun p _ => v3_ExampleRO_rt p.2)
        · refine optF_eval2 (encSmap V3.encEncoding) (by simp) (fun m2 hm => ?_)
          subst hm
          have hcm : (keysSorted (keysOf m2) && V3.goodEncodingEntries m2) = true := by
            simpa [V3.goodMediaEncodingOpt] using henc
          refine decSmap_rt m2 (band_l hcm) (fun p hp => ?_)
          refine (ih fuel (by omega)).2.2 p.2
            (v3_goodEncodingEntries_mem (band_r hcm) hp) ?_
          have h1 := hbound ("encoding", encSmap V3.encEncoding m2) (by simp [eOpt])
          have hmem2 : (p.1, V3.encEncoding p.2) ∈
              (m2.map (fun q => (q.1, V3.encEncoding q.2))) :=
            List.mem_map.mpr ⟨p, hp, rfl⟩
          have h2 := jsize_obj_mem2 hmem2
          have h3 : jsize (encSmap V3.encEncoding m2) =
              jsize (Json.obj (m2.map (fun q => (q.1, V3.encEncoding q.2)))) := rfl
          simp only [h3] at h1
          omega
      · obtain ⟨content_type, headers, style, explode, allow_reserved⟩ := x
        have hhd : V3.goodEncodingHeadersOpt headers = true := by
          simpa [V3.goodEncoding] using hg
        rw [show V3.encEncoding (.mk ⟨content_type, headers, style, explode,
            allow_reserved⟩) =
          .obj (eOpt "contentType" Json.str content_type ++
            eOpt "headers" (encSmap (encRefOr V3.encHeader)) headers ++
            eOpt "style" Json.str style ++ eOpt "explode" Json.bool explode ++
            eOpt "allowReserved" Json.bool allow_reserved)
          from by simp only [V3.encEncoding, v3_encEncodingHeaders_eq]] at hsize ⊢
        have hbound : ∀ q : String × Json,
            q ∈ (eOpt "contentType" Json.str content_type ++
            eOpt "headers" (encSmap (encRefOr V3.encHeader)) headers ++
            eOpt "style" Json.str style ++ eOpt "explode" Json.bool explode ++
            eOpt "allowReserved" Json.bool allow_reserved) →
            jsize q.2 ≤ fuel := by
          intro q hq
          have := jsize_obj_mem hq
          omega
        apply v3_Encoding_of_fields
        · exact optF_leaf (by simp) asStr_rt
        · refine optF_eval2 (encSmap (encRefOr V3.encHeader)) (by simp)
            (fun m2 hm => ?_)
          subst hm
          have hcm : (keysSorted (keysOf m2) && V3.goodHeaderROEntries m2) = true := by
            simpa [V3.goodEncodingHeadersOpt] using hhd
          refine decSmap_rt m2 (band_l hcm) (fun p hp => ?_)
          obtain ⟨k2, ro⟩ := p
          have hro : V3.goodHeaderRO ro = true :=
            v3_goodHeaderROEntries_mem (band_r hcm) hp
          have hsz2 : jsize (encRefOr V3.encHeader ro) ≤ fuel := by
            have h1 := hbound ("headers", encSmap (encRefOr V3.encHeader) m2)
              (by simp [eOpt])
            have hmem2 : (k2, encRefOr V3.encHeader ro) ∈
                (m2.map (fun q => (q.1, encRefOr V3.encHeader q.2))) :=
              List.mem_map.mpr ⟨(k2, ro), hp, rfl⟩
            have h2 := jsize_obj_mem2 hmem2
            have h3 : jsize (encSmap (encRefOr V3.encHeader) m2) =
                jsize (Json.obj (m2.map (fun q =>
                  (q.1, encRefOr V3.encHeader q.2)))) := rfl
            simp only [h3] at h1
            omega
          cases ro with
          | ref r => exact decRefOr_ref r
          | obj hh =>
            have hgg : (V3.goodHeader hh && V3.goodHeaderNoRef hh) = true := by
              simpa [V3.goodHeaderRO] using hro
            exact decRefOr_obj (v3_Header_ref_fails (band_l hgg) (band_r hgg))
              ((ih fuel (by omega)).1 hh (band_l hgg) hsz2)
        · exact optF_leaf (by simp) asStr_rt
        · exact optF_leaf (by simp) asBool_rt
        · exact optF_leaf (by simp) asBool_rt

theorem v3_Header_rt (h : V3.Header) (hg : V3.goodHeader h = true) :
    V3.decHeader (V3.encHeader h) = .ok h :=
  (v3_HME_rt_aux (jsize (V3.encHeader h))).1 h hg (Nat.le_refl _)

theorem v3_Media_rt (m : V3.Media) (hg : V3.goodMedia m = true) :
    V3.decMedia (V3.encMedia m) = .ok m :=
  (v3_HME_rt_aux (jsize (V3.encMedia m))).2.1 m hg (Nat.le_refl _)

theorem v3_Encoding_rt (x : V3.Encoding) (hg : V3.goodEncoding x = true) :
    V3.decEncoding (V3.encEncoding x) = .ok x :=
  (v3_HME_rt_aux (jsize (V3.encEncoding x))).2.2 x hg (Nat.le_refl _)

/-! ## Round-trips: v3 `Parameter`, `RequestBody`, `Response` -/

theorem v3_Parameter_of_fields {kvs : Omap} {name in_ : String}
    {description : Option String}
    {required deprecated allow_empty_value : Option Bool} {style : Option String}
    {explode allow_reserved : Option Bool} {schema : Option (RefOrObject V3.Schema)}
    {example_ : Option Json} {examples : Option (Smap (RefOrObject V3.Example))}
    {content : Option (Smap V3.Media)} {ext : Extensions}
    (h1 : reqF kvs "name" asStr = .ok name)
    (h2 : reqF kvs "in" asStr = .ok in_)
    (h3 : optF kvs "description" asStr = .ok description)
    (h4 : optF kvs "required" asBool = .ok required)
    (h5 : optF kvs "deprecated" asBool = .ok deprecated)
    (h6 : optF kvs "allowEmptyValue" asBool = .ok allow_empty_value)
    (h7 : optF kvs "style" asStr = .ok style)
    (h8 : optF kvs "explode" asBool = .ok explode)
    (h9 : optF kvs "allowReserved" asBool = .ok allow_reserved)
    (h10 : optF kvs "schema" (decRefOr V3.decSchema) = .ok schema)
    (h11 : optF kvs "example" asValue = .ok example_)
    (h12 : optF kvs "examples" (decSmap (decRefOr V3.decExample)) = .ok examples)
    (h13 : optF kvs "content" (decSmap V3.decMedia) = .ok content)
    (hext : extras kvs V3.declParameter = ext) :
    V3.decParameter (.obj kvs) =
      .ok ⟨name, in_, description, required, deprecated, allow_empty_value, style,
        explode, allow_reserved, schema, example_, examples, content, ext⟩ := by
  simp only [V3.decParameter, h1, h2, h3, h4, h5, h6, h7, h8, h9, h10, h11, h12,
    h13, hext, dbind_ok]
  rfl

theorem v3_Parameter_rt (x : V3.Parameter) (hx : V3.goodParameter x = true) :
    V3.decParameter (V3.encParameter x) = .ok x := by
  obtain ⟨name, in_, description, required, deprecated, allow_empty_value, style,
    explode, allow_reserved, schema, example_, examples, content, ext⟩ := x
  simp only [V3.goodParameter, Bool.and_eq_true] at hx
  obtain ⟨⟨⟨hg, hsch⟩, hexs⟩, hcont⟩ := hx
  apply v3_Parameter_of_fields
  · exact reqF_eval (by simp [V3.encParameter, getF_goodExt hg]) (asStr_rt _)
  · exact reqF_eval (by simp [V3.encParameter, getF_goodExt hg]) (asStr_rt _)
  · exact optF_leaf (by simp [V3.encParameter, getF_goodExt hg]) asStr_rt
  · exact optF_leaf (by simp [V3.encParameter, getF_goodExt hg]) asBool_rt
  · exact optF_leaf (by simp [V3.encParameter, getF_goodExt hg]) asBool_rt
  · exact optF_leaf (by simp [V3.encParameter, getF_goodExt hg]) asBool_rt
  · exact optF_leaf (by simp [V3.encParameter, getF_goodExt hg]) asStr_rt
  · exact optF_leaf (by simp [V3.encParameter, getF_goodExt hg]) asBool_rt
  · exact optF_leaf (by simp [V3.encParameter, getF_goodExt hg]) asBool_rt
  · exact optF_eval2 V3.encSchemaRefOr (by simp [V3.encParameter, getF_goodExt hg])
      (fun ro ha => v3_SchemaRO_rt ro (goodOpt_some hsch ha))
  · exact optF_leaf (by simp [V3.encParameter, getF_goodExt hg]) asValue_rt
  · refine optF_eval2 (encSmap (encRefOr V3.encExample))
      (by simp [V3.encParameter, getF_goodExt hg]) (fun m hm => ?_)
    exact decSmap_rt m (goodSmapBy_sorted (goodOpt_some hexs hm))
      (fun p _ => v3_ExampleRO_rt p.2)
  · refine optF_eval2 (encSmap V3.encMedia)
      (by simp [V3.encParameter, getF_goodExt hg]) (fun m hm => ?_)
    have hsm := goodOpt_some hcont hm
    exact decSmap_rt m (goodSmapBy_sorted hsm)
      (fun p hp => v3_Media_rt p.2 (goodSmapBy_val hsm hp))
  · simp [V3.encParameter, extras_goodExt hg]

theorem v3_ParameterRO_rt (ro : RefOrObject V3.Parameter)
    (h : V3.goodParameterRO ro = true) :
    decRefOr V3.decParameter (encRefOr V3.encParameter ro) = .ok ro := by
  cases ro with
  | ref r => exact decRefOr_ref r
  | obj p =>
    have hp2 : (V3.goodParameter p && noStrRef p.extensions) = true := by
      simpa [V3.goodParameterRO, goodRefOr] using h
    have hg : goodExt V3.declParameter p.extensions = true := by
      have := band_l hp2
      simp only [V3.goodParameter, Bool.and_eq_true] at this
      exact this.1.1.1
    refine decRefOr_obj (decReference_fails_ext ?_ (band_r hp2))
      (v3_Parameter_rt p (band_l hp2))
    simp [V3.encParameter, getF_sorted_lookup (goodExt_sorted hg)]

theorem v3_RequestBody_of_fields {kvs : Omap} {description : Option String}
    {content : Smap V3.Media} {required : Option Bool} {ext : Extensions}
    (h1 : optF kvs "description" asStr = .ok description)
    (h2 : reqF kvs "content" (decSmap V3.decMedia) = .ok content)
    (h3 : optF kvs "required" asBool = .ok required)
    (hext : extras kvs V3.declRequestBody = ext) :
    V3.decRequestBody (.obj kvs) = .ok ⟨description, content, required, ext⟩ := by
  simp only [V3.decRequestBody, h1, h2, h3, hext, dbind_ok]
  rfl

theorem v3_RequestBody_rt (x : V3.RequestBody) (hx : V3.goodRequestBody x = true) :
    V3.decRequestBody (V3.encRequestBody x) = .ok x := by
  obtain ⟨description, content, required, ext⟩ := x
  simp only [V3.goodRequestBody, Bool.and_eq_true] at hx
  obtain ⟨hg, hcont⟩ := hx
  apply v3_RequestBody_of_fields
  · exact optF_leaf (by simp [V3.encRequestBody, getF_goodExt hg]) asStr_rt
  · exact reqF_eval (by simp [V3.encRequestBody, getF_goodExt hg])
      (decSmap_rt content (goodSmapBy_sorted hcont)
        (fun p hp => v3_Media_rt p.2 (goodSmapBy_val hcont hp)))
  · exact optF_leaf (by simp [V3.encRequestBody, getF_goodExt hg]) asBool_rt
  · simp [V3.encRequestBody, extras_goodExt hg]

theorem v3_RequestBodyRO_rt (ro : RefOrObject V3.RequestBody)
    (h : V3.goodRequestBodyRO ro = true) :
    decRefOr V3.decRequestBody (encRefOr V3.encRequestBody ro) = .ok ro := by
  cases ro with
  | ref r => exact decRefOr_ref r
  | obj b =>
    have hb2 : (V3.goodRequestBody b && noStrRef b.extensions) = true := by
      simpa [V3.goodRequestBodyRO, goodRefOr] using h
    have hg : goodExt V3.declRequestBody b.extensions = true := by
      have := band_l hb2
      simp only [V3.goodRequestBody, Bool.and_eq_true] at this
      exact this.1
    refine decRefOr_obj (decReference_fails_ext ?_ (band_r hb2))
      (v3_RequestBody_rt b (band_l hb2))
    simp [V3.encRequestBody, getF_sorted_lookup (goodExt_sorted hg)]

theorem v3_HeaderRO_rt (ro : RefOrObject V3.Header)
    (h : V3.goodHeaderRO ro = true) :
    decRefOr V3.decHeader (V3.encHeaderRefOr ro) = .ok ro := by
  cases ro with
  | ref r => exact decRefOr_ref r
  | obj hh =>
    have hgg : (V3.goodHeader hh && V3.goodHeaderNoRef hh) = true := by
      simpa [V3.goodHeaderRO] using h
    exact decRefOr_obj (v3_Header_ref_fails (band_l hgg) (band_r hgg))
      (v3_Header_rt hh (band_l hgg))

theorem v3_Response_of_fields {kvs : Omap} {description : String}
    {headers : Option (Smap (RefOrObject V3.Header))}
    {content : Option (Smap V3.Media)}
    {links : Option (Smap (RefOrObject V3.Link))} {ext : Extensions}
    (h1 : reqF kvs "description" asStr = .ok description)
    (h2 : optF kvs "headers" (decSmap (decRefOr V3.decHeader)) = .ok headers)
    (h3 : optF kvs "content" (decSmap V3.decMedia) = .ok content)
    (h4 : optF kvs "links" (decSmap (decRefOr V3.decLink)) = .ok links)
    (hext : extras kvs V3.declResponse = ext) :
    V3.decResponse (.obj kvs) = .ok ⟨description, headers, content, links, ext⟩ := by
  simp only [V3.decResponse, h1, h2, h3, h4, hext, dbind_ok]
  rfl

theorem v3_Response_rt (x : V3.Response) (hx : V3.goodResponse x = true) :
    V3.decResponse (V3.encResponse x) = .ok x := by
  obtain ⟨description, headers, content, links, ext⟩ := x
  simp only [V3.goodResponse, Bool.and_eq_true] at hx
  obtain ⟨⟨⟨hg, hhd⟩, hcont⟩, hlk⟩ := hx
  apply v3_Response_of_fields
  · exact reqF_eval (by simp [V3.encResponse, getF_goodExt hg]) (asStr_rt _)
  · refine optF_eval2 (encSmap V3.encHeaderRefOr)
      (by simp [V3.encResponse, getF_goodExt hg]) (fun m hm => ?_)
    have hsm := goodOpt_some hhd hm
    exact decSmap_rt m (goodSmapBy_sorted hsm)
      (fun p hp => v3_HeaderRO_rt p.2 (goodSmapBy_val hsm hp))
  · refine optF_eval2 (encSmap V3.encMedia)
      (by simp [V3.encResponse, getF_goodExt hg]) (fun m hm => ?_)
    have hsm := goodOpt_some hcont hm
    exact decSmap_rt m (goodSmapBy_sorted hsm)
      (fun p hp => v3_Media_rt p.2 (goodSmapBy_val hsm hp))
  · refine optF_eval2 (encSmap (encRefOr V3.encLink))
      (by simp [V3.encResponse, getF_goodExt hg]) (fun m hm => ?_)
    have hsm := goodOpt_some hlk hm
    exact decSmap_rt m (goodSmapBy_sorted hsm)
      (fun p hp => v3_LinkRO_rt p.2 (goodSmapBy_val hsm hp))
  · simp [V3.encResponse, extras_goodExt hg]

theorem v3_ResponseRO_rt (ro : RefOrObject V3.Response)
    (h : V3.goodResponseRO ro = true) :
    decRefOr V3.decResponse (encRefOr V3.encResponse ro) = .ok ro := by
  cases ro with
  | ref r => exact decRefOr_ref r
  | obj x =>
    have hx2 : (V3.goodResponse x && noStrRef x.extensions) = true := by
      simpa [V3.goodResponseRO, goodRefOr] using h
    have hg : goodExt V3.declResponse x.extensions = true := by
      have := band_l hx2
      simp only [V3.goodResponse, Bool.and_eq_true] at this
      exact this.1.1.1
    refine decRefOr_obj (decReference_fails_ext ?_ (band_r hx2))
      (v3_Response_rt x (band_l hx2))
    simp [V3.encResponse, getF_sorted_lookup (goodExt_sorted hg)]

theorem v3_Responses_rt (m : V3.Responses) (hm : V3.goodResponses m = true) :
    V3.decResponses (V3.encResponses m) = .ok m := by
  unfold V3.decResponses V3.encResponses
  exact decSmap_rt m (goodSmapBy_sorted hm)
    (fun p hp => v3_ResponseRO_rt p.2 (goodSmapBy_val hm hp))

/-! ## Round-trip of the mutual v3 `PathItem`/`Operation` cluster -/

theorem v3_encOpField_eq (k : String) (o : Option V3.Operation) :
    V3.encOpField k o = eOpt k V3.encOperation o := by
  cases o <;> rfl

theorem v3_encPathItemEntries_eq : ∀ m : List (String × V3.PathItem),
    V3.encPathItemEntries m = m.map (fun q => (q.1, V3.encPathItem q.2))
  | [] => rfl
  | (k, v) :: t => by
    simp [V3.encPathItemEntries, v3_encPathItemEntries_eq t]

theorem v3_encCallbackRO_eq (ro : RefOrObject (List (String × V3.PathItem))) :
    V3.encCallbackRO ro = encRefOr (encSmap V3.encPathItem) ro := by
  cases ro with
  | ref r => rfl
  | obj cb =>
    simp [V3.encCallbackRO, encRefOr, encSmap, v3_encPathItemEntries_eq cb]

theorem v3_encCallbackROEntries_eq :
    ∀ m : List (String × RefOrObject (List (String × V3.PathItem))),
    V3.encCallbackROEntries m =
      m.map (fun q => (q.1, encRefOr (encSmap V3.encPathItem) q.2))
  | [] => rfl
  | (k, v) :: t => by
    simp [V3.encCallbackROEntries, v3_encCallbackROEntries_eq t, v3_encCallbackRO_eq]

theorem v3_encCallbacksField_eq
    (o : Option (List (String × RefOrObject (List (String × V3.PathItem))))) :
    V3.encCallbacksField o =
      eOpt "callbacks" (encSmap (encRefOr (encSmap V3.encPathItem))) o := by
  cases o with
  | none => rfl
  | some m =>
    simp [V3.encCallbacksField, eOpt, encSmap, v3_encCallbackROEntries_eq m]

theorem v3_goodCallbackROEntries_mem :
    ∀ {m : List (String × RefOrObject (List (String × V3.PathItem)))},
    V3.goodCallbackROEntries m = true →
    ∀ {p : String × RefOrObject (List (String × V3.PathItem))},
      p ∈ m → V3.goodCallbackRO p.2 = true
  | q :: t, h, p, hp => by
    rcases List.mem_cons.mp hp with rfl | hp'
    · exact band_l (by simpa [V3.goodCallbackROEntries] using h)
    · exact v3_goodCallbackROEntries_mem
        (band_r (by simpa [V3.goodCallbackROEntries] using h)) hp'

theorem v3_goodPathItemEntries_mem : ∀ {m : List (String × V3.PathItem)},
    V3.goodPathItemEntries m = true → ∀ {p : String × V3.PathItem},
      p ∈ m → V3.goodPathItem p.2 = true
  | q :: t, h, p, hp => by
    rcases List.mem_cons.mp hp with rfl | hp'
    · exact band_l (by simpa [V3.goodPathItemEntries] using h)
    · exact v3_goodPathItemEntries_mem
        (band_r (by simpa [V3.goodPathItemEntries] using h)) hp'

theorem lookupKey_mem {α : Type} : ∀ {l : List (String × α)} {k : String} {v : α},
    lookupKey l k = some v → (k, v) ∈ l
  | (k', v') :: t, k, v, h => by
    rw [lookupKey] at h
    split at h
    · rename_i he
      subst he
      injection h with h2
      subst h2
      exact List.mem_cons_self _ _
    · exact List.mem_cons_of_mem _ (lookupKey_mem h)

theorem keysOf_map_enc {α : Type} {enc : α → Json} :
    ∀ m : List (String × α), keysOf (m.map (fun q => (q.1, enc q.2))) = keysOf m
  | [] => rfl
  | a :: t => by
    have ih := @keysOf_map_enc _ enc t
    simp only [keysOf, List.map_cons] at ih ⊢
    simp [ih]

theorem v3_encPathItem_not_str (p : V3.PathItem) :
    asStr (V3.encPathItem p) = .error .typeMismatch := by
  obtain ⟨reference, summary, description, get, put, post, delete, options, head,
    patch, trace, servers, parameters, ext⟩ := p
  rfl

/-- The `Reference` trial always fails on an encoded inline `Callback`
(`BTreeMap<String, PathItem>`): even a path named `$ref` maps to an object,
never a string. -/
theorem v3_Callback_ref_fails {cb : List (String × V3.PathItem)}
    (hs : keysSorted (keysOf cb) = true) :
    ∃ e, decReference (encSmap V3.encPathItem cb) = .error e := by
  have hs2 : keysSorted
      (keysOf (cb.map (fun q => (q.1, V3.encPathItem q.2)))) = true := by
    rw [keysOf_map_enc]
    exact hs
  rw [show encSmap V3.encPathItem cb =
      .obj (cb.map (fun q => (q.1, V3.encPathItem q.2))) from rfl]
  apply decReference_fails
  rcases hlk : lookupKey (cb.map (fun q => (q.1, V3.encPathItem q.2))) "$ref"
    with _ | v
  · left
    rw [getF_sorted_lookup hs2, hlk]
  · right
    refine ⟨v, by rw [getF_sorted_lookup hs2, hlk], ?_⟩
    rcases List.mem_map.mp (lookupKey_mem hlk) with ⟨q, _, heq⟩
    have hv : V3.encPathItem q.2 = v := congrArg Prod.snd heq
    rw [← hv]
    exact v3_encPathItem_not_str q.2

theorem v3_PathItem_of_fields {fuel : Nat} {kvs : Omap}
    {reference summary description : Option String}
    {get put post delete options head patch trace : Option V3.Operation}
    {servers : Option (List V3.Server)}
    {parameters : Option (List (RefOrObject V3.Parameter))} {ext : Extensions}
    (h1 : optF kvs "$ref" asStr = .ok reference)
    (h2 : optF kvs "summary" asStr = .ok summary)
    (h3 : optF kvs "description" asStr = .ok description)
    (h4 : optF kvs "get" (V3.decOperationAux fuel) = .ok get)
    (h5 : optF kvs "put" (V3.decOperationAux fuel) = .ok put)
    (h6 : optF kvs "post" (V3.decOperationAux fuel) = .ok post)
    (h7 : optF kvs "delete" (V3.decOperationAux fuel) = .ok delete)
    (h8 : optF kvs "options" (V3.decOperationAux fuel) = .ok options)
    (h9 : optF kvs "head" (V3.decOperationAux fuel) = .ok head)
    (h10 : optF kvs "patch" (V3.decOperationAux fuel) = .ok patch)
    (h11 : optF kvs "trace" (V3.decOperationAux fuel) = .ok trace)
    (h12 : optF kvs "servers" (decList V3.decServer) = .ok servers)
    (h13 : optF kvs "parameters" (decList (decRefOr V3.decParameter)) = .ok parameters)
    (hext : extras kvs V3.declPathItem = ext) :
    V3.decPathItemAux (fuel + 1) (.obj kvs) =
      .ok (.mk ⟨reference, summary, description, get, put, post, delete, options,
        head, patch, trace, servers, parameters, ext⟩) := by
  simp only [V3.decPathItemAux, h1, h2, h3, h4, h5, h6, h7, h8, h9, h10, h11, h12,
    h13, hext, dbind_ok]
  rfl

theorem v3_Operation_of_fields {fuel : Nat} {kvs : Omap}
    {tags : Option (List String)} {summary description : Option String}
    {external_docs : Option V3.ExternalDoc} {operation_id : Option String}
    {parameters : Option (List (RefOrObject V3.Parameter))}
    {request_body : Option (RefOrObject V3.RequestBody)}
    {responses : V3.Responses}
    {callbacks : Option (List (String × RefOrObject (List (String × V3.PathItem))))}
    {deprecated : Option Bool} {security : Option (List V3.SecurityRequirement)}
    {servers : Option (List V3.Server)} {ext : Extensions}
    (h1 : optF kvs "tags" (decList asStr) = .ok tags)
    (h2 : optF kvs "summary" asStr = .ok summary)
    (h3 : optF kvs "description" asStr = .ok description)
    (h4 : optF kvs "externalDocs" V3.decExternalDoc = .ok external_docs)
    (h5 : optF kvs "operationId" asStr = .ok operation_id)
    (h6 : optF kvs "parameters" (decList (decRefOr V3.decParameter)) = .ok parameters)
    (h7 : optF kvs "requestBody" (decRefOr V3.decRequestBody) = .ok request_body)
    (h8 : reqF kvs "responses" V3.decResponses = .ok responses)
    (h9 : optF kvs "callbacks"
      (decSmap (decRefOr (decSmap (V3.decPathItemAux fuel)))) = .ok callbacks)
    (h10 : optF kvs "deprecated" asBool = .ok deprecated)
    (h11 : optF kvs "security" (decList V3.decSecurityRequirement) = .ok security)
    (h12 : optF kvs "servers" (decList V3.decServer) = .ok servers)
    (hext : extras kvs V3.declOperation = ext) :
    V3.decOperationAux (fuel + 1) (.obj kvs) =
      .ok (.mk ⟨tags, summary, description, external_docs, operation_id, parameters,
        request_body, responses, callbacks, deprecated, security, servers, ext⟩) := by
  simp only [V3.decOperationAux, h1, h2, h3, h4, h5, h6, h7, h8, h9, h10, h11, h12,
    hext, dbind_ok]
  rfl

set_option maxHeartbeats 4000000 in
theorem v3_PIO_rt_aux : ∀ fuel : Nat,
    (∀ p : V3.PathItem, V3.goodPathItem p = true → jsize (V3.encPathItem p) ≤ fuel →
      V3.decPathItemAux fuel (V3.encPathItem p) = .ok p) ∧
    (∀ op : V3.Operation, V3.goodOperation op = true →
      jsize (V3.encOperation op) ≤ fuel →
      V3.decOperationAux fuel (V3.encOperation op) = .ok op) := by
  intro fuel
  induction fuel using Nat.strong_induction_on with
  | _ fuel ih =>
    match fuel with
    | 0 =>
      refine ⟨fun p _ hsz => ?_, fun op _ hsz => ?_⟩
      · have := jsize_pos (V3.encPathItem p)
        omega
      · have := jsize_pos (V3.encOperation op)
        omega
    | fuel + 1 =>
      refine ⟨fun p hg hsize => ?_, fun op hg hsize => ?_⟩
      · obtain ⟨reference, summary, description, get, put, post, delete, options,
          head, patch, trace, servers, parameters, ext⟩ := p
        simp only [V3.goodPathItem, Bool.and_eq_true] at hg
        obtain ⟨⟨⟨⟨⟨⟨⟨⟨⟨⟨hext, hget⟩, hput⟩, hpost⟩, hdel⟩, hopts⟩, hhead⟩,
          hpatch⟩, htrace⟩, hsrv⟩, hpar⟩ := hg
        rw [show V3.encPathItem (.mk ⟨reference, summary, description, get, put,
            post, delete, options, head, patch, trace, servers, parameters, ext⟩) =
          .obj (eOpt "$ref" Json.str reference ++ eOpt "summary" Json.str summary ++
            eOpt "description" Json.str description ++
            eOpt "get" V3.encOperation get ++ eOpt "put" V3.encOperation put ++
            eOpt "post" V3.encOperation post ++
            eOpt "delete" V3.encOperation delete ++
            eOpt "options" V3.encOperation options ++
            eOpt "head" V3.encOperation head ++
            eOpt "patch" V3.encOperation patch ++
            eOpt "trace" V3.encOperation trace ++
            eOpt "servers" (encList V3.encServer) servers ++
            eOpt "parameters" (encList (encRefOr V3.encParameter)) parameters ++ ext)
          from by simp only [V3.encPathItem, v3_encOpField_eq]] at hsize ⊢
        have hbound : ∀ q : String × Json,
            q ∈ (eOpt "$ref" Json.str reference ++ eOpt "summary" Json.str summary ++
            eOpt "description" Json.str description ++
            eOpt "get" V3.encOperation get ++ eOpt "put" V3.encOperation put ++
            eOpt "post" V3.encOperation post ++
            eOpt "delete" V3.encOperation delete ++
            eOpt "options" V3.encOperation options ++
            eOpt "head" V3.encOperation head ++
            eOpt "patch" V3.encOperation patch ++
            eOpt "trace" V3.encOperation trace ++
            eOpt "servers" (encList V3.encServer) servers ++
            eOpt "parameters" (encList (encRefOr V3.encParameter)) parameters ++
            ext) → jsize q.2 ≤ fuel := by
          intro q hq
          have := jsize_obj_mem hq
          omega
        apply v3_PathItem_of_fields
        · exact optF_leaf (by simp [getF_goodExt hext]) asStr_rt
        · exact optF_leaf (by simp [getF_goodExt hext]) asStr_rt
        · exact optF_leaf (by simp [getF_goodExt hext]) asStr_rt
        · refine optF_eval2 V3.encOperation (by simp [getF_goodExt hext])
            (fun o2 ha => ?_)
          subst ha
          exact (ih fuel (by omega)).2 o2 (by simpa [V3.goodOpOpt] using hget)
            (hbound ("get", V3.encOperation o2) (by simp [eOpt]))
        · refine optF_eval2 V3.encOperation (by simp [getF_goodExt hext])
            (fun o2 ha => ?_)
          subst ha
          exact (ih fuel (by omega)).2 o2 (by simpa [V3.goodOpOpt] using hput)
            (hbound ("put", V3.encOperation o2) (by simp [eOpt]))
        · refine optF_eval2 V3.encOperation (by simp [getF_goodExt hext])
            (fun o2 ha => ?_)
          subst ha
          exact (ih fuel (by omega)).2 o2 (by simpa [V3.goodOpOpt] using hpost)
            (hbound ("post", V3.encOperation o2) (by simp [eOpt]))
        · refine optF_eval2 V3.encOperation (by simp [getF_goodExt hext])
            (fun o2 ha => ?_)
          subst ha
          exact (ih fuel (by omega)).2 o2 (by simpa [V3.goodOpOpt] using hdel)
            (hbound ("delete", V3.encOperation o2) (by simp [eOpt]))
        · refine optF_eval2 V3.encOperation (by simp [getF_goodExt hext])
            (fun o2 ha => ?_)
          subst ha
          exact (ih fuel (by omega)).2 o2 (by simpa [V3.goodOpOpt] using hopts)
            (hbound ("options", V3.encOperation o2) (by simp [eOpt]))
        · refine optF_eval2 V3.encOperation (by simp [getF_goodExt hext])
            (fun o2 ha => ?_)
          subst ha
          exact (ih fuel (by omega)).2 o2 (by simpa [V3.goodOpOpt] using hhead)
            (hbound ("head", V3.encOperation o2) (by simp [eOpt]))
        · refine optF_eval2 V3.encOperation (by simp [getF_goodExt hext])
            (fun o2 ha => ?_)
          subst ha
          exact (ih fuel (by omega)).2 o2 (by simpa [V3.goodOpOpt] using hpatch)
            (hbound ("patch", V3.encOperation o2) (by simp [eOpt]))
        · refine optF_eval2 V3.encOperation (by simp [getF_goodExt hext])
            (fun o2 ha => ?_)
          subst ha
          exact (ih fuel (by omega)).2 o2 (by simpa [V3.goodOpOpt] using htrace)
            (hbound ("trace", V3.encOperation o2) (by simp [eOpt]))
        · refine optF_eval2 (encList V3.encServer) (by simp [getF_goodExt hext])
            (fun l hl => ?_)
          exact decList_rt l
            (fun a ha2 => v3_Server_rt a (all_mem (goodOpt_some hsrv hl) ha2))
        · refine optF_eval2 (encList (encRefOr V3.encParameter))
            (by simp [getF_goodExt hext]) (fun l hl => ?_)
          have hall : l.all V3.goodParameterRO = true := by
            have h2 := hl ▸ hpar
            simpa [V3.goodParamsOpt] using h2
          exact decList_rt l (fun ro hro => v3_ParameterRO_rt ro (all_mem hall hro))
        · simp [extras_goodExt hext]
      · obtain ⟨tags, summary, description, external_docs, operation_id, parameters,
          request_body, responses, callbacks, deprecated, security, servers, ext⟩ := op
        simp only [V3.goodOperation, Bool.and_eq_true] at hg
        obtain ⟨⟨⟨⟨⟨⟨⟨hext, hed⟩, hpar⟩, hrb⟩, hresp⟩, hcb⟩, hsec⟩, hsrv⟩ := hg
        rw [show V3.encOperation (.mk ⟨tags, summary, description, external_docs,
            operation_id, parameters, request_body, responses, callbacks,
            deprecated, security, servers, ext⟩) =
          .obj (eOpt "tags" (encList Json.str) tags ++
            eOpt "summary" Json.str summary ++
            eOpt "description" Json.str description ++
            eOpt "externalDocs" V3.encExternalDoc external_docs ++
            eOpt "operationId" Json.str operation_id ++
            eOpt "parameters" (encList (encRefOr V3.encParameter)) parameters ++
            eOpt "requestBody" (encRefOr V3.encRequestBody) request_body ++
            eReq "responses" (V3.encResponses responses) ++
            eOpt "callbacks" (encSmap (encRefOr (encSmap V3.encPathItem))) callbacks ++
            eOpt "deprecated" Json.bool deprecated ++
            eOpt "security" (encList V3.encSecurityRequirement) security ++
            eOpt "servers" (encList V3.encServer) servers ++ ext)
          from by simp only [V3.encOperation, v3_encCallbacksField_eq]] at hsize ⊢
        have hbound : ∀ q : String × Json,
            q ∈ (eOpt "tags" (encList Json.str) tags ++
            eOpt "summary" Json.str summary ++
            eOpt "description" Json.str description ++
            eOpt "externalDocs" V3.encExternalDoc external_docs ++
            eOpt "operationId" Json.str operation_id ++
            eOpt "parameters" (encList (encRefOr V3.encParameter)) parameters ++
            eOpt "requestBody" (encRefOr V3.encRequestBody) request_body ++
            eReq "responses" (V3.encResponses responses) ++
            eOpt "callbacks" (encSmap (encRefOr (encSmap V3.encPathItem))) callbacks ++
            eOpt "deprecated" Json.bool deprecated ++
            eOpt "security" (encList V3.encSecurityRequirement) security ++
            eOpt "servers" (encList V3.encServer) servers ++ ext) →
            jsize q.2 ≤ fuel := by
          intro q hq
          have := jsize_obj_mem hq
          omega
        apply v3_Operation_of_fields
        · exact optF_leaf (by simp [getF_goodExt hext])
            (fun l => decList_rt l (fun a _ => asStr_rt a))
        · exact optF_leaf (by simp [getF_goodExt hext]) asStr_rt
        · exact optF_leaf (by simp [getF_goodExt hext]) asStr_rt
        · exact optF_eval2 V3.encExternalDoc (by simp [getF_goodExt hext])
            (fun a ha => v3_ExternalDoc_rt a (goodOpt_some hed ha))
        · exact optF_leaf (by simp [getF_goodExt hext]) asStr_rt
        · refine optF_eval2 (encList (encRefOr V3.encParameter))
            (by simp [getF_goodExt hext]) (fun l hl => ?_)
          have hall : l.all V3.goodParameterRO = true := by
            have h2 := hl ▸ hpar
            simpa [V3.goodParamsOpt] using h2
          exact decList_rt l (fun ro hro => v3_ParameterRO_rt ro (all_mem hall hro))
        · exact optF_eval2 (encRefOr V3.encRequestBody) (by simp [getF_goodExt hext])
            (fun ro ha => v3_RequestBodyRO_rt ro (goodOpt_some hrb ha))
        · exact reqF_eval (by simp [getF_goodExt hext])
            (v3_Responses_rt responses hresp)
        · refine optF_eval2 (encSmap (encRefOr (encSmap V3.encPathItem)))
            (by simp [getF_goodExt hext]) (fun m hm => ?_)
          subst hm
          have hcm : (keysSorted (keysOf m) && V3.goodCallbackROEntries m) = true := by
            simpa [V3.goodCallbacksOpt] using hcb
          refine decSmap_rt m (band_l hcm) (fun q hq => ?_)
          obtain ⟨k2, ro⟩ := q
          have hro := v3_goodCallbackROEntries_mem (band_r hcm) hq
          have hsz2 : jsize (encRefOr (encSmap V3.encPathItem) ro) ≤ fuel := by
            have h1 := hbound
              ("callbacks", encSmap (encRefOr (encSmap V3.encPathItem)) m)
              (by simp [eOpt])
            have hmem2 : (k2, encRefOr (encSmap V3.encPathItem) ro) ∈
                (m.map (fun q2 => (q2.1, encRefOr (encSmap V3.encPathItem) q2.2))) :=
              List.mem_map.mpr ⟨(k2, ro), hq, rfl⟩
            have h2 := jsize_obj_mem2 hmem2
            have h3 : jsize (encSmap (encRefOr (encSmap V3.encPathItem)) m) =
                jsize (Json.obj (m.map (fun q2 =>
                  (q2.1, encRefOr (encSmap V3.encPathItem) q2.2)))) := rfl
            simp only [h3] at h1
            omega
          cases ro with
          | ref r => exact decRefOr_ref r
          | obj cb =>
            have hcb2 : (keysSorted (keysOf cb) && V3.goodPathItemEntries cb) = true := by
              simpa [V3.goodCallbackRO] using hro
            refine decRefOr_obj (v3_Callback_ref_fails (band_l hcb2)) ?_
            refine decSmap_rt cb (band_l hcb2) (fun q2 hq2 => ?_)
            refine (ih fuel (by omega)).1 q2.2
              (v3_goodPathItemEntries_mem (band_r hcb2) hq2) ?_
            have hmem3 : (q2.1, V3.encPathItem q2.2) ∈
                (cb.map (fun r2 => (r2.1, V3.encPathItem r2.2))) :=
              List.mem_map.mpr ⟨q2, hq2, rfl⟩
            have h4 := jsize_obj_mem2 hmem3
            have h5 : jsize (encRefOr (encSmap V3.encPathItem) (.obj cb)) =
                jsize (Json.obj (cb.map (fun r2 => (r2.1, V3.encPathItem r2.2)))) := rfl
            rw [h5] at hsz2
            omega
        · exact optF_leaf (by simp [getF_goodExt hext]) asBool_rt
        · refine optF_eval2 (encList V3.encSecurityRequirement)
            (by simp [getF_goodExt hext]) (fun l hl => ?_)
          exact decList_rt l (fun a ha2 =>
            v3_SecurityRequirement_rt a (all_mem (goodOpt_some hsec hl) ha2))
        · refine optF_eval2 (encList V3.encServer) (by simp [getF_goodExt hext])
            (fun l hl => ?_)
          exact decList_rt l
            (fun a ha2 => v3_Server_rt a (all_mem (goodOpt_some hsrv hl) ha2))
        · simp [extras_goodExt hext]

theorem v3_PathItem_rt (p : V3.PathItem) (hg : V3.goodPathItem p = true) :
    V3.decPathItem (V3.encPathItem p) = .ok p :=
  (v3_PIO_rt_aux (jsize (V3.encPathItem p))).1 p hg (Nat.le_refl _)

theorem v3_Operation_rt (op : V3.Operation) (hg : V3.goodOperation op = true) :
    V3.decOperation (V3.encOperation op) = .ok op :=
  (v3_PIO_rt_aux (jsize (V3.encOperation op))).2 op hg (Nat.le_refl _)

/-! ## Round-trips: v3 `Components`, `OpenApi`, and the untagged `Doc` -/

theorem v3_CallbackRO_rt (ro : RefOrObject (List (String × V3.PathItem)))
    (h : V3.goodCallbackRO ro = true) :
    decRefOr (decSmap V3.decPathItem) (V3.encCallbackRO ro) = .ok ro := by
  rw [v3_encCallbackRO_eq]
  cases ro with
  | ref r => exact decRefOr_ref r
  | obj cb =>
    have hcb2 : (keysSorted (keysOf cb) && V3.goodPathItemEntries cb) = true := by
      simpa [V3.goodCallbackRO] using h
    refine decRefOr_obj (v3_Callback_ref_fails (band_l hcb2)) ?_
    exact decSmap_rt cb (band_l hcb2)
      (fun q hq => v3_PathItem_rt q.2 (v3_goodPathItemEntries_mem (band_r hcb2) hq))

theorem v3_Components_of_fields {kvs : Omap}
    {schemas : Option (Smap (RefOrObject V3.Schema))}
    {responses : Option V3.Responses}
    {parameters : Option (Smap (RefOrObject V3.Parameter))}
    {examples : Option (Smap (RefOrObject V3.Example))}
    {request_bodies : Option (Smap (RefOrObject V3.RequestBody))}
    {headers : Option (Smap (RefOrObject V3.Header))}
    {security_schemes : Option (Smap (RefOrObject V3.SecurityScheme))}
    {links : Option (Smap (RefOrObject V3.Link))}
    {callbacks : Option (Smap (RefOrObject V3.Callback))} {ext : Extensions}
    (h1 : optF kvs "schemas" (decSmap (decRefOr V3.decSchema)) = .ok schemas)
    (h2 : optF kvs "responses" V3.decResponses = .ok responses)
    (h3 : optF kvs "parameters" (decSmap (decRefOr V3.decParameter)) = .ok parameters)
    (h4 : optF kvs "examples" (decSmap (decRefOr V3.decExample)) = .ok examples)
    (h5 : optF kvs "requestBodies" (decSmap (decRefOr V3.decRequestBody)) = .ok request_bodies)
    (h6 : optF kvs "headers" (decSmap (decRefOr V3.decHeader)) = .ok headers)
    (h7 : optF kvs "securitySchemes" (decSmap (decRefOr V3.decSecurityScheme)) = .ok security_schemes)
    (h8 : optF kvs "links" (decSmap (decRefOr V3.decLink)) = .ok links)
    (h9 : optF kvs "callbacks" (decSmap (decRefOr (decSmap V3.decPathItem))) = .ok callbacks)
    (hext : extras kvs V3.declComponents = ext) :
    V3.decComponents (.obj kvs) =
      .ok ⟨schemas, responses, parameters, examples, request_bodies, headers,
        security_schemes, links, callbacks, ext⟩ := by
  simp only [V3.decComponents, h1, h2, h3, h4, h5, h6, h7, h8, h9, hext, dbind_ok]
  rfl

theorem v3_Components_rt (x : V3.Components) (hx : V3.goodComponents x = true) :
    V3.decComponents (V3.encComponents x) = .ok x := by
  obtain ⟨schemas, responses, parameters, examples, request_bodies, headers,
    security_schemes, links, callbacks, ext⟩ := x
  simp only [V3.goodComponents, Bool.and_eq_true] at hx
  obtain ⟨⟨⟨⟨⟨⟨⟨⟨⟨hg, hsch⟩, hresp⟩, hpar⟩, hexm⟩, hrb⟩, hhd⟩, hss⟩, hlk⟩, hcb⟩ := hx
  apply v3_Components_of_fields
  · refine optF_eval2 (encSmap V3.encSchemaRefOr)
      (by simp [V3.encComponents, getF_goodExt hg]) (fun m hm => ?_)
    have hsm := goodOpt_some hsch hm
    exact decSmap_rt m (goodSmapBy_sorted hsm)
      (fun p hp => v3_SchemaRO_rt p.2 (goodSmapBy_val hsm hp))
  · exact optF_eval2 V3.encResponses (by simp [V3.encComponents, getF_goodExt hg])
      (fun m hm => v3_Responses_rt m (goodOpt_some hresp hm))
  · refine optF_eval2 (encSmap (encRefOr V3.encParameter))
      (by simp [V3.encComponents, getF_goodExt hg]) (fun m hm => ?_)
    have hsm := goodOpt_some hpar hm
    exact decSmap_rt m (goodSmapBy_sorted hsm)
      (fun p hp => v3_ParameterRO_rt p.2 (goodSmapBy_val hsm hp))
  · refine optF_eval2 (encSmap (encRefOr V3.encExample))
      (by simp [V3.encComponents, getF_goodExt hg]) (fun m hm => ?_)
    exact decSmap_rt m (goodSmapBy_sorted (goodOpt_some hexm hm))
      (fun p _ => v3_ExampleRO_rt p.2)
  · refine optF_eval2 (encSmap (encRefOr V3.encRequestBody))
      (by simp [V3.encComponents, getF_goodExt hg]) (fun m hm => ?_)
    have hsm := goodOpt_some hrb hm
    exact decSmap_rt m (goodSmapBy_sorted hsm)
      (fun p hp => v3_RequestBodyRO_rt p.2 (goodSmapBy_val hsm hp))
  · refine optF_eval2 (encSmap V3.encHeaderRefOr)
      (by simp [V3.encComponents, getF_goodExt hg]) (fun m hm => ?_)
    have hsm := goodOpt_some hhd hm
    exact decSmap_rt m (goodSmapBy_sorted hsm)
      (fun p hp => v3_HeaderRO_rt p.2 (goodSmapBy_val hsm hp))
  · refine optF_eval2 (encSmap (encRefOr V3.encSecurityScheme))
      (by simp [V3.encComponents, getF_goodExt hg]) (fun m hm => ?_)
    have hsm := goodOpt_some hss hm
    exact decSmap_rt m (goodSmapBy_sorted hsm)
      (fun p hp => v3_SecuritySchemeRO_rt p.2 (goodSmapBy_val hsm hp))
  · refine optF_eval2 (encSmap (encRefOr V3.encLink))
      (by simp [V3.encComponents, getF_goodExt hg]) (fun m hm => ?_)
    have hsm := goodOpt_some hlk hm
    exact decSmap_rt m (goodSmapBy_sorted hsm)
      (fun p hp => v3_LinkRO_rt p.2 (goodSmapBy_val hsm hp))
  · refine optF_eval2 (encSmap V3.encCallbackRO)
      (by simp [V3.encComponents, getF_goodExt hg]) (fun m hm => ?_)
    have hsm := goodOpt_some hcb hm
    exact decSmap_rt m (goodSmapBy_sorted hsm)
      (fun p hp => v3_CallbackRO_rt p.2 (goodSmapBy_val hsm hp))
  · simp [V3.encComponents, extras_goodExt hg]

theorem v3_OpenApi_of_fields {kvs : Omap} {openapi : String} {info : V3.Info}
    {servers : Option (List V3.Server)} {paths : V3.Paths}
    {components : Option V3.Components} {security : Option V3.SecurityRequirement}
    {tags : Option (List V3.Tag)} {external_docs : Option V3.ExternalDoc}
    (h1 : reqF kvs "openapi" asStr = .ok openapi)
    (h2 : reqF kvs "info" V3.decInfo = .ok info)
    (h3 : optF kvs "servers" (decList V3.decServer) = .ok servers)
    (h4 : reqF kvs "paths" (decSmap V3.decPathItem) = .ok paths)
    (h5 : optF kvs "components" V3.decComponents = .ok components)
    (h6 : optF kvs "security" V3.decSecurityRequirement = .ok security)
    (h7 : optF kvs "tags" (decList V3.decTag) = .ok tags)
    (h8 : optF kvs "externalDocs" V3.decExternalDoc = .ok external_docs) :
    V3.decOpenApi (.obj kvs) =
      .ok ⟨openapi, info, servers, paths, components, security, tags,
        external_docs⟩ := by
  simp only [V3.decOpenApi, h1, h2, h3, h4, h5, h6, h7, h8, dbind_ok]
  rfl

theorem v3_OpenApi_rt (x : V3.OpenApi) (hx : V3.goodOpenApi x = true) :
    V3.decOpenApi (V3.encOpenApi x) = .ok x := by
  obtain ⟨openapi, info, servers, paths, components, security, tags,
    external_docs⟩ := x
  simp only [V3.goodOpenApi, Bool.and_eq_true] at hx
  obtain ⟨⟨⟨⟨⟨⟨hinfo, hsrv⟩, hpaths⟩, hcomp⟩, hsec⟩, htags⟩, hed⟩ := hx
  apply v3_OpenApi_of_fields
  · exact reqF_eval (by simp [V3.encOpenApi]) (asStr_rt _)
  · exact reqF_eval (by simp [V3.encOpenApi]) (v3_Info_rt info hinfo)
  · refine optF_eval2 (encList V3.encServer) (by simp [V3.encOpenApi])
      (fun l hl => ?_)
    exact decList_rt l
      (fun a ha2 => v3_Server_rt a (all_mem (goodOpt_some hsrv hl) ha2))
  · exact reqF_eval (by simp [V3.encOpenApi])
      (decSmap_rt paths (goodSmapBy_sorted hpaths)
        (fun p hp => v3_PathItem_rt p.2 (goodSmapBy_val hpaths hp)))
  · exact optF_eval2 V3.encComponents (by simp [V3.encOpenApi])
      (fun a ha => v3_Components_rt a (goodOpt_some hcomp ha))
  · exact optF_eval2 V3.encSecurityRequirement (by simp [V3.encOpenApi])
      (fun a ha => v3_SecurityRequirement_rt a (goodOpt_some hsec ha))
  · refine optF_eval2 (encList V3.encTag) (by simp [V3.encOpenApi]) (fun l hl => ?_)
    exact decList_rt l
      (fun a ha2 => v3_Tag_rt a (all_mem (goodOpt_some htags hl) ha2))
  · exact optF_eval2 V3.encExternalDoc (by simp [V3.encOpenApi])
      (fun a ha => v3_ExternalDoc_rt a (goodOpt_some hed ha))

/-- The `V2(Swagger)` trial fails on an encoded v3 document: the required
`swagger` key is absent (the v3 encoder only ever writes `openapi`). -/
theorem v2_decSwagger_fails_on_v3 (o : V3.OpenApi) :
    V2.decSwagger (V3.encOpenApi o) = .error (.missingField "swagger") := by
  obtain ⟨openapi, info, servers, paths, components, security, tags,
    external_docs⟩ := o
  have h0 : getF (eReq "openapi" (.str openapi) ++
      eReq "info" (V3.encInfo info) ++
      eOpt "servers" (encList V3.encServer) servers ++
      eReq "paths" (encSmap V3.encPathItem paths) ++
      eOpt "components" V3.encComponents components ++
      eOpt "security" V3.encSecurityRequirement security ++
      eOpt "tags" (encList V3.encTag) tags ++
      eOpt "externalDocs" V3.encExternalDoc external_docs) "swagger" = .ok none := by
    simp
  simp [V3.encOpenApi, V2.decSwagger, reqF, h0]

/-- Decode after encode recovers any well-formed document, v2 or v3. -/
theorem decDoc_encDoc (d : Doc) (h : goodDoc d = true) :
    decDoc (encDoc d) = .ok d := by
  cases d with
  | V2 s =>
    have h2 : V2.goodSwagger s = true := by simpa [goodDoc] using h
    simp [decDoc, encDoc, v2_Swagger_rt s h2]
  | V3 o =>
    have h2 : V3.goodOpenApi o = true := by simpa [goodDoc] using h
    simp [decDoc, encDoc, v2_decSwagger_fails_on_v3 o, v3_OpenApi_rt o h2]

/-! ## Inversion and membership helpers for the claims -/

theorem dbind_inv {α β : Type} {m : DRes α} {f : α → DRes β} {b : β}
    (h : (m >>= f) = .ok b) : ∃ a, m = .ok a ∧ f a = .ok b := by
  cases m with
  | ok a => exact ⟨a, rfl, h⟩
  | error e => exact absurd h (by simp)

theorem mem_insKeep_inv {α : Type} {k : String} {v : α} :
    ∀ {m : Smap α} {p : String × α}, p ∈ insKeep k v m → p = (k, v) ∨ p ∈ m
  | [], p, h => by simpa [insKeep] using h
  | (k', v') :: t, p, h => by
    rw [insKeep] at h
    split at h
    · rcases List.mem_cons.mp h with rfl | h2
      · exact Or.inl rfl
      · exact Or.inr h2
    · split at h
      · exact Or.inr h
      · rcases List.mem_cons.mp h with rfl | h2
        · exact Or.inr (List.mem_cons_self _ _)
        · rcases mem_insKeep_inv h2 with h3 | h3
          · exact Or.inl h3
          · exact Or.inr (List.mem_cons_of_mem _ h3)

theorem mem_collectMap_inv {α : Type} :
    ∀ {l : List (String × α)} {p : String × α}, p ∈ collectMap l → p ∈ l
  | [], p, h => by simp [collectMap] at h
  | q :: t, p, h => by
    rw [show collectMap (q :: t) = insKeep q.1 q.2 (collectMap t) from rfl] at h
    rcases mem_insKeep_inv h with h2 | h2
    · rw [h2]
      exact List.mem_cons_self _ _
    · exact List.mem_cons_of_mem _ (mem_collectMap_inv h2)

theorem keysOf_collectMap_sub {α : Type} {l : List (String × α)} {a : String}
    (h : a ∈ keysOf (collectMap l)) : a ∈ keysOf l := by
  simp only [keysOf, List.mem_map] at h ⊢
  rcases h with ⟨p, hp, he⟩
  exact ⟨p, mem_collectMap_inv hp, he⟩

theorem insKeep_mem_new {α : Type} {k : String} {v : α} :
    ∀ {m : Smap α}, ¬k ∈ keysOf m → (k, v) ∈ insKeep k v m
  | [], _ => List.mem_cons_self _ _
  | (k', v') :: t, hk => by
    rw [insKeep]
    split
    · exact List.mem_cons_self _ _
    · split
      · rename_i h1 h2
        exact absurd (by simp [keysOf, h2]) hk
      · refine List.mem_cons_of_mem _ (insKeep_mem_new (fun hm => hk ?_))
        simp only [keysOf, List.map_cons, List.mem_cons]
        exact Or.inr (by simpa [keysOf] using hm)

theorem insKeep_mem_old {α : Type} {k : String} {v : α} {k2 : String} {v2 : α} :
    ∀ {m : Smap α}, (k2, v2) ∈ m → ¬k = k2 → (k2, v2) ∈ insKeep k v m
  | [], h, _ => absurd h (List.not_mem_nil _)
  | (k', v') :: t, h, hne => by
    rw [insKeep]
    split
    · exact List.mem_cons_of_mem _ h
    · split
      · exact h
      · rcases List.mem_cons.mp h with he | h2
        · rw [he]
          exact List.mem_cons_self _ _
        · exact List.mem_cons_of_mem _ (insKeep_mem_old h2 hne)

theorem collectMap_mem_nodup {α : Type} {k : String} {v : α} :
    ∀ {l : List (String × α)}, (keysOf l).Nodup → (k, v) ∈ l →
      (k, v) ∈ collectMap l
  | [], _, h => absurd h (List.not_mem_nil _)
  | (k', v') :: t, hnd, hm => by
    have hnd' : (k' :: keysOf t).Nodup := by simpa [keysOf] using hnd
    obtain ⟨hh, ht⟩ := List.nodup_cons.mp hnd'
    rw [show collectMap ((k', v') :: t) = insKeep k' v' (collectMap t) from rfl]
    rcases List.mem_cons.mp hm with he | h2
    · obtain ⟨he1, he2⟩ := Prod.mk.injEq .. ▸ he
      subst he1
      subst he2
      exact insKeep_mem_new (fun hc => hh (keysOf_collectMap_sub hc))
    · refine insKeep_mem_old (collectMap_mem_nodup ht h2) (fun he => ?_)
      subst he
      exact hh (by simpa [keysOf] using List.mem_map_of_mem Prod.fst h2)

theorem extras_mem {kvs : Omap} {decl : List String} {k : String} {v : Json}
    (hnd : (keysOf kvs).Nodup) (hm : (k, v) ∈ kvs) (hk : ¬k ∈ decl) :
    (k, v) ∈ extras kvs decl := by
  unfold extras
  apply collectMap_mem_nodup
  · exact hnd.sublist ((kvs.filter_sublist ).map Prod.fst)
  · refine List.mem_filter.mpr ⟨hm, ?_⟩
    simp only [Bool.not_eq_eq_eq_not, Bool.not_true, List.contains]
    simp [List.elem_eq_mem, hk]

theorem extras_mem_not_declared {kvs : Omap} {decl : List String} {k : String}
    {v : Json} (h : (k, v) ∈ extras kvs decl) : ¬k ∈ decl := by
  intro hk
  have h2 := mem_collectMap_inv h
  have h3 := (List.mem_filter.mp h2).2
  simp only [List.contains] at h3
  simp [List.elem_eq_mem, hk] at h3

theorem getF_snoc_ne {k k' : String} (hne : ¬k = k') (v : Json) :
    ∀ l : Omap, getF (l ++ [(k, v)]) k' = getF l k'
  | [] => by simp [getF, hne]
  | (k2, v2) :: t => by
    by_cases h2 : k2 = k'
    · subst h2
      have ih := getF_snoc_ne hne v t
      simp [getF, ih]
    · rw [List.cons_append, getF_cons_ne _ _ _ _ h2, getF_cons_ne _ _ _ _ h2]
      exact getF_snoc_ne hne v t

theorem reqF_snoc_ne {α : Type} {k k' : String} (hne : ¬k = k') (v : Json)
    (l : Omap) (dec : Json → DRes α) :
    reqF (l ++ [(k, v)]) k' dec = reqF l k' dec := by
  simp [reqF, getF_snoc_ne hne v l]

theorem optF_snoc_ne {α : Type} {k k' : String} (hne : ¬k = k') (v : Json)
    (l : Omap) (dec : Json → DRes α) :
    optF (l ++ [(k, v)]) k' dec = optF l k' dec := by
  simp [optF, getF_snoc_ne hne v l]

theorem v2_decSwagger_inv {kvs : Omap} {x : V2.Swagger}
    (h : V2.decSwagger (.obj kvs) = .ok x) :
    reqF kvs "swagger" asStr = .ok x.swagger ∧
    optF kvs "SecurityScheme" (decSmap V2.decSecurityScheme) =
      .ok x.security_definitions ∧
    x.extensions = extras kvs V2.declSwagger := by
  simp only [V2.decSwagger] at h
  obtain ⟨swagger, h1, h⟩ := dbind_inv h
  obtain ⟨info, h2, h⟩ := dbind_inv h
  obtain ⟨host, h3, h⟩ := dbind_inv h
  obtain ⟨base_path, h4, h⟩ := dbind_inv h
  obtain ⟨schemas, h5, h⟩ := dbind_inv h
  obtain ⟨consumes, h6, h⟩ := dbind_inv h
  obtain ⟨produces, h7, h⟩ := dbind_inv h
  obtain ⟨paths, h8, h⟩ := dbind_inv h
  obtain ⟨definitions, h9, h⟩ := dbind_inv h
  obtain ⟨parameters, h10, h⟩ := dbind_inv h
  obtain ⟨responses, h11, h⟩ := dbind_inv h
  obtain ⟨security_definitions, h12, h⟩ := dbind_inv h
  obtain ⟨security, h13, h⟩ := dbind_inv h
  obtain ⟨tags, h14, h⟩ := dbind_inv h
  obtain ⟨external_docs, h15, h⟩ := dbind_inv h
  have hx := Except.ok.inj h
  subst hx
  exact ⟨h1, h12, rfl⟩

theorem v3_decInfo_inv {kvs : Omap} {x : V3.Info}
    (h : V3.decInfo (.obj kvs) = .ok x) :
    reqF kvs "title" asStr = .ok x.title ∧
    x.extensions = extras kvs V3.declInfo := by
  simp only [V3.decInfo] at h
  obtain ⟨title, h1, h⟩ := dbind_inv h
  obtain ⟨description, h2, h⟩ := dbind_inv h
  obtain ⟨terms_of_service, h3, h⟩ := dbind_inv h
  obtain ⟨contact, h4, h⟩ := dbind_inv h
  obtain ⟨license, h5, h⟩ := dbind_inv h
  obtain ⟨version, h6, h⟩ := dbind_inv h
  have hx := Except.ok.inj h
  subst hx
  exact ⟨h1, rfl⟩

theorem v2_decResponse_inv {kvs : Omap} {x : V2.Response}
    (h : V2.decResponse (.obj kvs) = .ok x) :
    x.extensions = extras kvs V2.declResponse := by
  simp only [V2.decResponse] at h
  obtain ⟨description, h1, h⟩ := dbind_inv h
  obtain ⟨schema, h2, h⟩ := dbind_inv h
  obtain ⟨headers, h3, h⟩ := dbind_inv h
  obtain ⟨examples, h4, h⟩ := dbind_inv h
  have hx := Except.ok.inj h
  subst hx
  rfl

theorem v3_decOpenApi_snoc {kvs : Omap} {k : String} {v : Json}
    (hk : ¬k ∈ V3.declOpenApi) :
    V3.decOpenApi (.obj (kvs ++ [(k, v)])) = V3.decOpenApi (.obj kvs) := by
  have e1 : ¬k = "openapi" := fun he => hk (by rw [he]; simp)
  have e2 : ¬k = "info" := fun he => hk (by rw [he]; simp)
  have e3 : ¬k = "servers" := fun he => hk (by rw [he]; simp)
  have e4 : ¬k = "paths" := fun he => hk (by rw [he]; simp)
  have e5 : ¬k = "components" := fun he => hk (by rw [he]; simp)
  have e6 : ¬k = "security" := fun he => hk (by rw [he]; simp)
  have e7 : ¬k = "tags" := fun he => hk (by rw [he]; simp)
  have e8 : ¬k = "externalDocs" := fun he => hk (by rw [he]; simp)
  simp only [V3.decOpenApi, reqF_snoc_ne e1, reqF_snoc_ne e2, optF_snoc_ne e3,
    reqF_snoc_ne e4, optF_snoc_ne e5, optF_snoc_ne e6, optF_snoc_ne e7,
    optF_snoc_ne e8]

theorem v3_encOpenApi_keys_declared (x : V3.OpenApi) {ms : Omap}
    (h : V3.encOpenApi x = .obj ms) {k : String} (hk : k ∈ keysOf ms) :
    k ∈ V3.declOpenApi := by
  obtain ⟨openapi, info, servers, paths, components, security, tags,
    external_docs⟩ := x
  rw [show V3.encOpenApi ⟨openapi, info, servers, paths, components, security,
      tags, external_docs⟩ =
    .obj (eReq "openapi" (.str openapi) ++ eReq "info" (V3.encInfo info) ++
      eOpt "servers" (encList V3.encServer) servers ++
      eReq "paths" (encSmap V3.encPathItem paths) ++
      eOpt "components" V3.encComponents components ++
      eOpt "security" V3.encSecurityRequirement security ++
      eOpt "tags" (encList V3.encTag) tags ++
      eOpt "externalDocs" V3.encExternalDoc external_docs) from rfl] at h
  injection h with h2
  subst h2
  cases servers <;> cases components <;> cases security <;> cases tags <;>
    cases external_docs <;>
    (simp only [keysOf, eReq, eOpt, List.map_append, List.map_cons, List.map_nil,
      List.mem_append, List.mem_cons, List.not_mem_nil, or_false] at hk
     simp only [V3.declOpenApi, List.mem_cons, List.not_mem_nil]
     tauto)

/-! ## The claims -/

/-- C1 counterexample: a document whose top-level object satisfies both the V2
root required-field shape (string `swagger`, `info`, `paths`) and the V3 root
required-field shape (string `openapi`, `info`, `paths`) — but whose optional
v2 field `consumes` is a number — decodes as the `V3` variant, not `V2`: the
required-field shape does not suffice for the V2 candidate to win. -/
theorem c1_counterexample :
    parseJson "\x7b\"swagger\":\"2.0\",\"openapi\":\"3.0.0\",\"info\":\x7b\"title\":\"t\"\x7d,\"paths\":\x7b\x7d,\"consumes\":5\x7d" =
      .ok (.obj [("swagger", Json.str "2.0"), ("openapi", Json.str "3.0.0"),
        ("info", Json.obj [("title", Json.str "t")]), ("paths", Json.obj []),
        ("consumes", Json.num 5)]) ∧
    fromStr "\x7b\"swagger\":\"2.0\",\"openapi\":\"3.0.0\",\"info\":\x7b\"title\":\"t\"\x7d,\"paths\":\x7b\x7d,\"consumes\":5\x7d" =
      .ok (.V3 ⟨"3.0.0", ⟨"t", none, none, none, none, none, []⟩, none, [],
        none, none, none, none⟩) :=
  ⟨rfl, rfl⟩

/-- C1 (amended): the version precedence holds at the level of full structural
matches — whenever the `V2(Swagger)` candidate decodes successfully, the
untagged `Doc` decoder returns the `V2` variant, and the `V3` candidate is
never consulted. -/
theorem c1_v2_precedence (j : Json) (s : V2.Swagger)
    (h : V2.decSwagger j = .ok s) : decDoc j = .ok (.V2 s) := by
  simp [decDoc, h]

/-- C1 witness: a minimal document carrying both root shapes on which the V2
candidate fully decodes; the untagged decoder picks `V2`. -/
theorem c1_v2_precedence_witness :
    V2.decSwagger (.obj [("swagger", Json.str "2.0"),
      ("openapi", Json.str "3.0.0"),
      ("info", Json.obj [("title", Json.str "t")]), ("paths", Json.obj [])]) =
      .ok ⟨"2.0", ⟨"t", none, none, none, none, none, []⟩, none, none, none,
        none, none, [], none, none, none, none, none, none, none,
        [("openapi", Json.str "3.0.0")]⟩ ∧
    decDoc (.obj [("swagger", Json.str "2.0"), ("openapi", Json.str "3.0.0"),
      ("info", Json.obj [("title", Json.str "t")]), ("paths", Json.obj [])]) =
      .ok (.V2 ⟨"2.0", ⟨"t", none, none, none, none, none, []⟩, none, none,
        none, none, none, [], none, none, none, none, none, none, none,
        [("openapi", Json.str "3.0.0")]⟩) :=
  ⟨rfl, c1_v2_precedence _ _ rfl⟩

/-- C2 counterexample: a structurally well-typed v2 document whose single
inline parameter's extensions bag binds `$ref` to a string does not round
trip — its serialization re-decodes with that parameter as a `Reference`. -/
theorem c2_counterexample : decDoc (encDoc refExtDoc) ≠ .ok refExtDoc := by
  intro h
  have hb := congrArg firstParamIsInline h
  rw [show firstParamIsInline (decDoc (encDoc refExtDoc)) = false from rfl] at hb
  rw [show firstParamIsInline (Except.ok refExtDoc) = true from rfl] at hb
  exact Bool.noConfusion hb

/-- C2 (amended): decode after encode is the identity on all well-formed
documents (`goodDoc`): maps sorted as a `BTreeMap` serializes them, and no
inline object at a reference-or-inline position whose extensions bag binds
`$ref` to a string. -/
theorem c2_round_trip (d : Doc) (h : goodDoc d = true) :
    decDoc (encDoc d) = .ok d :=
  decDoc_encDoc d h

/-- C2 witness: a minimal well-formed v2 document round trips. -/
theorem c2_round_trip_witness :
    goodDoc (.V2 ⟨"2.0", ⟨"t", none, none, none, none, none, []⟩, none, none,
      none, none, none, [], none, none, none, none, none, none, none, []⟩) =
      true ∧
    decDoc (encDoc (.V2 ⟨"2.0", ⟨"t", none, none, none, none, none, []⟩, none,
      none, none, none, none, [], none, none, none, none, none, none, none,
      []⟩)) =
      .ok (.V2 ⟨"2.0", ⟨"t", none, none, none, none, none, []⟩, none, none,
        none, none, none, [], none, none, none, none, none, none, none, []⟩) :=
  ⟨rfl, c2_round_trip _ rfl⟩

/-- C3: an object whose (unique) `$ref` key holds a string decodes at any
reference-or-inline position as the `Ref` variant carrying exactly that
string — whatever the sibling keys are, and whatever the inline decoder `decT`
would have said. -/
theorem c3_reference_precedence {α : Type} (decT : Json → DRes α) (kvs : Omap)
    (s : String) (h : getF kvs "$ref" = .ok (some (.str s))) :
    decRefOr decT (.obj kvs) = .ok (.ref ⟨s⟩) := by
  simp [decRefOr, decReference, reqF, h, asStr]

/-- C3 witness: the spec's own example at a `RefOrObject Schema` position:
the sibling `type` key is discarded. -/
theorem c3_reference_precedence_witness :
    getF [("$ref", Json.str "#/definitions/Pet"), ("type", Json.str "object")]
      "$ref" = .ok (some (.str "#/definitions/Pet")) ∧
    decRefOr V3.decSchema
      (.obj [("$ref", Json.str "#/definitions/Pet"),
        ("type", Json.str "object")]) = .ok (.ref ⟨"#/definitions/Pet"⟩) :=
  ⟨rfl, c3_reference_precedence V3.decSchema _ _ rfl⟩

/-- C4 counterexample: `\x7b"$ref": 5\x7d` — the pointer key present but
malformed as a `Reference` — is NOT a decode failure at a
`RefOrObject Schema` position: the `Reference` trial fails and the decoder
falls back to the inline trial, which accepts the object as an (empty) inline
`Schema`, the unknown `$ref` key ignored. -/
theorem c4_counterexample :
    decReference (Json.obj [("$ref", Json.num 5)]) = .error .typeMismatch ∧
    decRefOr V3.decSchema (Json.obj [("$ref", Json.num 5)]) =
      .ok (.obj (.mk ⟨none, none, none, none, none, none, none, none, none,
        none, none, none, none, none, none, none, none, none, none, none, none,
        none, none, none, none, none, none, none, none, none, none, none, none,
        none, none⟩)) :=
  ⟨rfl, rfl⟩

/-- C4 (amended): when the `Reference` trial fails — in particular on a
malformed pointer value — the untagged decoder falls back to the inline trial:
the result is `Object(t)` if the inline decode succeeds and the
no-variant-matched error if it also fails.  There is no error short-circuit on
a present-but-malformed `$ref`. -/
theorem c4_fallback {α : Type} (decT : Json → DRes α) (j : Json) (e : DErr)
    (h : decReference j = .error e) :
    decRefOr decT j =
      match decT j with
      | .ok t => .ok (.obj t)
      | .error _ => .error .noVariantMatched := by
  simp only [decRefOr, h]

/-- C4 witness: the fallback at the counterexample's input. -/
theorem c4_fallback_witness :
    decReference (Json.obj [("$ref", Json.num 5), ("title", Json.str "t")]) =
      .error .typeMismatch ∧
    decRefOr V3.decSchema
        (Json.obj [("$ref", Json.num 5), ("title", Json.str "t")]) =
      match V3.decSchema (Json.obj [("$ref", Json.num 5),
        ("title", Json.str "t")]) with
      | .ok t => .ok (.obj t)
      | .error _ => .error .noVariantMatched :=
  ⟨rfl, c4_fallback V3.decSchema _ _ rfl⟩

/-- C5: decoding an object into an extension-carrying type (the cited
`Swagger` and v3 `Info`) places every key that is not a declared field name —
`x-`-prefixed or not — verbatim into the extensions bag, and re-encoding emits
the pair again at the same object level. -/
theorem c5_extension_capture :
    (∀ (kvs : Omap) (x : V2.Swagger) (k : String) (v : Json),
      V2.decSwagger (.obj kvs) = .ok x → (keysOf kvs).Nodup → (k, v) ∈ kvs →
      ¬k ∈ V2.declSwagger →
      (k, v) ∈ x.extensions ∧ ∃ ms, V2.encSwagger x = .obj ms ∧ (k, v) ∈ ms) ∧
    (∀ (kvs : Omap) (x : V3.Info) (k : String) (v : Json),
      V3.decInfo (.obj kvs) = .ok x → (keysOf kvs).Nodup → (k, v) ∈ kvs →
      ¬k ∈ V3.declInfo →
      (k, v) ∈ x.extensions ∧ ∃ ms, V3.encInfo x = .obj ms ∧ (k, v) ∈ ms) := by
  constructor
  · intro kvs x k v hdec hnd hm hk
    have hext := (v2_decSwagger_inv hdec).2.2
    have hmem : (k, v) ∈ x.extensions := by
      rw [hext]
      exact extras_mem hnd hm hk
    exact ⟨hmem, _, rfl, List.mem_append_right _ hmem⟩
  · intro kvs x k v hdec hnd hm hk
    have hext := (v3_decInfo_inv hdec).2
    have hmem : (k, v) ∈ x.extensions := by
      rw [hext]
      exact extras_mem hnd hm hk
    exact ⟨hmem, _, rfl, List.mem_append_right _ hmem⟩

/-- C5 witness: an `x-a` key on a minimal v2 root is captured and re-emitted. -/
theorem c5_extension_capture_witness :
    ("x-a", Json.num 1) ∈
      (⟨"2.0", ⟨"t", none, none, none, none, none, []⟩, none, none, none, none,
        none, [], none, none, none, none, none, none, none,
        [("x-a", Json.num 1)]⟩ : V2.Swagger).extensions ∧
    ∃ ms, V2.encSwagger ⟨"2.0", ⟨"t", none, none, none, none, none, []⟩, none,
      none, none, none, none, [], none, none, none, none, none, none, none,
      [("x-a", Json.num 1)]⟩ = .obj ms ∧ ("x-a", Json.num 1) ∈ ms :=
  c5_extension_capture.1
    [("swagger", Json.str "2.0"), ("info", Json.obj [("title", Json.str "t")]),
      ("paths", Json.obj []), ("x-a", Json.num 1)]
    ⟨"2.0", ⟨"t", none, none, none, none, none, []⟩, none, none, none, none,
      none, [], none, none, none, none, none, none, none,
      [("x-a", Json.num 1)]⟩
    "x-a" (Json.num 1) rfl (by decide) (by simp) (by decide)

/-- C6: a key equal to a declared field's serialized key is consumed by that
field during decode — witnessed by the field decoders reading it — and never
appears in the decoded value's extensions bag (shown for the cited `Swagger`
and v3 `Info`). -/
theorem c6_declared_keys_consumed :
    (∀ (kvs : Omap) (x : V2.Swagger), V2.decSwagger (.obj kvs) = .ok x →
      reqF kvs "swagger" asStr = .ok x.swagger ∧
      ∀ (k : String) (v : Json), k ∈ V2.declSwagger → ¬(k, v) ∈ x.extensions) ∧
    (∀ (kvs : Omap) (x : V3.Info), V3.decInfo (.obj kvs) = .ok x →
      reqF kvs "title" asStr = .ok x.title ∧
      ∀ (k : String) (v : Json), k ∈ V3.declInfo → ¬(k, v) ∈ x.extensions) := by
  constructor
  · intro kvs x hdec
    obtain ⟨h1, _, hext⟩ := v2_decSwagger_inv hdec
    refine ⟨h1, fun k v hk hm => ?_⟩
    rw [hext] at hm
    exact extras_mem_not_declared hm hk
  · intro kvs x hdec
    obtain ⟨h1, hext⟩ := v3_decInfo_inv hdec
    refine ⟨h1, fun k v hk hm => ?_⟩
    rw [hext] at hm
    exact extras_mem_not_declared hm hk

/-- C6 witness: on a minimal v2 root, the `swagger` key feeds the `swagger`
field and stays out of the extensions bag. -/
theorem c6_declared_keys_consumed_witness :
    reqF [("swagger", Json.str "2.0"),
      ("info", Json.obj [("title", Json.str "t")]), ("paths", Json.obj [])]
      "swagger" asStr =
      .ok (⟨"2.0", ⟨"t", none, none, none, none, none, []⟩, none, none, none,
        none, none, [], none, none, none, none, none, none, none,
        []⟩ : V2.Swagger).swagger ∧
    ¬("swagger", Json.str "2.0") ∈
      (⟨"2.0", ⟨"t", none, none, none, none, none, []⟩, none, none, none,
        none, none, [], none, none, none, none, none, none, none,
        []⟩ : V2.Swagger).extensions :=
  ⟨(c6_declared_keys_consumed.1
      [("swagger", Json.str "2.0"),
        ("info", Json.obj [("title", Json.str "t")]), ("paths", Json.obj [])]
      ⟨"2.0", ⟨"t", none, none, none, none, none, []⟩, none, none, none, none,
        none, [], none, none, none, none, none, none, none, []⟩ rfl).1,
    (c6_declared_keys_consumed.1
      [("swagger", Json.str "2.0"),
        ("info", Json.obj [("title", Json.str "t")]), ("paths", Json.obj [])]
      ⟨"2.0", ⟨"t", none, none, none, none, none, []⟩, none, none, none, none,
        none, [], none, none, none, none, none, none, none, []⟩ rfl).2
      "swagger" (Json.str "2.0") (by simp)⟩

/-- C7 counterexample: decoding the empty string is a syntax error of the JSON
stage (`malformed`), not the untagged-enum `noVariantMatched` failure. -/
theorem c7_counterexample : fromStr "" ≠ .error DErr.noVariantMatched := by
  intro h
  rw [show fromStr "" = .error DErr.malformed from rfl] at h
  simp at h

/-- C7 (amended): the empty string fails at the JSON syntax stage with
`malformed`, while `\x7b\x7d` — valid JSON missing every required root
field — exhausts both candidates and fails with `noVariantMatched`. -/
theorem c7_empty_inputs :
    fromStr "" = .error .malformed ∧
    fromStr "\x7b\x7d" = .error .noVariantMatched :=
  ⟨rfl, rfl⟩

/-- C8 counterexample: an object with a string `description`, a `$ref` key and
a malformed `schema` decodes at the v2 response position as the `Ref` case —
the inline trial fails first, and the claim's "always inline, `$ref`
captured" does not hold for every such object. -/
theorem c8_counterexample :
    V2.decResponseOrRef (.obj [("description", Json.str "d"),
      ("$ref", Json.str "r"), ("schema", Json.num 5)]) = .ok (.ref "r") :=
  rfl

/-- C8 (amended): the v2 response position is inline-first: whenever the
inline `Response` decode succeeds, the result is the inline case — a `$ref`
sibling does not override it and is captured into the response's extensions
bag. -/
theorem c8_inline_first (kvs : Omap) (r : V2.Response)
    (h : V2.decResponse (.obj kvs) = .ok r) :
    V2.decResponseOrRef (.obj kvs) = .ok (.response r) ∧
    ∀ v, (keysOf kvs).Nodup → ("$ref", v) ∈ kvs → ("$ref", v) ∈ r.extensions := by
  constructor
  · simp [V2.decResponseOrRef, h]
  · intro v hnd hm
    rw [v2_decResponse_inv h]
    exact extras_mem hnd hm (by decide)

/-- C8 witness: `description` plus `$ref` decodes inline with `$ref` in the
extensions bag. -/
theorem c8_inline_first_witness :
    V2.decResponseOrRef (.obj [("description", Json.str "d"),
      ("$ref", Json.str "r")]) =
      .ok (.response ⟨"d", none, none, none, [("$ref", Json.str "r")]⟩) ∧
    ("$ref", Json.str "r") ∈
      (⟨"d", none, none, none,
        [("$ref", Json.str "r")]⟩ : V2.Response).extensions :=
  ⟨(c8_inline_first [("description", Json.str "d"), ("$ref", Json.str "r")]
      ⟨"d", none, none, none, [("$ref", Json.str "r")]⟩ rfl).1,
    (c8_inline_first [("description", Json.str "d"), ("$ref", Json.str "r")]
      ⟨"d", none, none, none, [("$ref", Json.str "r")]⟩ rfl).2
      (Json.str "r") (by decide) (by simp)⟩

/-- C9: the v3 root carries no extensions bag — appending an undeclared
top-level key leaves the decode result unchanged (silently dropped), the v3
encoder never emits an undeclared key, and, by contrast, the v2 root captures
such a key into its extensions bag. -/
theorem c9_v3_root_no_extensions :
    (∀ (kvs : Omap) (k : String) (v : Json), ¬k ∈ V3.declOpenApi →
      V3.decOpenApi (.obj (kvs ++ [(k, v)])) = V3.decOpenApi (.obj kvs)) ∧
    (∀ (x : V3.OpenApi) (ms : Omap), V3.encOpenApi x = .obj ms →
      ∀ (k : String) (v : Json), ¬k ∈ V3.declOpenApi → ¬(k, v) ∈ ms) ∧
    (∀ (kvs : Omap) (s : V2.Swagger) (k : String) (v : Json),
      V2.decSwagger (.obj kvs) = .ok s → (keysOf kvs).Nodup → (k, v) ∈ kvs →
      ¬k ∈ V2.declSwagger → (k, v) ∈ s.extensions) := by
  refine ⟨fun kvs k v hk => v3_decOpenApi_snoc hk, ?_, ?_⟩
  · intro x ms h k v hk hm
    exact hk (v3_encOpenApi_keys_declared x h
      (by simpa [keysOf] using List.mem_map_of_mem Prod.fst hm))
  · intro kvs s k v hdec hnd hm hk
    rw [(v2_decSwagger_inv hdec).2.2]
    exact extras_mem hnd hm hk

/-- C9 witness: an `x-extra` key appended to a minimal v3 root does not change
the decode result. -/
theorem c9_v3_root_no_extensions_witness :
    V3.decOpenApi (.obj ([("openapi", Json.str "3.0.0"),
      ("info", Json.obj [("title", Json.str "t")]), ("paths", Json.obj [])] ++
      [("x-extra", Json.num 1)])) =
    V3.decOpenApi (.obj [("openapi", Json.str "3.0.0"),
      ("info", Json.obj [("title", Json.str "t")]), ("paths", Json.obj [])]) :=
  c9_v3_root_no_extensions.1 _ "x-extra" (Json.num 1) (by decide)

/-- C10 counterexample: a v2 document carrying BOTH a `SecurityScheme` key and
a `securityDefinitions` key decodes with `security_definitions = some _`, not
`none` — the claim's "security_definitions is None for every document
containing a securityDefinitions key" fails (the bag capture itself holds). -/
theorem c10_counterexample :
    V2.decSwagger (.obj [("swagger", Json.str "2.0"),
      ("info", Json.obj [("title", Json.str "t")]), ("paths", Json.obj []),
      ("SecurityScheme", Json.obj []),
      ("securityDefinitions", Json.str "x")]) =
      .ok ⟨"2.0", ⟨"t", none, none, none, none, none, []⟩, none, none, none,
        none, none, [], none, none, none, some [], none, none, none,
        [("securityDefinitions", Json.str "x")]⟩ ∧
    (some ([] : Smap V2.SecurityScheme) ≠ none) :=
  ⟨rfl, by simp⟩

/-- C10 (amended): the v2 security-scheme table is bound to the serialized key
`SecurityScheme`: the field is decoded from that key alone (absent key —
`none`), a `securityDefinitions` key is undeclared and lands in the root
extensions bag, and a populated table re-encodes under `SecurityScheme`. -/
theorem c10_security_scheme_key (kvs : Omap) (x : V2.Swagger)
    (h : V2.decSwagger (.obj kvs) = .ok x) :
    optF kvs "SecurityScheme" (decSmap V2.decSecurityScheme) =
      .ok x.security_definitions ∧
    (getF kvs "SecurityScheme" = .ok none → x.security_definitions = none) ∧
    (∀ v, (keysOf kvs).Nodup → ("securityDefinitions", v) ∈ kvs →
      ("securityDefinitions", v) ∈ x.extensions) ∧
    (∀ m, x.security_definitions = some m →
      ∃ ms, V2.encSwagger x = .obj ms ∧
        ("SecurityScheme", encSmap V2.encSecurityScheme m) ∈ ms) := by
  obtain ⟨_, h12, hext⟩ := v2_decSwagger_inv h
  refine ⟨h12, fun hg => ?_, fun v hnd hm => ?_, fun m hsd => ?_⟩
  · have h2 := h12
    simp only [optF, hg] at h2
    exact (Except.ok.inj h2).symm
  · rw [hext]
    exact extras_mem hnd hm (by decide)
  · refine ⟨_, rfl, ?_⟩
    simp [V2.encSwagger, eOpt, hsd]

/-- C10 witness: with no `SecurityScheme` key the table is `none`, and the
`securityDefinitions` key lands in the extensions bag. -/
theorem c10_security_scheme_key_witness :
    (⟨"2.0", ⟨"t", none, none, none, none, none, []⟩, none, none, none, none,
      none, [], none, none, none, none, none, none, none,
      [("securityDefinitions", Json.str "x")]⟩ :
        V2.Swagger).security_definitions = none ∧
    ("securityDefinitions", Json.str "x") ∈
      (⟨"2.0", ⟨"t", none, none, none, none, none, []⟩, none, none, none,
        none, none, [], none, none, none, none, none, none, none,
        [("securityDefinitions", Json.str "x")]⟩ : V2.Swagger).extensions :=
  ⟨(c10_security_scheme_key
      [("swagger", Json.str "2.0"),
        ("info", Json.obj [("title", Json.str "t")]), ("paths", Json.obj []),
        ("securityDefinitions", Json.str "x")]
      ⟨"2.0", ⟨"t", none, none, none, none, none, []⟩, none, none, none, none,
        none, [], none, none, none, none, none, none, none,
        [("securityDefinitions", Json.str "x")]⟩ rfl).2.1 rfl,
    (c10_security_scheme_key
      [("swagger", Json.str "2.0"),
        ("info", Json.obj [("title", Json.str "t")]), ("paths", Json.obj []),
        ("securityDefinitions", Json.str "x")]
      ⟨"2.0", ⟨"t", none, none, none, none, none, []⟩, none, none, none, none,
        none, [], none, none, none, none, none, none, none,
        [("securityDefinitions", Json.str "x")]⟩ rfl).2.2.1
      (Json.str "x") (by decide) (by simp)⟩
